import Mathlib

/-!
Verification development for the slurmctld job-step manager
(`src/slurmctld/step_mgr.c`).  The C code is shallowly embedded: bitmaps
(`bitstr_t`) become `List Bool`, per-node counter arrays become `List Nat`,
and the mutating C functions become pure functions from state to state.
Machine integers are modelled as `Nat`, with explicit two's-complement
conversions (`intOfU32`, `u32ofInt`) at the places where the C code mixes
signed `int` and `uint32_t` arithmetic.  External collaborators that are not
part of this repository (GRES / switch / checkpoint plugins, the hostlist
parser, `slurm_step_layout_create` from src/common) are modelled as function
parameters collected in `PluginEnv`; everything else is translated directly
from the source.
-/

/-! ### Two's-complement helpers for the C integer conversions -/

/-- Conversion of a `uint32_t` value to a C `int` (two's complement). -/
def intOfU32 (n : Nat) : Int :=
  if n % 4294967296 < 2147483648 then ((n % 4294967296 : Nat) : Int)
  else ((n % 4294967296 : Nat) : Int) - 4294967296

/-- Conversion of a C `int` (or any integer expression) to `uint32_t`. -/
def u32ofInt (x : Int) : Nat := (x % 4294967296).toNat

/-- Subtraction of two `uint32_t` values, with wrap-around, as in C. -/
def u32sub (a b : Nat) : Nat := u32ofInt ((a : Int) - (b : Int))

/-! ### Bitmap primitives (bitstring.c API over `List Bool`) -/

/-- Bitmaps (`bitstr_t`) are lists of booleans indexed from 0. -/
abbrev Bitmap := List Bool

/-- C `bit_test`: bit `i` of `b` (false when out of range). -/
def bit_test (b : Bitmap) (i : Nat) : Bool := b.getD i false

/-- C `bit_set`: set bit `i` of `b`. -/
def bit_set (b : Bitmap) (i : Nat) : Bitmap := b.set i true

/-- C `bit_clear`: clear bit `i` of `b`. -/
def bit_clear (b : Bitmap) (i : Nat) : Bitmap := b.set i false

/-- C `bit_and`: pointwise conjunction. -/
def bit_and (a b : Bitmap) : Bitmap := List.zipWith and a b

/-- C `bit_or`: pointwise disjunction. -/
def bit_or (a b : Bitmap) : Bitmap := List.zipWith or a b

/-- C `bit_not`: pointwise complement. -/
def bit_not (a : Bitmap) : Bitmap := a.map (fun x => !x)

/-- C `bit_set_count`: number of set bits. -/
def bit_set_count (b : Bitmap) : Nat := (b.filter (fun x => x)).length

/-- C `bit_clear_count`: number of clear bits. -/
def bit_clear_count (b : Bitmap) : Nat := (b.filter (fun x => !x)).length

/-- C `bit_super_set b1 b2`: every set bit of `b1` is set in `b2`. -/
def bit_super_set (b1 b2 : Bitmap) : Bool :=
  (List.range b1.length).all (fun i => !(bit_test b1 i) || bit_test b2 i)

/-- C `bit_equal`: same size and same bits. -/
def bit_equal (a b : Bitmap) : Bool := a == b

/-- C `bit_nset`: set bits `first ≤ i ≤ last` (inclusive) of `b`. -/
def bit_nset (b : Bitmap) (first last : Nat) : Bitmap :=
  (List.range b.length).map (fun i =>
    if first ≤ i ∧ i ≤ last then true else b.getD i false)

/-- Helper for `bit_pick_cnt`: keep the first `n` set bits, clear the rest. -/
def bit_pick_cnt_keep : Bitmap → Nat → Bitmap
  | [], _ => []
  | x :: rest, n =>
    if x then
      if n = 0 then false :: bit_pick_cnt_keep rest 0
      else true :: bit_pick_cnt_keep rest (n - 1)
    else false :: bit_pick_cnt_keep rest n

/-- C `bit_pick_cnt b n`: bitmap of the first `n` set bits of `b`, or NULL
(`none`) when `b` has fewer than `n` set bits. -/
def bit_pick_cnt (b : Bitmap) (n : Nat) : Option Bitmap :=
  if bit_set_count b < n then none else some (bit_pick_cnt_keep b n)

/-- Enumeration of the set bits of a bitmap as pairs
`(global index, rank among set bits)`; mirrors the C idiom of walking
`bit_ffs..bit_fls` while incrementing a node-index counter. -/
def bitRanksAux : Bitmap → Nat → Nat → List (Nat × Nat)
  | [], _, _ => []
  | false :: rest, i, r => bitRanksAux rest (i + 1) r
  | true :: rest, i, r => (i, r) :: bitRanksAux rest (i + 1) (r + 1)

/-- Set-bit positions of `b` paired with their rank (0-based). -/
def bitRanks (b : Bitmap) : List (Nat × Nat) := bitRanksAux b 0 0

/-- Global indices of the set bits of `b`. -/
def bitIndices (b : Bitmap) : List Nat := (bitRanks b).map (fun p => p.1)

/-- Sum of `f` over a list. -/
def sumBy (l : List α) (f : α → Nat) : Nat := (l.map f).sum

/-! ### slurm.h constants (external header, values as of this source tree) -/

/-- slurm.h INFINITE. -/
def INFINITE : Nat := 4294967295

/-- slurm.h NO_VAL. -/
def NO_VAL : Nat := 4294967294

/-- `(uint16_t) NO_VAL`, the sentinel used for 16-bit request fields. -/
def NO_VAL16 : Nat := 65534

/-- Step-id limit from `_create_step_record`: ids `≥ 0xfffffff0` are
reserved for sentinels. -/
def STEP_ID_LIMIT : Nat := 4294967280

/-- slurm.h task distribution: cyclic. -/
def SLURM_DIST_CYCLIC : Nat := 1

/-- slurm.h task distribution: block. -/
def SLURM_DIST_BLOCK : Nat := 2

/-- slurm.h task distribution: arbitrary. -/
def SLURM_DIST_ARBITRARY : Nat := 3

/-- slurm.h task distribution: plane. -/
def SLURM_DIST_PLANE : Nat := 4

/-- slurm.h task distribution: cyclic/cyclic. -/
def SLURM_DIST_CYCLIC_CYCLIC : Nat := 5

/-- slurm.h task distribution: cyclic/block. -/
def SLURM_DIST_CYCLIC_BLOCK : Nat := 6

/-- slurm.h task distribution: block/cyclic. -/
def SLURM_DIST_BLOCK_CYCLIC : Nat := 7

/-- slurm.h task distribution: block/block. -/
def SLURM_DIST_BLOCK_BLOCK : Nat := 8

/-- slurm.h job base state: pending. -/
def JOB_PENDING : Nat := 0

/-- slurm.h job base state: running. -/
def JOB_RUNNING : Nat := 1

/-- slurm.h job base state: suspended. -/
def JOB_SUSPENDED : Nat := 2

/-- slurm.h job base state: complete. -/
def JOB_COMPLETE : Nat := 3

/-- slurm.h job state flag: configuring (node booting). -/
def JOB_CONFIGURING : Nat := 16384

/-- slurm.h JOB_STATE_BASE mask. -/
def JOB_STATE_BASE : Nat := 255

/-- Return codes of the step manager.  The C code uses integer errno values
from slurm_errno.h / slurmd errno; only their identity matters here, so they
are modelled as an enumeration, with `plugin_rc` standing for codes coming
back from external plugins. -/
inductive Rc where
  | SLURM_SUCCESS
  | SLURM_ERROR
  | EINVAL
  | ESLURM_INVALID_JOB_ID
  | ESLURM_ALREADY_DONE
  | ESLURM_ACCESS_DENIED
  | ESLURM_DISABLED
  | ESLURM_DUPLICATE_JOB_ID
  | ESLURM_USER_ID_MISSING
  | ESLURM_BAD_DIST
  | ESLURM_TASKDIST_ARBITRARY_UNSUPPORTED
  | ESLURM_PATHNAME_TOO_LONG
  | ESLURM_BAD_TASK_COUNT
  | ESLURM_NODES_BUSY
  | ESLURM_NODE_NOT_AVAIL
  | ESLURM_REQUESTED_NODE_CONFIG_UNAVAILABLE
  | ESLURM_INVALID_NODE_COUNT
  | ESLURM_INVALID_TASK_MEMORY
  | ESLURM_INVALID_GRES
  | ESLURM_TOO_MANY_REQUESTED_CPUS
  | ESLURM_PROLOG_RUNNING
  | ESLURM_INVALID_TIME_LIMIT
  | ESLURM_INTERCONNECT_FAILURE
  | ESLURM_JOB_PENDING
  | ESLURMD_TOOMANYSTEPS
  | plugin_rc (n : Nat)
deriving DecidableEq

/-! ### Data model (slurmctld.h records restricted to what step_mgr.c uses) -/

/-- The part of `slurm_step_layout_t` the step manager reads: per-step-node
task counts and the node count.  Built by the external
`slurm_step_layout_create` from src/common. -/
structure StepLayout where
  tasks : List Nat
  node_cnt : Nat
deriving DecidableEq

/-- `struct step_record` (slurmctld.h), restricted to the fields step_mgr.c
reads or writes.  String-valued fields are represented by their lengths where
only `strlen` is observed; opaque plugin handles become `Nat` tokens. -/
structure StepRecord where
  step_id : Nat
  step_node_bitmap : Bitmap
  core_bitmap_job : Option Bitmap
  cpus_per_task : Nat
  mem_per_cpu : Nat
  cpu_count : Nat
  exclusive : Bool
  batch_step : Bool
  cyclic_alloc : Bool
  no_kill : Nat
  step_layout : Option StepLayout
  exit_node_bitmap : Option Bitmap
  exit_code : Nat
  time_limit : Nat
  start_time : Nat
  pre_sus_time : Nat
  tot_sus_time : Nat
  gres_handle : Nat
  switch_job : Bool
  resv_port_cnt : Nat
deriving DecidableEq

/-- `job_resources_t` (job_resources.h), the per-job allocation state the
step manager accounts against.  `sockets_per_node` / `cores_per_socket` are
given per job-node index (the C run-length encoding is expanded). -/
structure JobResources where
  node_bitmap : Bitmap
  nhosts : Nat
  cpus : List Nat
  cpus_used : List Nat
  memory_allocated : Option (List Nat)
  memory_used : Option (List Nat)
  core_bitmap : Bitmap
  core_bitmap_used : Bitmap
  sockets_per_node : List Nat
  cores_per_socket : List Nat
  cpu_array_cnt : Nat
  cpu_array_value : List Nat
deriving DecidableEq

/-- `struct job_record` (slurmctld.h), restricted to the fields step_mgr.c
uses.  `details_present` stands for `job_ptr->details != NULL` and
`prolog_running` for `details->prolog_running`; `part_max_time` is
`part_ptr->max_time`. -/
structure JobRecord where
  job_id : Nat
  user_id : Nat
  job_state : Nat
  step_list : List StepRecord
  next_step_id : Nat
  node_bitmap : Option Bitmap
  job_resrcs : JobResources
  gres_debits : List Nat
  details_present : Bool
  prolog_running : Bool
  end_time : Nat
  time_limit : Nat
  suspend_time : Nat
  part_max_time : Nat
  derived_ec : Nat
  total_cpus : Nat
deriving DecidableEq

/-- IS_JOB_PENDING from slurm.h: base state equals pending. -/
def IS_JOB_PENDING (job : JobRecord) : Bool := job.job_state % 256 = JOB_PENDING

/-- IS_JOB_RUNNING from slurm.h: base state equals running. -/
def IS_JOB_RUNNING (job : JobRecord) : Bool := job.job_state % 256 = JOB_RUNNING

/-- IS_JOB_SUSPENDED from slurm.h: base state equals suspended. -/
def IS_JOB_SUSPENDED (job : JobRecord) : Bool := job.job_state % 256 = JOB_SUSPENDED

/-- IS_JOB_FINISHED from slurm.h: base state past suspended. -/
def IS_JOB_FINISHED (job : JobRecord) : Bool := job.job_state % 256 > JOB_SUSPENDED

/-- External collaborators of step_mgr.c that live outside this repository
(plugins, node inventory, configuration), modelled as oracle functions.
`gres_step_test node_inx ignore_alloc` is `gres_plugin_step_test`;
`layout_create` is `slurm_step_layout_create` from src/common, taking the
expanded per-step-node usable-cpu list, the node count, the task count and
`cpus_per_task`, returning the per-node task vector.  `up_node_bitmap` and
`node_down_or_unresponsive` describe the node inventory;
`slurm_uid` is `getuid()` of the controller. -/
structure PluginEnv where
  up_node_bitmap : Bitmap
  node_power_save_or_no_respond : Nat → Bool
  gres_step_test : Nat → Bool → Nat
  gres_validate_rc : Rc
  gres_step_alloc : List Nat → Nat → Nat → List Nat
  gres_step_dealloc : List Nat → Nat → List Nat
  layout_create : List Nat → Nat → Nat → Nat → Option (List Nat)
  resv_port_alloc_rc : Rc
  switch_build_ok : Bool
  switch_elan : Bool
  gres_validate_handle : Nat
  mem_resv : Bool
  max_tasks_per_node : Nat
  enforce_part_limits : Bool
  slurm_uid : Nat

/-! ### Resource deallocation (`_step_dealloc_lps`, step_mgr.c:1324) -/

/-- Underflow log event emitted by `_step_dealloc_lps` when a credit would
drive a counter below zero (`error("... underflow ...")` in the C code).
`mem` is false for the cpu-counter underflow, true for the memory one. -/
structure UnderflowEvent where
  node : Nat
  mem : Bool
deriving DecidableEq

/-- Per-node credit of `_step_dealloc_lps` (step_mgr.c:1361-1381): credit
`amt` cpus back at job node `jni`, clamping at zero and logging an
underflow event instead of wrapping the counter.  The memory credit is the
C `uint32_t` product `mem_per_cpu * cpus_alloc` (step_mgr.c:1371), so it
wraps modulo `2^32` before the clamp comparison. -/
def dealloc_node_step (amt mpc : Nat) (mem_on : Bool) (jni : Nat)
    (cu : List Nat) (mu : Option (List Nat)) (logs : List UnderflowEvent) :
    List Nat × Option (List Nat) × List UnderflowEvent :=
  let old := cu.getD jni 0
  let cu' := if amt ≤ old then cu.set jni (old - amt) else cu.set jni 0
  let logs1 := if amt ≤ old then logs else logs ++ [⟨jni, false⟩]
  let mem_use := mpc * amt % 4294967296
  let memStep : Option (List Nat) × List UnderflowEvent :=
    if mem_on then
      match mu with
      | some m =>
        if mem_use ≤ m.getD jni 0 then
          (some (m.set jni (m.getD jni 0 - mem_use)), logs1)
        else (some (m.set jni 0), logs1 ++ [⟨jni, true⟩])
      | none => (none, logs1)
    else (mu, logs1)
  (cu', memStep.1, memStep.2)

def dealloc_nodes (step_node_bitmap : Bitmap) (tasks : List Nat)
    (node_cnt cpt mpc : Nat) (mem_on : Bool) :
    List (Nat × Nat) → Nat → List Nat → Option (List Nat) →
    List UnderflowEvent → List Nat × Option (List Nat) × List UnderflowEvent
  | [], _, cu, mu, logs => (cu, mu, logs)
  | (i, jni) :: rest, sni, cu, mu, logs =>
    if bit_test step_node_bitmap i then
      let out := dealloc_node_step (tasks.getD sni 0 * cpt) mpc mem_on jni
        cu mu logs
      if sni = node_cnt - 1 then out
      else dealloc_nodes step_node_bitmap tasks node_cnt cpt mpc mem_on
             rest (sni + 1) out.1 out.2.1 out.2.2
    else dealloc_nodes step_node_bitmap tasks node_cnt cpt mpc mem_on
           rest sni cu mu logs

/-- `_step_dealloc_lps` (step_mgr.c:1324-1404): release a step's cpu, memory
and core debits back to the job.  Batch steps (no layout) are a no-op, as is
an empty job-resources node bitmap.  Returns the updated job together with
the underflow events logged. -/
def step_dealloc_lps (mem_resv : Bool) (job : JobRecord) (step : StepRecord) :
    JobRecord × List UnderflowEvent :=
  match step.step_layout with
  | none => (job, [])
  | some lay =>
    let jr := job.job_resrcs
    if bit_set_count jr.node_bitmap = 0 then (job, [])
    else
      let mem_eff :=
        if step.mem_per_cpu ≠ 0 ∧ mem_resv ∧
           (jr.memory_allocated = none ∨ jr.memory_used = none) then 0
        else step.mem_per_cpu
      let mem_on := mem_eff ≠ 0 ∧ mem_resv
      let out := dealloc_nodes step.step_node_bitmap lay.tasks lay.node_cnt
                   step.cpus_per_task mem_eff mem_on
                   (bitRanks jr.node_bitmap) 0 jr.cpus_used jr.memory_used []
      let used' := match step.core_bitmap_job with
        | some cb => List.zipWith (fun u s => u && !s) jr.core_bitmap_used cb
        | none => jr.core_bitmap_used
      ({job with job_resrcs :=
          {jr with cpus_used := out.1, memory_used := out.2.1,
                   core_bitmap_used := used'}},
       out.2.2)

/-! ### Step registry (`find_step_record`, `delete_step_record`) -/

/-- `find_step_record` (step_mgr.c:263): first step whose id matches, with
`NO_VAL` acting as a wildcard for the first step. -/
def find_step_record (job : JobRecord) (step_id : Nat) : Option StepRecord :=
  job.step_list.find? (fun s => s.step_id == step_id || step_id == NO_VAL)

/-- Removal of the first step with a matching id from the registry list. -/
def remove_step : List StepRecord → Nat → List StepRecord
  | [], _ => []
  | s :: rest, sid => if s.step_id == sid then rest else s :: remove_step rest sid

/-- `delete_step_record` (step_mgr.c:192-226): remove the record with the
given id; the boolean is true when a record was found (C return code 0). -/
def delete_step_record (job : JobRecord) (sid : Nat) : JobRecord × Bool :=
  ({job with step_list := remove_step job.step_list sid},
   job.step_list.any (fun s => s.step_id == sid))

/-! ### Step completion (`job_step_complete`, step_mgr.c:440) -/

/-- `job_step_complete` (step_mgr.c:440-478): look the job and step up,
raise the job's derived exit code, release the step's resources and GRES
debit, and delete the record.  The single-job controller state stands in for
the global job list: the lookup succeeds exactly when `job_id` matches. -/
def job_step_complete (env : PluginEnv) (job : JobRecord)
    (job_id step_id uid : Nat) : JobRecord × Rc :=
  if job_id ≠ job.job_id then (job, .ESLURM_INVALID_JOB_ID)
  else if job.user_id ≠ uid ∧ uid ≠ 0 ∧ uid ≠ env.slurm_uid then
    (job, .ESLURM_USER_ID_MISSING)
  else
    match find_step_record job step_id with
    | none => (job, .ESLURM_INVALID_JOB_ID)
    | some step =>
      let job1 := {job with derived_ec := max job.derived_ec step.exit_code}
      let job2 := (step_dealloc_lps env.mem_resv job1 step).1
      let job3 := {job2 with
        gres_debits := env.gres_step_dealloc job2.gres_debits step.gres_handle}
      let del := delete_step_record job3 step_id
      if del.2 then (del.1, .SLURM_SUCCESS) else (del.1, .ESLURM_ALREADY_DONE)

/-! ### Partial completion (`step_partial_comp`, step_mgr.c:2225) -/

/-- `step_partial_comp` (step_mgr.c:2225-2341), the per-step part: record
that step nodes `range_first..range_last` (zero-origin into
`step_node_bitmap`) completed with return code `step_rc`.  Batch steps
short-circuit; otherwise the range is validated, `exit_node_bitmap` is
allocated on the first report (seeding `exit_code`), later reports take the
max of the exit codes, the range bits are set, and the remaining-node count
is the number of clear bits.  Returns the updated step, `rem` and `max_rc`. -/
def stepPartialComp (step : StepRecord) (range_first range_last step_rc : Nat) :
    Except Rc (StepRecord × Nat × Nat) :=
  if step.batch_step then
    .ok ({step with exit_code := step_rc}, 0, step_rc)
  else if range_last < range_first then .error .EINVAL
  else
    match step.exit_node_bitmap with
    | none =>
      let nodes := bit_set_count step.step_node_bitmap
      if nodes ≤ range_last then .error .EINVAL
      else
        let bm := bit_nset (List.replicate nodes false) range_first range_last
        let step' := {step with exit_node_bitmap := some bm,
                                exit_code := step_rc}
        .ok (step', bit_clear_count bm, step'.exit_code)
    | some bm0 =>
      let nodes := bm0.length
      if nodes ≤ range_last then .error .EINVAL
      else
        let bm := bit_nset bm0 range_first range_last
        let step' := {step with exit_node_bitmap := some bm,
                                exit_code := max step.exit_code step_rc}
        .ok (step', bit_clear_count bm, step'.exit_code)

/-! ### Time-limit sweep (`check_job_step_time_limit`, step_mgr.c:2932) -/

/-- A REQUEST_KILL_TIMELIMIT message queued by `_signal_step_timelimit`
(step_mgr.c:2875): the step id and the global indices of the nodes the
hostlist was built from (`step_node_bitmap`, non-front-end build). -/
structure TimelimitMsg where
  step_id : Nat
  nodes : List Nat
deriving DecidableEq

/-- `check_job_step_time_limit` (step_mgr.c:2932-2962): for a job whose raw
`job_state` equals JOB_RUNNING, walk the steps and, for every step whose
time limit is neither INFINITE nor NO_VAL and whose elapsed minutes
`(now - start_time - tot_sus_time) / 60` (C signed division, cast to
uint32) reach the limit, queue a TIMELIMIT message to the step's nodes.
`_signal_step_timelimit` queues nothing when the node list is empty.  The
registry itself is not modified. -/
def check_job_step_time_limit (job : JobRecord) (now : Nat) : List TimelimitMsg :=
  if job.job_state ≠ JOB_RUNNING then []
  else
    job.step_list.filterMap (fun step =>
      if step.time_limit = INFINITE ∨ step.time_limit = NO_VAL then none
      else
        let job_run_mins :=
          u32ofInt (Int.tdiv (((now : Int) - (step.start_time : Int)) -
                              (step.tot_sus_time : Int)) 60)
        if step.time_limit ≤ job_run_mins then
          let nodes := bitIndices step.step_node_bitmap
          if nodes.isEmpty then none else some ⟨step.step_id, nodes⟩
        else none)

/-! ### Request normalization in `step_create` (step_mgr.c:1499-1530) -/

/-- Overcommit normalization in `step_create` (step_mgr.c:1504-1512): with
both `overcommit` and `exclusive`, overcommit is disabled and `cpu_count`
forced to `num_tasks`; with `overcommit` alone, `cpu_count` is cleared.
Returns the new `(overcommit, cpu_count)`. -/
def step_create_normalize_overcommit (overcommit exclusive : Bool)
    (cpu_count num_tasks : Nat) : Bool × Nat :=
  if overcommit then
    if exclusive then (false, num_tasks) else (true, 0)
  else (overcommit, cpu_count)

/-- Derivation of `cpus_per_task` in `step_create` (step_mgr.c:1518-1527):
zero unless `cpu_count` is nonzero and divisible by `num_tasks`, in which
case the quotient (with the source's dead clamp to at least 1). -/
def step_create_cpus_per_task (cpu_count num_tasks : Nat) : Nat :=
  if cpu_count = 0 ∨ cpu_count % num_tasks ≠ 0 then 0
  else if cpu_count / num_tasks < 1 then 1 else cpu_count / num_tasks

/-! ### Core picker (`_pick_step_cores`, step_mgr.c:1112) -/

/-- Core-selection state threaded through the two passes of
`_pick_step_cores`: the remaining cpu demand (a C `int`, so it may go
negative), the job's `core_bitmap_used`, and the step's `core_bitmap_job`. -/
structure CoreSel where
  cpu_cnt : Int
  core_bitmap_used : Bitmap
  core_bitmap_job : Bitmap
deriving DecidableEq

/-- Modelled from the spec: `get_job_resources_offset` (job_resources.c,
external): bit offset of `(node, socket, core)` in the job's packed core
bitmap, nodes laid out consecutively, sockets outer and cores inner within a
node. -/
def get_job_resources_offset (jr : JobResources) (node sock core : Nat) : Nat :=
  ((List.range node).map (fun k =>
      jr.sockets_per_node.getD k 0 * jr.cores_per_socket.getD k 0)).sum +
  sock * jr.cores_per_socket.getD node 0 + core

/-- Visit order of the first pass of `_pick_step_cores` (step_mgr.c:1137):
core index as the major axis, socket index as the minor one. -/
def pass1_pairs (sockets cores : Nat) : List (Nat × Nat) :=
  (List.range cores).flatMap (fun c => (List.range sockets).map (fun s => (s, c)))

/-- Visit order of the oversubscription pass (step_mgr.c:1170): cores are
walked starting from the rotated `last_core_inx`. -/
def pass2_pairs (sockets cores start : Nat) : List (Nat × Nat) :=
  (List.range cores).flatMap (fun i =>
    (List.range sockets).map (fun s => (s, (start + i) % cores)))

/-- First pass of `_pick_step_cores` (step_mgr.c:1136-1161): take cores
whose job bit is set and (unless `use_all_cores`) whose used bit is clear,
setting both `core_bitmap_used` and the step's `core_bitmap_job`, and
stopping when the cpu demand is satisfied. -/
def pick_step_cores_loop1 (jr : JobResources) (node : Nat)
    (use_all_cores : Bool) :
    List (Nat × Nat) → CoreSel → CoreSel
  | [], st => st
  | (s, c) :: rest, st =>
    let off := get_job_resources_offset jr node s c
    if ¬ bit_test jr.core_bitmap off then
      pick_step_cores_loop1 jr node use_all_cores rest st
    else if use_all_cores = false ∧ bit_test st.core_bitmap_used off then
      pick_step_cores_loop1 jr node use_all_cores rest st
    else
      let st' : CoreSel :=
        ⟨st.cpu_cnt - 1, bit_set st.core_bitmap_used off,
         bit_set st.core_bitmap_job off⟩
      if st'.cpu_cnt = 0 then st'
      else pick_step_cores_loop1 jr node use_all_cores rest st'

/-- Oversubscription pass of `_pick_step_cores` (step_mgr.c:1170-1191):
take any in-job core not already held by this step, setting only the step's
`core_bitmap_job` (not `core_bitmap_used`). -/
def pick_step_cores_loop2 (jr : JobResources) (node : Nat) :
    List (Nat × Nat) → CoreSel → CoreSel
  | [], st => st
  | (s, c) :: rest, st =>
    let off := get_job_resources_offset jr node s c
    if ¬ bit_test jr.core_bitmap off then
      pick_step_cores_loop2 jr node rest st
    else if bit_test st.core_bitmap_job off then
      pick_step_cores_loop2 jr node rest st
    else
      let st' : CoreSel :=
        ⟨st.cpu_cnt - 1, st.core_bitmap_used, bit_set st.core_bitmap_job off⟩
      if st'.cpu_cnt = 0 then st'
      else pick_step_cores_loop2 jr node rest st'

/-- Initial cpu demand of `_pick_step_cores` (step_mgr.c:1118,1133-1134):
`cpu_cnt = task_cnt`, multiplied by `cpus_per_task` when positive. -/
def pick_step_cores_cpu_cnt (task_cnt cpt : Nat) : Int :=
  if 0 < cpt then (task_cnt : Int) * (cpt : Int) else (task_cnt : Int)

/-- State after the first pass of `_pick_step_cores`, starting from a fresh
or pre-existing step core bitmap (`bit_alloc` sized to the job's core
bitmap when absent). -/
def pick_step_cores_p1 (jr : JobResources) (core_bitmap_job : Option Bitmap)
    (cpt node task_cnt : Nat) : CoreSel :=
  let sockets := jr.sockets_per_node.getD node 0
  let cores := jr.cores_per_socket.getD node 0
  let cbj0 := match core_bitmap_job with
    | some cb => cb
    | none => List.replicate jr.core_bitmap.length false
  let use_all_cores := task_cnt = cores * sockets
  pick_step_cores_loop1 jr node use_all_cores (pass1_pairs sockets cores)
    ⟨pick_step_cores_cpu_cnt task_cnt cpt, jr.core_bitmap_used, cbj0⟩

/-- `_pick_step_cores` (step_mgr.c:1112-1192): allocate cores on one picked
node for `task_cnt` tasks; `use_all_cores` is decided by `task_cnt` against
`sockets * cores`; after the first pass, unmet demand triggers the
oversubscription pass, rotating the process-wide `last_core_inx`.  Returns
the final selection state and the new `last_core_inx`. -/
def pick_step_cores (jr : JobResources) (core_bitmap_job : Option Bitmap)
    (cpt node task_cnt last_core_inx : Nat) : CoreSel × Nat :=
  let sockets := jr.sockets_per_node.getD node 0
  let cores := jr.cores_per_socket.getD node 0
  let use_all_cores := task_cnt = cores * sockets
  let st1 := pick_step_cores_p1 jr core_bitmap_job cpt node task_cnt
  if st1.cpu_cnt = 0 then (st1, last_core_inx)
  else if use_all_cores then (st1, last_core_inx)
  else
    let start := (last_core_inx + 1) % cores
    (pick_step_cores_loop2 jr node (pass2_pairs sockets cores start) st1, start)

/-! ### Step request (`job_step_create_request_msg_t`) -/

/-- `job_step_create_request_msg_t` (slurm.h), restricted to the fields
step_mgr.c reads.  `node_list` is the requested node set (the external
hostlist parser `node_name2bitmap` is not part of this repository, so the
request carries the parsed set); the `*_len` fields are the string lengths
checked by `_test_strlen`. -/
structure StepSpec where
  job_id : Nat
  user_id : Nat
  min_nodes : Nat
  max_nodes : Nat
  num_tasks : Nat
  cpu_count : Nat
  mem_per_cpu : Nat
  relative : Nat
  task_dist : Nat
  plane_size : Nat
  node_list : Option Bitmap
  exclusive : Bool
  overcommit : Bool
  no_kill : Nat
  resv_port_cnt : Nat
  time_limit : Nat
  gres_present : Bool
  ckpt_dir_len : Nat
  gres_len : Nat
  host_len : Nat
  name_len : Nat
  network_len : Nat
  node_list_len : Nat
deriving DecidableEq

/-! ### Node picker, exclusive mode (step_mgr.c:571-694) -/

/-- Available task count of one node in exclusive mode
(step_mgr.c:616-658): unused cpus divided by `cpus_per_task` (or
`num_tasks` itself when `cpus_per_task` is 0), clamped by free memory and
by the GRES count honoring live-step debits.  The C `int`/`uint32_t`
mixing is reproduced: the cpu subtraction is `int` arithmetic, the memory
clamp is `uint32_t` arithmetic re-read as `int`, and the final `MIN`
against the `uint32_t` GRES count converts the accumulator to `uint32_t`
and back. -/
def excl_avail_tasks (env : PluginEnv) (jr : JobResources) (spec : StepSpec)
    (cpt node_inx : Nat) : Int :=
  let avail_cpus : Int :=
    (jr.cpus.getD node_inx 0 : Int) - (jr.cpus_used.getD node_inx 0 : Int)
  let a1 : Int := if 0 < cpt then Int.tdiv avail_cpus cpt
                  else intOfU32 spec.num_tasks
  let a2 : Int :=
    if spec.mem_per_cpu ≠ 0 then
      let avail_mem := u32sub ((jr.memory_allocated.getD []).getD node_inx 0)
                              ((jr.memory_used.getD []).getD node_inx 0)
      let tc : Int := intOfU32 (avail_mem / spec.mem_per_cpu)
      let tc : Int := if 0 < cpt then Int.tdiv tc cpt else tc
      min a1 tc
    else a1
  let g := env.gres_step_test node_inx false % 4294967296
  let g := if 0 < cpt then g / cpt else g
  intOfU32 (min (u32ofInt a2) g)

/-- Total task count of one node in exclusive mode (step_mgr.c:616-658):
as `excl_avail_tasks` but ignoring the live-step debits (total cpus, total
memory, GRES with `ignore_alloc`). -/
def excl_total_tasks (env : PluginEnv) (jr : JobResources) (spec : StepSpec)
    (cpt node_inx : Nat) : Int :=
  let total_cpus : Int := (jr.cpus.getD node_inx 0 : Int)
  let t1 : Int := if 0 < cpt then Int.tdiv total_cpus cpt
                  else intOfU32 spec.num_tasks
  let t2 : Int :=
    if spec.mem_per_cpu ≠ 0 then
      let total_mem := (jr.memory_allocated.getD []).getD node_inx 0
      let tc : Int := intOfU32 (total_mem % 4294967296 / spec.mem_per_cpu)
      let tc : Int := if 0 < cpt then Int.tdiv tc cpt else tc
      min t1 tc
    else t1
  let g := env.gres_step_test node_inx true % 4294967296
  let g := if 0 < cpt then g / cpt else g
  intOfU32 (min (u32ofInt t2) g)

/-- Accumulator state of the exclusive-mode node scan
(step_mgr.c:572-576). -/
structure ExclState where
  nodes_avail : Bitmap
  nodes_picked_cnt : Nat
  tasks_picked_cnt : Nat
  total_task_cnt : Nat
deriving DecidableEq

/-- One iteration of the exclusive-mode node scan (step_mgr.c:610-675) at
node `(global index, job node index)`: nodes past `max_nodes` are dropped
silently; busy nodes and surplus nodes are dropped while counting their
total tasks; remaining nodes are kept, counting both.  The three counters
are C `uint32_t` accumulators (step_mgr.c:574-576), so every addition
wraps modulo `2^32`. -/
def excl_visit (env : PluginEnv) (jr : JobResources) (spec : StepSpec)
    (cpt : Nat) (has_sel : Bool) (st : ExclState) (p : Nat × Nat) : ExclState :=
  if ¬ bit_test st.nodes_avail p.1 then st
  else
    let avail_tasks := excl_avail_tasks env jr spec cpt p.2
    let total_tasks := excl_total_tasks env jr spec cpt p.2
    if spec.max_nodes ≠ 0 ∧ spec.max_nodes ≤ st.nodes_picked_cnt then
      {st with nodes_avail := bit_clear st.nodes_avail p.1}
    else if avail_tasks ≤ 0 ∨
            (¬ has_sel ∧ spec.min_nodes ≤ st.nodes_picked_cnt ∧
             0 < st.tasks_picked_cnt ∧ spec.num_tasks ≤ st.tasks_picked_cnt) then
      {st with nodes_avail := bit_clear st.nodes_avail p.1,
               total_task_cnt :=
                 (st.total_task_cnt + u32ofInt total_tasks) % 4294967296}
    else
      {st with nodes_picked_cnt := (st.nodes_picked_cnt + 1) % 4294967296,
               tasks_picked_cnt :=
                 (st.tasks_picked_cnt + u32ofInt avail_tasks) % 4294967296,
               total_task_cnt :=
                 (st.total_task_cnt + u32ofInt total_tasks) % 4294967296}

/-- The full exclusive-mode scan over the job's resource nodes. -/
def excl_run (env : PluginEnv) (jr : JobResources) (spec : StepSpec)
    (cpt : Nat) (nodes_avail0 : Bitmap) : ExclState :=
  (bitRanks jr.node_bitmap).foldl
    (excl_visit env jr spec cpt spec.node_list.isSome)
    ⟨nodes_avail0, 0, 0, 0⟩

/-- Effective picked-task count after the named-list equality check
(step_mgr.c:677-684): a named list that does not match the surviving set
exactly zeroes the count, deferring the request. -/
def excl_tasks_after_sel (spec : StepSpec) (st : ExclState) : Nat :=
  match spec.node_list with
  | some sel => if bit_equal sel st.nodes_avail then st.tasks_picked_cnt else 0
  | none => st.tasks_picked_cnt

/-- Exclusive-mode branch of `_pick_step_nodes` (step_mgr.c:571-694):
validate a named list against the job and up sets, scan the nodes, apply
the named-list equality check, and accept iff the picked-task count covers
`num_tasks`; otherwise classify the failure as nodes-busy or
config-unavailable by the total-task count. -/
def pick_step_nodes_excl (env : PluginEnv) (jr : JobResources)
    (spec : StepSpec) (cpt : Nat) (nodes_avail0 jb : Bitmap) :
    Option Bitmap × Rc :=
  let named_ok :=
    match spec.node_list with
    | some sel => bit_super_set sel jb && bit_super_set sel env.up_node_bitmap
    | none => true
  if named_ok = false then (none, .ESLURM_REQUESTED_NODE_CONFIG_UNAVAILABLE)
  else
    let st := excl_run env jr spec cpt nodes_avail0
    let tp := excl_tasks_after_sel spec st
    if spec.num_tasks ≤ tp then (some st.nodes_avail, .SLURM_SUCCESS)
    else if spec.num_tasks ≤ st.total_task_cnt then (none, .ESLURM_NODES_BUSY)
    else (none, .ESLURM_REQUESTED_NODE_CONFIG_UNAVAILABLE)

/-- Sum over the walked nodes of the (nonnegative) available task counts of
the nodes still present in `nodes_avail0`. -/
def excl_avail_sum (env : PluginEnv) (jr : JobResources) (spec : StepSpec)
    (cpt : Nat) (nodes_avail0 : Bitmap) (l : List (Nat × Nat)) : Nat :=
  sumBy l (fun p => if bit_test nodes_avail0 p.1 then
    (excl_avail_tasks env jr spec cpt p.2).toNat else 0)

/-- Sum over the walked nodes of the total task counts, as the `uint32_t`
accumulation performs it, of the nodes still present in `nodes_avail0`. -/
def excl_total_sum (env : PluginEnv) (jr : JobResources) (spec : StepSpec)
    (cpt : Nat) (nodes_avail0 : Bitmap) (l : List (Nat × Nat)) : Nat :=
  sumBy l (fun p => if bit_test nodes_avail0 p.1 then
    u32ofInt (excl_total_tasks env jr spec cpt p.2) else 0)

/-! ### Node picker, non-exclusive usable-cpu scan (step_mgr.c:696-771) -/

/-- State of the memory/GRES usable-cpu scan: the surviving available set,
the per-global-node usable cpu counts, the reason for the tightest clamp,
and the blocked-node accounting. -/
structure UsableState where
  nodes_avail : Bitmap
  usable_cpu_cnt : List Nat
  fail_mode : Rc
  mem_blocked_nodes : Nat
  mem_blocked_cpus : Nat
deriving DecidableEq

/-- The memory/GRES usable-cpu scan (step_mgr.c:704-770): build
`usable_cpu_cnt[]` as cpus clamped by free memory then by GRES (recording
the clamp reason), drop nodes whose available task count is zero while
accounting them as memory-blocked, and fail immediately when
`min_nodes == INFINITE` and a node has no available tasks. -/
def usable_loop (env : PluginEnv) (jr : JobResources) (spec : StepSpec)
    (cpt : Nat) : List (Nat × Nat) → UsableState → Except Rc UsableState
  | [], st => .ok st
  | p :: rest, st =>
    if ¬ bit_test st.nodes_avail p.1 then usable_loop env jr spec cpt rest st
    else
      let total_cpus0 := jr.cpus.getD p.2 0
      let avail0 := total_cpus0
      let memStep : Nat × Nat × Bool :=
        if spec.mem_per_cpu ≠ 0 then
          let tmp_mem := (jr.memory_allocated.getD []).getD p.2 0 % 4294967296
          let tmp_cpus := tmp_mem / spec.mem_per_cpu
          let total1 := min total_cpus0 tmp_cpus
          let tmp_mem2 := u32sub tmp_mem ((jr.memory_used.getD []).getD p.2 0)
          let tmp_cpus2 := tmp_mem2 / spec.mem_per_cpu
          if tmp_cpus2 < avail0 then (total1, tmp_cpus2, true)
          else (total1, avail0, false)
        else (total_cpus0, avail0, false)
      let total1 := memStep.1
      let avail1 := memStep.2.1
      let gresStep : Nat × Nat × Bool :=
        if spec.gres_present then
          let tmp_cpus := env.gres_step_test p.2 true % 4294967296
          let total2 := min total1 tmp_cpus
          let tmp_cpus2 := env.gres_step_test p.2 false % 4294967296
          if tmp_cpus2 < avail1 then (total2, tmp_cpus2, true)
          else (total2, avail1, false)
        else (total1, avail1, false)
      let total2 := gresStep.1
      let avail2 := gresStep.2.1
      let fail_mode' :=
        if gresStep.2.2 then Rc.ESLURM_INVALID_GRES
        else if memStep.2.2 then Rc.ESLURM_INVALID_TASK_MEMORY
        else st.fail_mode
      let usable' := st.usable_cpu_cnt.set p.1 avail2
      let avail_tasks := if 0 < cpt then avail2 / cpt else avail2
      let total_tasks := if 0 < cpt then total2 / cpt else total2
      if avail_tasks = 0 then
        if spec.min_nodes = INFINITE then
          .error (if total_tasks = 0 then fail_mode' else .ESLURM_NODES_BUSY)
        else
          usable_loop env jr spec cpt rest
            {st with nodes_avail := bit_clear st.nodes_avail p.1,
                     usable_cpu_cnt := usable',
                     fail_mode := fail_mode',
                     mem_blocked_nodes := st.mem_blocked_nodes + 1,
                     mem_blocked_cpus := st.mem_blocked_cpus +
                                         u32sub total2 avail2}
      else
        usable_loop env jr spec cpt rest
          {st with usable_cpu_cnt := usable', fail_mode := fail_mode'}

/-- `_count_cpus` (step_mgr.c:1069-1107): cpus allocated to the job on the
nodes of `bitmap`, from `usable_cpu_cnt` when present, else from the job's
per-node cpu counts.  The job-resources branch is the live one (the model
always carries `job_resrcs`). -/
def count_cpus (job : JobRecord) (bitmap : Bitmap) (usable : Option (List Nat)) :
    Nat :=
  ((bitRanks job.job_resrcs.node_bitmap).map (fun p =>
    if bit_test (job.node_bitmap.getD []) p.1 ∧ bit_test bitmap p.1 then
      match usable with
      | some u => u.getD p.1 0
      | none => job.job_resrcs.cpus.getD p.2 0
    else 0)).sum

/-! ### Node picker, non-exclusive picking (step_mgr.c:773-1057) -/

/-- Named-list handling for the non-exclusive path (step_mgr.c:778-868):
subset checks, the arbitrary-distribution special cases (including the
elan downgrade to block), and the seeding of `nodes_picked` from the named
list.  On success returns the updated request, `nodes_picked` and
`nodes_avail`; on failure the error and the updated request. -/
def pick_sel_block (env : PluginEnv) (spec : StepSpec) (jb nodes_avail : Bitmap) :
    Except (Rc × StepSpec) (StepSpec × Bitmap × Bitmap) :=
  match spec.node_list with
  | none => .ok (spec, List.replicate nodes_avail.length false, nodes_avail)
  | some sel =>
    if ¬ bit_super_set sel jb then
      .error (.ESLURM_REQUESTED_NODE_CONFIG_UNAVAILABLE, spec)
    else if ¬ bit_super_set sel nodes_avail then
      .error (.ESLURM_INVALID_TASK_MEMORY, spec)
    else
      let arb : StepSpec × Option Bitmap :=
        if spec.task_dist = SLURM_DIST_ARBITRARY then
          if env.switch_elan then
            ({spec with node_list := none, task_dist := SLURM_DIST_BLOCK,
                        min_nodes := bit_set_count nodes_avail}, none)
          else ({spec with min_nodes := bit_set_count sel}, some sel)
        else (spec, some sel)
      match arb.2 with
      | none => .ok (arb.1, List.replicate nodes_avail.length false, nodes_avail)
      | some sel =>
        let spec1 := arb.1
        let node_cnt := if spec1.min_nodes ≠ 0 ∨ spec1.max_nodes ≠ 0 then
                          bit_set_count sel
                        else 0
        if spec1.max_nodes ≠ 0 ∧ spec1.max_nodes < node_cnt then
          .error (.ESLURM_REQUESTED_NODE_CONFIG_UNAVAILABLE, spec1)
        else if spec1.min_nodes ≠ 0 ∧ spec1.min_nodes < node_cnt then
          .ok (spec1, List.replicate nodes_avail.length false, sel)
        else
          .ok (spec1, sel, bit_and nodes_avail (bit_not sel))

/-- Relative-offset versus idle-node computation (step_mgr.c:870-905): a
`relative` request drops the first `relative` available nodes; otherwise
`nodes_idle` is the set of available nodes used by no other step of the
job. -/
def pick_rel_block (job : JobRecord) (spec : StepSpec) (nodes_avail : Bitmap) :
    Except (Rc × StepSpec) (Option Bitmap × Bitmap) :=
  if spec.relative ≠ NO_VAL16 then
    match bit_pick_cnt nodes_avail spec.relative with
    | none => .error (.ESLURM_REQUESTED_NODE_CONFIG_UNAVAILABLE, spec)
    | some rel => .ok (none, bit_and nodes_avail (bit_not rel))
  else
    let used := job.step_list.foldl
      (fun acc s => bit_or acc s.step_node_bitmap)
      (List.replicate nodes_avail.length false)
    .ok (some (bit_and (bit_not used) nodes_avail), nodes_avail)

/-- Minimum-node top-up (step_mgr.c:938-982): pull nodes first from
`nodes_idle`, then from `nodes_avail`, until `min_nodes` are picked;
shortfall is classified busy / node-down / config-unavailable.  Returns
`(nodes_picked, nodes_idle, nodes_avail, nodes_picked_cnt)`. -/
def pick_min_block (spec : StepSpec) (nodes_picked : Bitmap)
    (nodes_idle : Option Bitmap) (nodes_avail : Bitmap)
    (mem_blocked_nodes : Nat) (jb up : Bitmap) :
    Except (Rc × StepSpec) (Bitmap × Option Bitmap × Bitmap × Nat) :=
  if spec.min_nodes = 0 then .ok (nodes_picked, nodes_idle, nodes_avail, 0)
  else
    let pc0 := bit_set_count nodes_picked
    let idleStep : Bitmap × Option Bitmap × Bitmap × Nat :=
      match nodes_idle with
      | some idle =>
        if spec.min_nodes ≤ bit_set_count idle ∧ pc0 < spec.min_nodes then
          match bit_pick_cnt idle (spec.min_nodes - pc0) with
          | some tmp =>
            (bit_or nodes_picked tmp, some (bit_and idle (bit_not tmp)),
             bit_and nodes_avail (bit_not tmp), spec.min_nodes)
          | none => (nodes_picked, some idle, nodes_avail, pc0)
        else (nodes_picked, some idle, nodes_avail, pc0)
      | none => (nodes_picked, none, nodes_avail, pc0)
    let picked1 := idleStep.1
    let idle1 := idleStep.2.1
    let avail1 := idleStep.2.2.1
    let pc1 := idleStep.2.2.2
    if pc1 < spec.min_nodes then
      match bit_pick_cnt avail1 (spec.min_nodes - pc1) with
      | none =>
        if spec.min_nodes ≤ bit_set_count avail1 + pc1 + mem_blocked_nodes then
          .error (.ESLURM_NODES_BUSY, spec)
        else if ¬ bit_super_set jb up then
          .error (.ESLURM_NODE_NOT_AVAIL, spec)
        else .error (.ESLURM_REQUESTED_NODE_CONFIG_UNAVAILABLE, spec)
      | some tmp =>
        .ok (bit_or picked1 tmp, idle1, bit_and avail1 (bit_not tmp),
             spec.min_nodes)
    else .ok (picked1, idle1, avail1, pc1)

/-- Node-at-a-time top-up loop for a cpu-count request
(step_mgr.c:993-1022), fuelled by the available-node count: pull one node
from `nodes_avail`, skip nodes contributing no usable cpus, and stop at the
cpu target, exhaustion, or `max_nodes`.  State is
`(nodes_picked, nodes_avail, picked_cnt, cpus_picked, min_nodes)`. -/
def pick_cpu_loop (job : JobRecord) (spec_max_nodes spec_cpu_count : Nat)
    (usable : Option (List Nat)) :
    Nat → Bitmap × Bitmap × Nat × Nat × Nat → Bitmap × Bitmap × Nat × Nat × Nat
  | 0, st => st
  | fuel + 1, (picked, avail, pc, cpus_picked, mn) =>
    if spec_cpu_count ≤ cpus_picked then (picked, avail, pc, cpus_picked, mn)
    else
      match bit_pick_cnt avail 1 with
      | none => (picked, avail, pc, cpus_picked, mn)
      | some tmp =>
        let cnt := count_cpus job tmp usable
        if cnt = 0 then
          pick_cpu_loop job spec_max_nodes spec_cpu_count usable fuel
            (picked, bit_and avail (bit_not tmp), pc, cpus_picked, mn)
        else
          let pc' := pc + 1
          let mn' := if mn ≠ 0 then pc' else mn
          let st' := (bit_or picked tmp, bit_and avail (bit_not tmp), pc',
                      cpus_picked + cnt, mn')
          if spec_max_nodes ≠ 0 ∧ spec_max_nodes ≤ pc' then st'
          else pick_cpu_loop job spec_max_nodes spec_cpu_count usable fuel st'

/-- Cpu-count enforcement (step_mgr.c:984-1043): count the cpus of the
picked nodes, top up from `nodes_avail` while short of `cpu_count`, and
classify a final shortfall.  Returns the updated request (the loop tracks
`min_nodes`) and `nodes_picked`. -/
def pick_cpu_block (job : JobRecord) (spec : StepSpec)
    (usable : Option (List Nat)) (nodes_picked nodes_avail : Bitmap)
    (pc mem_blocked_cpus : Nat) (jb up : Bitmap) :
    Except (Rc × StepSpec) (StepSpec × Bitmap) :=
  if spec.cpu_count = 0 then .ok (spec, nodes_picked)
  else
    let cpus_picked0 := count_cpus job nodes_picked usable
    let topped : StepSpec × Bitmap × Nat :=
      if cpus_picked0 < spec.cpu_count ∧
         (spec.max_nodes = 0 ∨ pc < spec.max_nodes) then
        let pc0 := bit_set_count nodes_picked
        let out := pick_cpu_loop job spec.max_nodes spec.cpu_count usable
          (bit_set_count nodes_avail)
          (nodes_picked, nodes_avail, pc0, cpus_picked0, spec.min_nodes)
        ({spec with min_nodes := out.2.2.2.2}, out.1, out.2.2.2.1)
      else (spec, nodes_picked, cpus_picked0)
    let spec1 := topped.1
    let picked1 := topped.2.1
    let cpus_picked1 := topped.2.2
    if cpus_picked1 < spec1.cpu_count then
      if spec1.cpu_count ≠ 0 ∧
         spec1.cpu_count ≤ cpus_picked1 + mem_blocked_cpus then
        .error (.ESLURM_NODES_BUSY, spec1)
      else if ¬ bit_super_set jb up then
        .error (.ESLURM_NODE_NOT_AVAIL, spec1)
      else .error (.ESLURM_REQUESTED_NODE_CONFIG_UNAVAILABLE, spec1)
    else .ok (spec1, picked1)

/-- Result of `_pick_step_nodes`: the chosen node set (NULL on failure),
the return code, and the request and job records with the mutations the C
code applies to them (`mem_per_cpu` coercion, `min_nodes` updates,
distribution downgrade, configuring-flag clearing, end-time extension). -/
structure PickResult where
  nodeset : Option Bitmap
  rc : Rc
  spec : StepSpec
  job : JobRecord
deriving DecidableEq

/-- Clearing of the JOB_CONFIGURING flag bit. -/
def clear_configuring (s : Nat) : Nat :=
  if (s / 16384) % 2 = 1 then s - 16384 else s

/-- Main body of `_pick_step_nodes` after the first-step checks
(step_mgr.c:568-1057): exclusive mode short-circuits; otherwise the
usable-cpu scan, the `min_nodes == INFINITE` shortcut, the named-list,
relative/idle, homogeneous-derivation, min-nodes and cpu-count stages run
in order. -/
def pick_step_nodes_body (env : PluginEnv) (job : JobRecord) (spec : StepSpec)
    (cpt : Nat) (jb nodes_avail0 : Bitmap) : PickResult :=
  let jr := job.job_resrcs
  if spec.exclusive then
    let out := pick_step_nodes_excl env jr spec cpt nodes_avail0 jb
    ⟨out.1, out.2, spec, job⟩
  else
    let gate := (spec.mem_per_cpu ≠ 0 ∧ env.mem_resv) ∨ spec.gres_present
    let scanned : Except Rc (Bitmap × Option (List Nat) × Nat × Nat) :=
      if gate then
        match usable_loop env jr spec cpt (bitRanks jr.node_bitmap)
          ⟨nodes_avail0, List.replicate env.up_node_bitmap.length 0,
           .ESLURM_INVALID_TASK_MEMORY, 0, 0⟩ with
        | .error rc => .error rc
        | .ok st => .ok (st.nodes_avail, some st.usable_cpu_cnt,
                         st.mem_blocked_nodes, st.mem_blocked_cpus)
      else .ok (nodes_avail0, none, 0, 0)
    match scanned with
    | .error rc => ⟨none, rc, spec, job⟩
    | .ok scan =>
      let nodes_avail1 := scan.1
      let usable := scan.2.1
      let mem_blocked_nodes := scan.2.2.1
      let mem_blocked_cpus := scan.2.2.2
      if spec.min_nodes = INFINITE then
        ⟨some nodes_avail1, .SLURM_SUCCESS, spec, job⟩
      else
        match pick_sel_block env spec jb nodes_avail1 with
        | .error e => ⟨none, e.1, e.2, job⟩
        | .ok sel_out =>
          let spec1 := sel_out.1
          let nodes_picked0 := sel_out.2.1
          let nodes_avail2 := sel_out.2.2
          match pick_rel_block job spec1 nodes_avail2 with
          | .error e => ⟨none, e.1, e.2, job⟩
          | .ok rel_out =>
            let nodes_idle := rel_out.1
            let nodes_avail3 := rel_out.2
            let homog : Except (Rc × StepSpec) StepSpec :=
              if spec1.cpu_count ≠ 0 ∧ jr.cpu_array_cnt = 1 ∧
                 jr.cpu_array_value ≠ [] then
                let v := jr.cpu_array_value.getD 0 0
                let i := (spec1.cpu_count + v - 1) / v
                let spec2 := {spec1 with min_nodes := max i spec1.min_nodes}
                if spec2.max_nodes ≠ 0 ∧ spec2.max_nodes < spec2.min_nodes then
                  .error (.ESLURM_TOO_MANY_REQUESTED_CPUS, spec2)
                else .ok spec2
              else .ok spec1
            match homog with
            | .error e => ⟨none, e.1, e.2, job⟩
            | .ok spec2 =>
              match pick_min_block spec2 nodes_picked0 nodes_idle nodes_avail3
                      mem_blocked_nodes jb env.up_node_bitmap with
              | .error e => ⟨none, e.1, e.2, job⟩
              | .ok min_out =>
                let nodes_picked1 := min_out.1
                let nodes_avail4 := min_out.2.2.1
                let pc := min_out.2.2.2
                match pick_cpu_block job spec2 usable nodes_picked1
                        nodes_avail4 pc mem_blocked_cpus jb
                        env.up_node_bitmap with
                | .error e => ⟨none, e.1, e.2, job⟩
                | .ok cpu_out =>
                  ⟨some cpu_out.2, .SLURM_SUCCESS, cpu_out.1, job⟩

/-- `_pick_step_nodes` (step_mgr.c:493-1057): admission prechecks (node
bitmap present, node-count sanity, memory-details coercion, first-step
readiness of all job nodes), then the mode-specific picking. -/
def pick_step_nodes (env : PluginEnv) (now : Nat) (job : JobRecord)
    (spec0 : StepSpec) (cpt : Nat) (batch_step : Bool) : PickResult :=
  match job.node_bitmap with
  | none => ⟨none, .ESLURM_REQUESTED_NODE_CONFIG_UNAVAILABLE, spec0, job⟩
  | some jb =>
    if spec0.max_nodes ≠ 0 ∧ spec0.max_nodes < spec0.min_nodes then
      ⟨none, .ESLURM_INVALID_NODE_COUNT, spec0, job⟩
    else
      let nodes_avail := bit_and jb env.up_node_bitmap
      let jr := job.job_resrcs
      let spec1 :=
        if spec0.mem_per_cpu ≠ 0 ∧
           (jr.memory_allocated = none ∨ jr.memory_used = none) then
          {spec0 with mem_per_cpu := 0}
        else spec0
      if job.next_step_id = 0 then
        if job.details_present ∧ job.prolog_running then
          ⟨none, .ESLURM_PROLOG_RUNNING, spec1, job⟩
        else if (bitIndices jb).any env.node_power_save_or_no_respond then
          let job' := if job.time_limit ≠ INFINITE then
                        {job with end_time := now + job.time_limit * 60}
                      else job
          ⟨none, .ESLURM_NODES_BUSY, spec1, job'⟩
        else
          pick_step_nodes_body env
            {job with job_state := clear_configuring job.job_state}
            spec1 cpt jb nodes_avail
      else pick_step_nodes_body env job spec1 cpt jb nodes_avail

/-! ### Step layout creation (`step_layout_create`, step_mgr.c:1720) -/

/-- Usable-cpu list for the step's nodes built by `step_layout_create`
(step_mgr.c:1752-1825): for each step node (walked in job node-bitmap
order, stopping after `node_count` nodes), cpus (minus used cpus when
exclusive), clamped by free memory and by GRES, all in the C
`int`/`uint32_t` mixture.  Returns `none` when a node has no usable cpus
or is not in the job-resources bitmap (the C `return NULL` cases). -/
def layout_usable_cpus (env : PluginEnv) (jr : JobResources)
    (step_excl : Bool) (mem_per_cpu : Nat) (mem_resv : Bool)
    (step_bm : Bitmap) (node_count : Nat) :
    List (Nat × Nat) → Nat → List Nat → Option (List Nat)
  | [], _, acc => some acc
  | p :: rest, set_nodes, acc =>
    if bit_test step_bm p.1 then
      match bitRanksAux jr.node_bitmap 0 0 |>.find? (fun q => q.1 == p.1) with
      | none => none
      | some q =>
        let pos := q.2
        let usable0 : Int :=
          if step_excl then
            (jr.cpus.getD pos 0 : Int) - (jr.cpus_used.getD pos 0 : Int)
          else (jr.cpus.getD pos 0 : Int)
        let usable1 : Int :=
          if mem_per_cpu ≠ 0 ∧ mem_resv then
            let um := intOfU32 (u32sub ((jr.memory_allocated.getD []).getD pos 0)
                                       ((jr.memory_used.getD []).getD pos 0))
            min usable0 (Int.tdiv um mem_per_cpu)
          else usable0
        let g := env.gres_step_test p.2 false % 4294967296
        let usable2 : Int := intOfU32 (min (u32ofInt usable1) g)
        if usable2 ≤ 0 then none
        else
          let acc' := acc ++ [usable2.toNat]
          if set_nodes + 1 = node_count then some acc'
          else layout_usable_cpus env jr step_excl mem_per_cpu mem_resv
                 step_bm node_count rest (set_nodes + 1) acc'
    else layout_usable_cpus env jr step_excl mem_per_cpu mem_resv
           step_bm node_count rest set_nodes acc

/-- `step_layout_create` (step_mgr.c:1720-1840): coerce `mem_per_cpu` when
memory details are absent, build the per-step-node usable-cpu vector, and
hand it to the external `slurm_step_layout_create` (modelled by
`env.layout_create`, which returns the per-node task vector).  The walk is
over the job's node bitmap; the GRES query is keyed by the job-node
offset. -/
def step_layout_create (env : PluginEnv) (job : JobRecord)
    (step_excl : Bool) (mem_per_cpu0 : Nat) (step_bm : Bitmap)
    (node_count num_tasks cpt : Nat) : Option StepLayout × Nat :=
  let jr := job.job_resrcs
  let mem_per_cpu :=
    if mem_per_cpu0 ≠ 0 ∧ env.mem_resv ∧
       (jr.memory_allocated = none ∨ jr.memory_used = none) then 0
    else mem_per_cpu0
  let jb := job.node_bitmap.getD []
  match layout_usable_cpus env jr step_excl mem_per_cpu env.mem_resv
          step_bm node_count (bitRanks jb) 0 [] with
  | none => (none, mem_per_cpu)
  | some usable =>
    match env.layout_create usable node_count num_tasks cpt with
    | none => (none, mem_per_cpu)
    | some tasks => (some ⟨tasks, node_count⟩, mem_per_cpu)

/-! ### Cpu/memory/core debiting (`step_alloc_lps`, step_mgr.c:1196) -/

/-- State of the `step_alloc_lps` node walk: per-node cpu and memory
debits, job GRES debits, the step's core bitmap under construction, the
job's used-core bitmap, and the rotating `last_core_inx`. -/
structure AllocSt where
  cpus_used : List Nat
  memory_used : Option (List Nat)
  gres_debits : List Nat
  core_bitmap_job : Option Bitmap
  core_bitmap_used : Bitmap
  last_core_inx : Nat
deriving DecidableEq

/-- Loop body of `step_alloc_lps` (step_mgr.c:1243-1280): for each node of
the step, debit `tasks[step_node_inx] * cpus_per_task` cpus, the GRES
equivalent, and the memory, then pick the node's cores when core picking
is enabled. -/
def alloc_nodes (env : PluginEnv) (jr : JobResources) (step_bm : Bitmap)
    (tasks : List Nat) (node_cnt cpt mpc : Nat) (mem_on do_cores : Bool) :
    List (Nat × Nat) → Nat → AllocSt → AllocSt
  | [], _, st => st
  | (i, jni) :: rest, sni, st =>
    if bit_test step_bm i then
      let cpus_alloc := tasks.getD sni 0 * cpt
      let cu' := st.cpus_used.set jni (st.cpus_used.getD jni 0 + cpus_alloc)
      let gres' := env.gres_step_alloc st.gres_debits jni cpus_alloc
      let mu' :=
        if mem_on then
          match st.memory_used with
          | some m => some (m.set jni (m.getD jni 0 + mpc * cpus_alloc))
          | none => none
        else st.memory_used
      let coreStep : Option Bitmap × Bitmap × Nat :=
        if do_cores then
          let out := pick_step_cores jr st.core_bitmap_job cpt jni
            (tasks.getD sni 0) st.last_core_inx
          (some out.1.core_bitmap_job, out.1.core_bitmap_used, out.2)
        else (st.core_bitmap_job, st.core_bitmap_used, st.last_core_inx)
      let st' : AllocSt := ⟨cu', mu', gres', coreStep.1, coreStep.2.1,
                            coreStep.2.2⟩
      if sni = node_cnt - 1 then st'
      else alloc_nodes env jr step_bm tasks node_cnt cpt mpc mem_on do_cores
             rest (sni + 1) st'
    else alloc_nodes env jr step_bm tasks node_cnt cpt mpc mem_on do_cores
           rest sni st

/-- `step_alloc_lps` (step_mgr.c:1196-1283): debit a freshly created
step's cpus, memory, GRES and cores against the job.  Batch steps (no
layout) are a no-op; a step that is non-exclusive or uses all the job's
cpus copies the job's core bitmap instead of picking cores.  Returns the
updated job, the step's `core_bitmap_job` and effective `mem_per_cpu`, and
the new `last_core_inx`. -/
def step_alloc_lps (env : PluginEnv) (job : JobRecord) (step : StepRecord)
    (last_core_inx : Nat) :
    JobRecord × Option Bitmap × Nat × Nat :=
  let jr := job.job_resrcs
  match step.step_layout with
  | none => (job, step.core_bitmap_job, step.mem_per_cpu, last_core_inx)
  | some lay =>
    if bit_set_count jr.node_bitmap = 0 then
      (job, step.core_bitmap_job, step.mem_per_cpu, last_core_inx)
    else
      let pick_cores_cfg : Bool × Option Bitmap :=
        if step.core_bitmap_job ≠ none then (false, step.core_bitmap_job)
        else if step.exclusive = false ∨ step.cpu_count = job.total_cpus then
          (false, some jr.core_bitmap)
        else (true, none)
      let mem_eff :=
        if step.mem_per_cpu ≠ 0 ∧ env.mem_resv ∧
           (jr.memory_allocated = none ∨ jr.memory_used = none) then 0
        else step.mem_per_cpu
      let mem_on := mem_eff ≠ 0 ∧ env.mem_resv
      let st := alloc_nodes env jr step.step_node_bitmap lay.tasks
        lay.node_cnt step.cpus_per_task mem_eff mem_on pick_cores_cfg.1
        (bitRanks jr.node_bitmap) 0
        ⟨jr.cpus_used, jr.memory_used, job.gres_debits, pick_cores_cfg.2,
         jr.core_bitmap_used, last_core_inx⟩
      ({job with
          job_resrcs := {jr with cpus_used := st.cpus_used,
                                 memory_used := st.memory_used,
                                 core_bitmap_used := st.core_bitmap_used},
          gres_debits := st.gres_debits},
       st.core_bitmap_job, mem_eff, st.last_core_inx)

/-! ### Step creation (`step_create`, step_mgr.c:1430) -/

/-- `_create_step_record` (step_mgr.c:101-127): refuse ids at or past the
sentinel range, otherwise append a blank record (start time now, infinite
time limit) carrying the next step id; the id counter itself is advanced
by the caller (`step_ptr->step_id = job_ptr->next_step_id++`). -/
def create_step_record (job : JobRecord) (now : Nat) :
    Option (JobRecord × Nat) :=
  if STEP_ID_LIMIT ≤ job.next_step_id then none
  else
    let blank : StepRecord :=
      { step_id := job.next_step_id, step_node_bitmap := [],
        core_bitmap_job := none, cpus_per_task := 0, mem_per_cpu := 0,
        cpu_count := 0, exclusive := false, batch_step := false,
        cyclic_alloc := false, no_kill := 0, step_layout := none,
        exit_node_bitmap := none, exit_code := 0, time_limit := INFINITE,
        start_time := now, pre_sus_time := 0, tot_sus_time := 0,
        gres_handle := 0, switch_job := false, resv_port_cnt := 0 }
    some ({job with step_list := job.step_list ++ [blank]}, job.next_step_id)

/-- In-place field update of the registry record with the given id
(the C code mutates the `step_record` the registry list points to). -/
def set_step (job : JobRecord) (sid : Nat) (f : StepRecord → StepRecord) :
    JobRecord :=
  {job with step_list :=
    job.step_list.map (fun s => if s.step_id = sid then f s else s)}

/-- String-length validation of `step_create` (step_mgr.c:1491-1497). -/
def step_create_strlen_fail (spec : StepSpec) : Bool :=
  1024 < spec.ckpt_dir_len || 1024 < spec.gres_len || 1024 < spec.host_len ||
  1024 < spec.name_len || 1024 < spec.network_len ||
  65536 < spec.node_list_len

/-- Distribution validation of `step_create` (step_mgr.c:1476-1484). -/
def step_create_valid_dist (d : Nat) : Bool :=
  d == SLURM_DIST_CYCLIC || d == SLURM_DIST_BLOCK ||
  d == SLURM_DIST_CYCLIC_CYCLIC || d == SLURM_DIST_BLOCK_CYCLIC ||
  d == SLURM_DIST_CYCLIC_BLOCK || d == SLURM_DIST_BLOCK_BLOCK ||
  d == SLURM_DIST_PLANE || d == SLURM_DIST_ARBITRARY

/-- Result of `step_create`: the controller state, the request with its
in-place mutations, the return code, the created step id (on success), and
the rotated `last_core_inx`. -/
structure CreateResult where
  job : JobRecord
  spec : StepSpec
  rc : Rc
  created : Option Nat
  last_core_inx : Nat
deriving DecidableEq

/-- The normalized request of `step_create` (step_mgr.c:1499-1530): the
overcommit normalization applied to `(overcommit, cpu_count)` and the
`no_kill` clamp. -/
def step_create_normalized (spec : StepSpec) : StepSpec :=
  let oc := step_create_normalize_overcommit spec.overcommit spec.exclusive
              spec.cpu_count spec.num_tasks
  {spec with overcommit := oc.1, cpu_count := oc.2,
             no_kill := if 1 < spec.no_kill then 1 else spec.no_kill}

/-- Tail of `step_create` (step_mgr.c:1655-1717): the non-batch layout,
port-reservation, switch and debit steps, or the batch shortcut.
`set_inf` records whether the step keeps the INFINITE time limit the blank
record was created with. -/
def step_create_finish (env : PluginEnv) (now : Nat) (job2in : JobRecord)
    (set_inf : Bool) (spec4 : StepSpec) (cpt : Nat) (batch_step : Bool)
    (nodeset : Bitmap) (sid last_core_inx : Nat) : CreateResult :=
  let job2 := if set_inf then
                set_step job2in sid (fun s => {s with time_limit := INFINITE})
              else job2in
  if batch_step then ⟨job2, spec4, .SLURM_SUCCESS, some sid, last_core_inx⟩
  else
    let layout := step_layout_create env job2 spec4.exclusive
      spec4.mem_per_cpu nodeset spec4.min_nodes spec4.num_tasks cpt
    match layout.1 with
    | none =>
      ⟨(delete_step_record job2 sid).1, spec4,
       (if spec4.mem_per_cpu ≠ 0 then .ESLURM_INVALID_TASK_MEMORY
        else .SLURM_ERROR), none, last_core_inx⟩
    | some lay =>
      let job3 := set_step job2 sid (fun s =>
        {s with step_layout := some lay, mem_per_cpu := layout.2})
      let spec5 :=
        if spec4.resv_port_cnt ≠ NO_VAL16 ∧ spec4.resv_port_cnt = 0 then
          {spec4 with resv_port_cnt := lay.tasks.foldl max 0 + 1}
        else spec4
      if spec5.resv_port_cnt ≠ NO_VAL16 ∧
         env.resv_port_alloc_rc ≠ .SLURM_SUCCESS then
        ⟨(delete_step_record
            (set_step job3 sid (fun s =>
              {s with resv_port_cnt := spec5.resv_port_cnt})) sid).1,
         spec5, env.resv_port_alloc_rc, none, last_core_inx⟩
      else
        let job4 :=
          if spec5.resv_port_cnt ≠ NO_VAL16 then
            set_step job3 sid (fun s =>
              {s with resv_port_cnt := spec5.resv_port_cnt})
          else job3
        if ¬ env.switch_build_ok then
          ⟨(delete_step_record job4 sid).1, spec5,
           .ESLURM_INTERCONNECT_FAILURE, none, last_core_inx⟩
        else
          let job5 := set_step job4 sid (fun s => {s with switch_job := true})
          match find_step_record job5 sid with
          | none => ⟨job5, spec5, .SLURM_ERROR, none, last_core_inx⟩
          | some step =>
            let out := step_alloc_lps env job5 step last_core_inx
            let job6 := set_step out.1 sid (fun s =>
              {s with core_bitmap_job := out.2.1, mem_per_cpu := out.2.2.1})
            ⟨job6, spec5, .SLURM_SUCCESS, some sid, out.2.2.2⟩

/-- Post-pick steps of `step_create` (step_mgr.c:1549-1718): default
`num_tasks`, enforce the per-node task cap, create the record, set its
fields, enforce the time limit, and for non-batch steps build the layout,
reserve ports, build the switch job and debit resources; every failure
after record creation deletes the record. -/
def step_create_with_nodes (env : PluginEnv) (now : Nat) (job : JobRecord)
    (spec : StepSpec) (cpt orig_cpu_count : Nat) (batch_step : Bool)
    (nodeset : Bitmap) (last_core_inx : Nat) : CreateResult :=
  let node_count := bit_set_count nodeset
  let spec3 :=
    if spec.num_tasks = NO_VAL then
      {spec with num_tasks := if spec.cpu_count ≠ NO_VAL then spec.cpu_count
                              else node_count}
    else spec
  if node_count * env.max_tasks_per_node < spec3.num_tasks then
    ⟨job, spec3, .ESLURM_BAD_TASK_COUNT, none, last_core_inx⟩
  else
    match create_step_record job now with
    | none => ⟨job, spec3, .ESLURMD_TOOMANYSTEPS, none, last_core_inx⟩
    | some created =>
      let sid := created.2
      let job1 := {created.1 with next_step_id := created.1.next_step_id + 1}
      let spec4 := {spec3 with node_list := some nodeset}
      let cyclic := spec4.task_dist = SLURM_DIST_CYCLIC ∨
                    spec4.task_dist = SLURM_DIST_CYCLIC_CYCLIC ∨
                    spec4.task_dist = SLURM_DIST_CYCLIC_BLOCK
      let job2 := set_step job1 sid (fun s =>
        {s with step_node_bitmap := nodeset,
                cyclic_alloc := cyclic,
                gres_handle := env.gres_validate_handle,
                batch_step := batch_step,
                cpus_per_task := cpt,
                mem_per_cpu := spec4.mem_per_cpu,
                cpu_count := orig_cpu_count,
                exit_code := NO_VAL,
                exclusive := spec4.exclusive,
                no_kill := spec4.no_kill})
      if spec4.time_limit = NO_VAL ∨ spec4.time_limit = 0 ∨
         spec4.time_limit = INFINITE then
        step_create_finish env now job2 true spec4 cpt batch_step
          nodeset sid last_core_inx
      else if job.part_max_time < spec4.time_limit ∧
              env.enforce_part_limits then
        ⟨(delete_step_record job2 sid).1, spec4, .ESLURM_INVALID_TIME_LIMIT,
         none, last_core_inx⟩
      else
        step_create_finish env now
          (set_step job2 sid (fun s => {s with time_limit := spec4.time_limit}))
          false spec4 cpt batch_step nodeset sid last_core_inx

/-- `step_create` (step_mgr.c:1430-1718): validation, request
normalization, GRES validation, node picking, and the post-pick creation
path. -/
def step_create (env : PluginEnv) (now : Nat) (job : JobRecord)
    (spec0 : StepSpec) (batch_step : Bool) (last_core_inx : Nat) :
    CreateResult :=
  if spec0.job_id ≠ job.job_id then
    ⟨job, spec0, .ESLURM_INVALID_JOB_ID, none, last_core_inx⟩
  else if ¬ job.details_present ∨ IS_JOB_SUSPENDED job then
    ⟨job, spec0, .ESLURM_DISABLED, none, last_core_inx⟩
  else if IS_JOB_PENDING job then
    ⟨job, spec0, .ESLURM_DUPLICATE_JOB_ID, none, last_core_inx⟩
  else if spec0.user_id ≠ job.user_id then
    ⟨job, spec0, .ESLURM_ACCESS_DENIED, none, last_core_inx⟩
  else if IS_JOB_FINISHED job ∨ job.end_time ≤ now then
    ⟨job, spec0, .ESLURM_ALREADY_DONE, none, last_core_inx⟩
  else if ¬ step_create_valid_dist spec0.task_dist then
    ⟨job, spec0, .ESLURM_BAD_DIST, none, last_core_inx⟩
  else if spec0.task_dist = SLURM_DIST_ARBITRARY ∧ env.switch_elan then
    ⟨job, spec0, .ESLURM_TASKDIST_ARBITRARY_UNSUPPORTED, none, last_core_inx⟩
  else if step_create_strlen_fail spec0 then
    ⟨job, spec0, .ESLURM_PATHNAME_TOO_LONG, none, last_core_inx⟩
  else
    let orig_cpu_count := spec0.cpu_count
    let spec1 := step_create_normalized spec0
    if spec1.num_tasks < 1 then
      ⟨job, spec1, .ESLURM_BAD_TASK_COUNT, none, last_core_inx⟩
    else
      let cpt := step_create_cpus_per_task spec1.cpu_count spec1.num_tasks
      if env.gres_validate_rc ≠ .SLURM_SUCCESS then
        ⟨job, spec1, env.gres_validate_rc, none, last_core_inx⟩
      else
        let pr := pick_step_nodes env now job spec1 cpt batch_step
        match pr.nodeset with
        | none => ⟨pr.job, pr.spec, pr.rc, none, last_core_inx⟩
        | some nodeset =>
          step_create_with_nodes env now pr.job pr.spec cpt orig_cpu_count
            batch_step nodeset last_core_inx

/-! ### Statement helpers -/

/-- The `(job_node_inx, step_node_inx)` pairs visited by the node walk of
`_step_dealloc_lps` / `step_alloc_lps`: one pair per step node, in job
bitmap order, stopping after the layout's `node_cnt`-th step node. -/
def stepNodePairsGo (step_bm : Bitmap) (node_cnt : Nat) :
    List (Nat × Nat) → Nat → List (Nat × Nat)
  | [], _ => []
  | (i, jni) :: rest, sni =>
    if bit_test step_bm i then
      (jni, sni) ::
        (if sni = node_cnt - 1 then []
         else stepNodePairsGo step_bm node_cnt rest (sni + 1))
    else stepNodePairsGo step_bm node_cnt rest sni

/-- Pairs `(job_node_inx, step_node_inx)` of the nodes a step's
deallocation walk processes. -/
def stepNodePairs (jr_bm step_bm : Bitmap) (node_cnt : Nat) :
    List (Nat × Nat) :=
  stepNodePairsGo step_bm node_cnt (bitRanks jr_bm) 0

/-- Clamped subtraction as performed by the deallocation credits. -/
def clampSub (old amt : Nat) : Nat := if amt ≤ old then old - amt else 0

/-! ### Concrete fixtures used by witnesses and counterexamples -/

/-- A one-node plugin environment: node 0 up and responsive, no GRES
constraint (the plugin reports NO_VAL), all plugin calls succeeding, and a
layout builder that packs all tasks onto a single node. -/
def wEnv : PluginEnv :=
  { up_node_bitmap := [true],
    node_power_save_or_no_respond := fun _ => false,
    gres_step_test := fun _ _ => NO_VAL,
    gres_validate_rc := .SLURM_SUCCESS,
    gres_step_alloc := fun g _ _ => g,
    gres_step_dealloc := fun g _ => g,
    layout_create := fun usable nc nt _ =>
      if nc = 1 ∧ usable ≠ [] then some [nt] else none,
    resv_port_alloc_rc := .SLURM_SUCCESS,
    switch_build_ok := true,
    switch_elan := false,
    gres_validate_handle := 7,
    mem_resv := true,
    max_tasks_per_node := 128,
    enforce_part_limits := false,
    slurm_uid := 0 }

/-- One node, 4 cpus all busy (an exclusive step would find none free). -/
def wJrBusy : JobResources :=
  { node_bitmap := [true], nhosts := 1, cpus := [4], cpus_used := [4],
    memory_allocated := some [8192], memory_used := some [0],
    core_bitmap := [true, true], core_bitmap_used := [false, false],
    sockets_per_node := [1], cores_per_socket := [2],
    cpu_array_cnt := 1, cpu_array_value := [4] }

/-- One node, 4 cpus free. -/
def wJrFree : JobResources :=
  { node_bitmap := [true], nhosts := 1, cpus := [4], cpus_used := [0],
    memory_allocated := some [8192], memory_used := some [0],
    core_bitmap := [true, true], core_bitmap_used := [false, false],
    sockets_per_node := [1], cores_per_socket := [2],
    cpu_array_cnt := 1, cpu_array_value := [4] }

/-- One node with 1 socket of 2 cores, core 1 already used by another
step; used by the C6 counterexample. -/
def wJrCore : JobResources :=
  { node_bitmap := [true], nhosts := 1, cpus := [2], cpus_used := [0],
    memory_allocated := some [8192], memory_used := some [0],
    core_bitmap := [true, true], core_bitmap_used := [false, true],
    sockets_per_node := [1], cores_per_socket := [2],
    cpu_array_cnt := 1, cpu_array_value := [2] }

/-- A live non-batch step on node 0 with a one-node layout. -/
def wStep : StepRecord :=
  { step_id := 0, step_node_bitmap := [true],
    core_bitmap_job := none, cpus_per_task := 1, mem_per_cpu := 0,
    cpu_count := 0, exclusive := false, batch_step := false,
    cyclic_alloc := false, no_kill := 0,
    step_layout := some ⟨[1], 1⟩,
    exit_node_bitmap := none, exit_code := 0, time_limit := INFINITE,
    start_time := 0, pre_sus_time := 0, tot_sus_time := 0,
    gres_handle := 0, switch_job := false, resv_port_cnt := 0 }

/-- A running one-node job owning `wStep`. -/
def wJob : JobRecord :=
  { job_id := 1, user_id := 100, job_state := JOB_RUNNING,
    step_list := [wStep], next_step_id := 1, node_bitmap := some [true],
    job_resrcs := wJrBusy, gres_debits := [0], details_present := true,
    prolog_running := false, end_time := 10000, time_limit := 100,
    suspend_time := 0, part_max_time := 1000, derived_ec := 0,
    total_cpus := 4 }

/-- The same job with no steps and free cpus. -/
def wJobEmpty : JobRecord :=
  {wJob with step_list := [], job_resrcs := wJrFree}

/-- A step crediting 2 cpus and 4 memory units back to node 0. -/
def wStepD : StepRecord :=
  {wStep with mem_per_cpu := 2, step_layout := some ⟨[2], 1⟩}

/-- A step whose memory credit `mem_per_cpu * cpus_alloc` is exactly
`2^22 * 1024 = 2^32`, wrapping the `uint32_t` product to `0`. -/
def wStepW : StepRecord :=
  {wStep with mem_per_cpu := 4194304, step_layout := some ⟨[1024], 1⟩}

/-- A job whose node 0 has 1 cpu and 5 memory units in use. -/
def wJobD : JobRecord :=
  {wJob with job_resrcs :=
    {wJrBusy with cpus_used := [1], memory_used := some [5]}}

/-- A plain non-exclusive one-node request for 2 tasks on 2 cpus. -/
def wSpec : StepSpec :=
  { job_id := 1, user_id := 100, min_nodes := 1, max_nodes := 0,
    num_tasks := 2, cpu_count := 2, mem_per_cpu := 0, relative := NO_VAL16,
    task_dist := SLURM_DIST_BLOCK, plane_size := 0,
    node_list := none, exclusive := false, overcommit := false,
    no_kill := 0, resv_port_cnt := NO_VAL16, time_limit := 0,
    gres_present := false, ckpt_dir_len := 0, gres_len := 0, host_len := 0,
    name_len := 0, network_len := 0, node_list_len := 0 }

/-- The C4 counterexample request: exclusive, a named list holding exactly
node 0, 5 tasks at 2 cpus per task. -/
def wSpecExcl : StepSpec :=
  {wSpec with num_tasks := 5, cpu_count := 0, node_list := some [true],
              exclusive := true, node_list_len := 2}

/-- A request leaving `num_tasks` unset while asking for 200 cpus. -/
def wSpecNV : StepSpec :=
  {wSpec with num_tasks := NO_VAL, cpu_count := 200}

-- ===================== THEOREMS =====================

/-! #### Generic list and bitmap lemmas -/

theorem getD_set_self {α : Type} (l : List α) (i : Nat) (v d : α)
    (h : i < l.length) : (l.set i v).getD i d = v := by
  induction l generalizing i with
  | nil => simp at h
  | cons a t ih =>
    cases i with
    | zero => simp [List.getD]
    | succ n =>
      have := ih n (by simpa using h)
      simpa [List.getD] using this

theorem getD_set_ne {α : Type} (l : List α) (i j : Nat) (v d : α)
    (h : i ≠ j) : (l.set i v).getD j d = l.getD j d := by
  induction l generalizing i j with
  | nil => simp
  | cons a t ih =>
    cases i with
    | zero =>
      cases j with
      | zero => exact absurd rfl h
      | succ m => simp [List.getD]
    | succ n =>
      cases j with
      | zero => simp [List.getD]
      | succ m =>
        have := ih n m (by omega)
        simpa [List.getD] using this

theorem bit_set_count_cons_true (b : Bitmap) :
    bit_set_count (true :: b) = 1 + bit_set_count b := by
  simp [bit_set_count, List.filter]; omega

theorem bit_set_count_cons_false (b : Bitmap) :
    bit_set_count (false :: b) = bit_set_count b := by
  simp [bit_set_count, List.filter]

theorem bitRanksAux_mem_lb (b : Bitmap) (i r : Nat) :
    ∀ p ∈ bitRanksAux b i r, i ≤ p.1 ∧ r ≤ p.2 := by
  induction b generalizing i r with
  | nil => intro p hp; simp [bitRanksAux] at hp
  | cons x t ih =>
    intro p hp
    cases x with
    | false =>
      have := ih (i + 1) r p (by simpa [bitRanksAux] using hp)
      omega
    | true =>
      simp only [bitRanksAux, List.mem_cons] at hp
      rcases hp with h | h
      · subst h; omega
      · have := ih (i + 1) (r + 1) p h; omega

theorem bitRanksAux_snd_ub (b : Bitmap) (i r : Nat) :
    ∀ p ∈ bitRanksAux b i r, p.2 < r + bit_set_count b := by
  induction b generalizing i r with
  | nil => intro p hp; simp [bitRanksAux] at hp
  | cons x t ih =>
    intro p hp
    cases x with
    | false =>
      have := ih (i + 1) r p (by simpa [bitRanksAux] using hp)
      simpa [bit_set_count_cons_false] using this
    | true =>
      simp only [bitRanksAux, List.mem_cons] at hp
      rcases hp with h | h
      · subst h; simp only [bit_set_count_cons_true]; omega
      · have := ih (i + 1) (r + 1) p h
        simp only [bit_set_count_cons_true]
        omega

theorem bitRanksAux_pairwise_fst (b : Bitmap) (i r : Nat) :
    (bitRanksAux b i r).Pairwise (fun p q => p.1 < q.1) := by
  induction b generalizing i r with
  | nil => simp [bitRanksAux]
  | cons x t ih =>
    cases x with
    | false => simpa [bitRanksAux] using ih (i + 1) r
    | true =>
      simp only [bitRanksAux]
      refine List.Pairwise.cons ?_ (ih (i + 1) (r + 1))
      intro q hq
      have := bitRanksAux_mem_lb t (i + 1) (r + 1) q hq
      simp only []
      omega

theorem bitRanksAux_pairwise_snd (b : Bitmap) (i r : Nat) :
    (bitRanksAux b i r).Pairwise (fun p q => p.2 < q.2) := by
  induction b generalizing i r with
  | nil => simp [bitRanksAux]
  | cons x t ih =>
    cases x with
    | false => simpa [bitRanksAux] using ih (i + 1) r
    | true =>
      simp only [bitRanksAux]
      refine List.Pairwise.cons ?_ (ih (i + 1) (r + 1))
      intro q hq
      have := bitRanksAux_mem_lb t (i + 1) (r + 1) q hq
      simp only []
      omega

/-! #### C7 -/

/-- C7: during step-create normalization, overcommit with exclusive
disables overcommit and forces `cpu_count = num_tasks`; overcommit alone
clears `cpu_count`; and `cpus_per_task` is `cpu_count / num_tasks` exactly
when `cpu_count` is nonzero and evenly divisible by `num_tasks`, else 0. -/
theorem C7_spec (oc ex : Bool) (cc nt : Nat) (h : 1 ≤ nt) :
    (oc = true ∧ ex = true →
      step_create_normalize_overcommit oc ex cc nt = (false, nt)) ∧
    (oc = true ∧ ex = false →
      step_create_normalize_overcommit oc ex cc nt = (true, 0)) ∧
    (oc = false →
      step_create_normalize_overcommit oc ex cc nt = (oc, cc)) ∧
    (∀ cc' : Nat, step_create_cpus_per_task cc' nt =
      if cc' ≠ 0 ∧ cc' % nt = 0 then cc' / nt else 0) := by
  refine ⟨?_, ?_, ?_, ?_⟩
  · rintro ⟨h1, h2⟩; subst h1; subst h2
    simp [step_create_normalize_overcommit]
  · rintro ⟨h1, h2⟩; subst h1; subst h2
    simp [step_create_normalize_overcommit]
  · rintro h1; subst h1
    simp [step_create_normalize_overcommit]
  · intro cc'
    by_cases h0 : cc' = 0 ∨ cc' % nt ≠ 0
    · have hneg : ¬ (cc' ≠ 0 ∧ cc' % nt = 0) := by tauto
      simp only [step_create_cpus_per_task, if_pos h0, if_neg hneg]
    · push_neg at h0
      have hcc : cc' ≠ 0 := h0.1
      have hmod : cc' % nt = 0 := h0.2
      have hdvd : nt ∣ cc' := Nat.dvd_of_mod_eq_zero hmod
      have hle : nt ≤ cc' := Nat.le_of_dvd (Nat.pos_of_ne_zero hcc) hdvd
      have hdiv : 1 ≤ cc' / nt := (Nat.one_le_div_iff (by omega)).2 hle
      have hpos : cc' ≠ 0 ∧ cc' % nt = 0 := ⟨hcc, hmod⟩
      simp only [step_create_cpus_per_task]
      rw [if_neg (by tauto), if_neg (by omega), if_pos hpos]

/-- Witness for C7 at a concrete input. -/
theorem C7_witness :
    (1 ≤ (4 : Nat)) ∧
    step_create_normalize_overcommit true true 8 4 = (false, 4) :=
  ⟨by decide, (C7_spec true true 8 4 (by decide)).1 ⟨rfl, rfl⟩⟩

/-! #### C3 -/

theorem getD_map_range {α : Type} (f : Nat → α) (n i : Nat) (d : α) :
    ((List.range n).map f).getD i d = if i < n then f i else d := by
  by_cases h : i < n
  · rw [List.getD_eq_getElem?_getD, List.getElem?_map]
    rw [List.getElem?_range h]
    simp [h]
  · rw [List.getD_eq_getElem?_getD, List.getElem?_map]
    rw [List.getElem?_eq_none (by simpa using Nat.le_of_not_lt h)]
    simp [h]

theorem bit_nset_length (b : Bitmap) (f l : Nat) :
    (bit_nset b f l).length = b.length := by
  simp [bit_nset]

theorem bit_test_bit_nset (b : Bitmap) (f l i : Nat) :
    bit_test (bit_nset b f l) i =
      if f ≤ i ∧ i ≤ l ∧ i < b.length then true else bit_test b i := by
  unfold bit_test bit_nset
  rw [getD_map_range]
  by_cases h : i < b.length
  · by_cases h2 : f ≤ i ∧ i ≤ l
    · simp [h, h2, h2.1, h2.2]
    · have h5 : ¬ (f ≤ i ∧ i ≤ l ∧ i < b.length) := by tauto
      simp [if_pos h, if_neg h2, if_neg h5]
  · have h3 : ¬ (f ≤ i ∧ i ≤ l ∧ i < b.length) := by tauto
    have h4 : b.getD i false = false := by
      rw [List.getD_eq_getElem?_getD,
          List.getElem?_eq_none (Nat.le_of_not_lt h)]
      rfl
    simp only [if_neg h, if_neg h3]
    exact h4.symm

theorem bit_test_replicate_false (n i : Nat) :
    bit_test (List.replicate n false) i = false := by
  unfold bit_test
  by_cases h : i < n
  · rw [List.getD_eq_getElem?_getD, List.getElem?_replicate]
    simp [h]
  · rw [List.getD_eq_getElem?_getD, List.getElem?_eq_none (by simpa using Nat.le_of_not_lt h)]
    rfl

/-- C3: for a non-batch step, a partial-completion report is rejected with
an error exactly on an inverted range or a range end at or past the step's
node count; otherwise the first report allocates `exit_node_bitmap` with
one bit per step node and seeds `exit_code` with the report's return code,
later reports raise `exit_code` to the maximum, the range bits are set on
top of the previous ones, and the returned remainder is the number of
clear bits of `exit_node_bitmap`. -/
theorem C3_spec (step : StepRecord)
    (h_batch : step.batch_step = false)
    (h_bm : ∀ bm, step.exit_node_bitmap = some bm →
      bm.length = bit_set_count step.step_node_bitmap)
    (rf rl rc : Nat) :
    (rl < rf → stepPartialComp step rf rl rc = .error .EINVAL) ∧
    (bit_set_count step.step_node_bitmap ≤ rl →
      stepPartialComp step rf rl rc = .error .EINVAL) ∧
    (rf ≤ rl → rl < bit_set_count step.step_node_bitmap →
      ∃ step' bm' rem,
        stepPartialComp step rf rl rc = .ok (step', rem, step'.exit_code) ∧
        step'.exit_node_bitmap = some bm' ∧
        bm'.length = bit_set_count step.step_node_bitmap ∧
        (∀ i, bit_test bm' i = true ↔
          ((rf ≤ i ∧ i ≤ rl ∧ i < bit_set_count step.step_node_bitmap) ∨
           (∃ bm0, step.exit_node_bitmap = some bm0 ∧ bit_test bm0 i = true))) ∧
        (step.exit_node_bitmap = none → step'.exit_code = rc) ∧
        (∀ bm0, step.exit_node_bitmap = some bm0 →
          step'.exit_code = max step.exit_code rc) ∧
        rem = bit_clear_count bm') := by
  refine ⟨?_, ?_, ?_⟩
  · intro hlt
    unfold stepPartialComp
    rw [if_neg (by simp [h_batch]), if_pos hlt]
  · intro hge
    unfold stepPartialComp
    by_cases hlt : rl < rf
    · rw [if_neg (by simp [h_batch]), if_pos hlt]
    · rw [if_neg (by simp [h_batch]), if_neg hlt]
      cases hebm : step.exit_node_bitmap with
      | none => simp only [if_pos hge]
      | some bm0 =>
        have := h_bm bm0 hebm
        simp only [this, if_pos hge]
  · intro hle hlt
    unfold stepPartialComp
    rw [if_neg (by simp [h_batch]), if_neg (by omega)]
    cases hebm : step.exit_node_bitmap with
    | none =>
      rw [if_neg (by omega)]
      refine ⟨_, _, _, rfl, rfl, ?_, ?_, ?_, ?_, rfl⟩
      · rw [bit_nset_length, List.length_replicate]
      · intro i
        rw [bit_test_bit_nset]
        rw [List.length_replicate]
        by_cases h : rf ≤ i ∧ i ≤ rl ∧ i < bit_set_count step.step_node_bitmap
        · simp [h]
        · rw [if_neg h, bit_test_replicate_false]
          constructor
          · intro hb; exact absurd hb (by simp)
          · rintro (hc | ⟨bm0, hbm0, hb⟩)
            · exact absurd hc h
            · exact absurd hbm0 (by simp)
      · intro _; rfl
      · intro bm0 hbm0; exact absurd hbm0 (by simp)
    | some bm0 =>
      have hlen := h_bm bm0 hebm
      dsimp only
      rw [hlen, if_neg (by omega)]
      refine ⟨_, _, _, rfl, rfl, ?_, ?_, ?_, ?_, rfl⟩
      · rw [bit_nset_length, hlen]
      · intro i
        rw [bit_test_bit_nset, hlen]
        by_cases h : rf ≤ i ∧ i ≤ rl ∧ i < bit_set_count step.step_node_bitmap
        · simp [h]
        · rw [if_neg h]
          constructor
          · intro hb; exact Or.inr ⟨bm0, rfl, hb⟩
          · rintro (hc | ⟨bm1, hbm1, hb⟩)
            · exact absurd hc h
            · cases hbm1; exact hb
      · intro hnone; exact absurd hnone (by simp)
      · intro bm1 hbm1
        injection hbm1 with hbm1
        subst hbm1
        rfl

/-- Witness for C3 at a concrete input: a fresh two-node step and the
report `(0, 0, rc 7)`. -/
theorem C3_witness :
    ({wStep with step_node_bitmap := [true, true]} : StepRecord).batch_step = false ∧
    (∀ bm, ({wStep with step_node_bitmap := [true, true]} : StepRecord).exit_node_bitmap = some bm →
      bm.length = bit_set_count ({wStep with step_node_bitmap := [true, true]} : StepRecord).step_node_bitmap) ∧
    (1 < bit_set_count ({wStep with step_node_bitmap := [true, true]} : StepRecord).step_node_bitmap →
      stepPartialComp {wStep with step_node_bitmap := [true, true]} 0 2 7 = .error .EINVAL) := by
  refine ⟨by decide, ?_, ?_⟩
  · intro bm h
    simp [wStep] at h
  · intro _
    exact (C3_spec {wStep with step_node_bitmap := [true, true]} (by decide)
      (by intro bm h; simp [wStep] at h) 0 2 7).2.1 (by decide)

/-! #### C9 -/

/-- C9: the time-limit sweep does nothing for a job whose state is not
running; for a running job, every step whose time limit is neither
INFINITE nor the unset sentinel and whose elapsed minutes
`(now - start_time - tot_sus_time) / 60` reach the limit gets a TIMELIMIT
message queued to exactly the nodes of its `step_node_bitmap`, and the
step stays in the registry (the sweep never modifies the step list).  The
elapsed-time hypotheses pin the in-range regime of the C time arithmetic
(no clock rollback past the start, minute count below the uint32 wrap). -/
theorem C9_spec (job : JobRecord) (now : Nat) :
    (job.job_state ≠ JOB_RUNNING → check_job_step_time_limit job now = []) ∧
    (job.job_state = JOB_RUNNING →
      ∀ step ∈ job.step_list,
        step.time_limit ≠ INFINITE → step.time_limit ≠ NO_VAL →
        step.start_time + step.tot_sus_time ≤ now →
        (now - step.start_time - step.tot_sus_time) / 60 < 4294967296 →
        step.time_limit ≤ (now - step.start_time - step.tot_sus_time) / 60 →
        bitIndices step.step_node_bitmap ≠ [] →
        (⟨step.step_id, bitIndices step.step_node_bitmap⟩ : TimelimitMsg) ∈
            check_job_step_time_limit job now ∧
          step ∈ job.step_list) := by
  constructor
  · intro h
    unfold check_job_step_time_limit
    rw [if_pos h]
  · intro hrun step hmem hinf hnoval hstart hsmall hexp hnodes
    refine ⟨?_, hmem⟩
    unfold check_job_step_time_limit
    rw [if_neg (by simp [hrun])]
    refine List.mem_filterMap.2 ⟨step, hmem, ?_⟩
    rw [if_neg (by tauto)]
    have hcast : ((now : Int) - (step.start_time : Int)) -
        (step.tot_sus_time : Int) =
        ((now - step.start_time - step.tot_sus_time : Nat) : Int) := by
      omega
    have hdiv : Int.tdiv ((now - step.start_time - step.tot_sus_time : Nat) : Int)
        60 = ((now - step.start_time - step.tot_sus_time) / 60 : Nat) := by
      exact_mod_cast (Int.ofNat_tdiv (now - step.start_time - step.tot_sus_time)
        60).symm
    have hmins : u32ofInt (Int.tdiv (((now : Int) - (step.start_time : Int)) -
        (step.tot_sus_time : Int)) 60) =
        (now - step.start_time - step.tot_sus_time) / 60 := by
      rw [hcast, hdiv]
      unfold u32ofInt
      have h0 : (0 : Int) ≤
          (((now - step.start_time - step.tot_sus_time) / 60 : Nat) : Int) :=
        Int.natCast_nonneg _
      have h1 : (((now - step.start_time - step.tot_sus_time) / 60 : Nat) : Int) <
          4294967296 := by exact_mod_cast hsmall
      rw [Int.emod_eq_of_lt h0 h1]
      exact Int.toNat_natCast _
    rw [hmins, if_pos hexp]
    simp [hnodes]

/-- Witness for C9: a running job with a 1-minute step swept at second
100 gets a TIMELIMIT message for node 0. -/
theorem C9_witness :
    ({wJob with step_list := [{wStep with time_limit := 1}]} : JobRecord).job_state
      = JOB_RUNNING ∧
    (⟨0, [0]⟩ : TimelimitMsg) ∈
      check_job_step_time_limit
        {wJob with step_list := [{wStep with time_limit := 1}]} 100 := by
  refine ⟨by decide, ?_⟩
  have h := (C9_spec {wJob with step_list := [{wStep with time_limit := 1}]}
      100).2 (by decide) {wStep with time_limit := 1} (by simp)
      (by decide) (by decide) (by decide) (by decide) (by decide) (by decide)
  exact h.1

/-! #### C5 -/

theorem step_dealloc_lps_skeleton (m : Bool) (job : JobRecord)
    (step : StepRecord) :
    (step_dealloc_lps m job step).1.step_list = job.step_list ∧
    (step_dealloc_lps m job step).1.job_id = job.job_id ∧
    (step_dealloc_lps m job step).1.user_id = job.user_id ∧
    (step_dealloc_lps m job step).1.gres_debits = job.gres_debits ∧
    (step_dealloc_lps m job step).1.derived_ec = job.derived_ec := by
  unfold step_dealloc_lps
  cases step.step_layout with
  | none => exact ⟨rfl, rfl, rfl, rfl, rfl⟩
  | some lay =>
    dsimp only
    split
    · exact ⟨rfl, rfl, rfl, rfl, rfl⟩
    · exact ⟨rfl, rfl, rfl, rfl, rfl⟩

theorem find_none_after_remove (l : List StepRecord) (sid : Nat)
    (h_noval : (sid == NO_VAL) = false)
    (h_uniq : (l.filter (fun s => s.step_id == sid)).length ≤ 1) :
    (remove_step l sid).find?
      (fun s => s.step_id == sid || sid == NO_VAL) = none := by
  induction l with
  | nil => simp [remove_step]
  | cons s rest ih =>
    by_cases hs : (s.step_id == sid) = true
    · unfold remove_step
      rw [if_pos hs]
      apply List.find?_eq_none.2
      intro x hx
      have hcnt : (rest.filter (fun t => t.step_id == sid)).length = 0 := by
        rw [show (List.filter (fun t => t.step_id == sid) (s :: rest)) =
            s :: List.filter (fun t => t.step_id == sid) rest by
          simp [List.filter_cons, hs]] at h_uniq
        simp only [List.length_cons] at h_uniq
        omega
      have hxne : (x.step_id == sid) = false := by
        by_contra hc
        have hxb : (x.step_id == sid) = true := by
          cases hxx : (x.step_id == sid) with
          | true => rfl
          | false => exact absurd hxx hc
        have hmemf : x ∈ rest.filter (fun t => t.step_id == sid) :=
          List.mem_filter.2 ⟨hx, hxb⟩
        rw [List.length_eq_zero] at hcnt
        rw [hcnt] at hmemf
        simp at hmemf
      simp [hxne, h_noval]
    · have hb : (s.step_id == sid) = false := by
        cases hxx : (s.step_id == sid) with
        | true => exact absurd hxx hs
        | false => rfl
      unfold remove_step
      rw [if_neg (by simp [hb])]
      rw [List.find?_cons_of_neg _ (by simp [hb, h_noval])]
      apply ih
      rw [show (List.filter (fun t => t.step_id == sid) (s :: rest)) =
          List.filter (fun t => t.step_id == sid) rest by
        simp [List.filter_cons, hb]] at h_uniq
      exact h_uniq

theorem job_step_complete_ids (env : PluginEnv) (job : JobRecord)
    (jid sid uid : Nat) :
    (job_step_complete env job jid sid uid).1.job_id = job.job_id ∧
    (job_step_complete env job jid sid uid).1.user_id = job.user_id := by
  unfold job_step_complete
  split
  · exact ⟨rfl, rfl⟩
  · split
    · exact ⟨rfl, rfl⟩
    · split
      · exact ⟨rfl, rfl⟩
      · rename_i step heq
        have hskel := step_dealloc_lps_skeleton env.mem_resv
          {job with derived_ec := max job.derived_ec step.exit_code} step
        dsimp only
        split <;>
          simp [delete_step_record, hskel.2.1, hskel.2.2.1]

/-- C5 (amended): completing a step id that is absent from the registry
returns the invalid-job-id error, not already-done, and leaves the state
untouched; completing a present step releases its resources, removes the
record and returns success, so the second of two back-to-back completions
of the same (unique) step id returns invalid-job-id. -/
theorem C5_spec (env : PluginEnv) (job : JobRecord) (step_id uid : Nat)
    (h_uid : uid = job.user_id ∨ uid = 0 ∨ uid = env.slurm_uid)
    (h_noval : step_id ≠ NO_VAL) :
    (find_step_record job step_id = none →
      job_step_complete env job job.job_id step_id uid =
        (job, .ESLURM_INVALID_JOB_ID)) ∧
    (∀ step, find_step_record job step_id = some step →
      (job_step_complete env job job.job_id step_id uid).2 = .SLURM_SUCCESS ∧
      (job_step_complete env job job.job_id step_id uid).1.step_list =
        remove_step job.step_list step_id) ∧
    ((job.step_list.filter (fun s => s.step_id == step_id)).length ≤ 1 →
     find_step_record job step_id ≠ none →
      (job_step_complete env
        (job_step_complete env job job.job_id step_id uid).1
        job.job_id step_id uid).2 = .ESLURM_INVALID_JOB_ID) := by
  have hnvb : (step_id == NO_VAL) = false := by simpa using h_noval
  have huidb : ¬ (job.user_id ≠ uid ∧ uid ≠ 0 ∧ uid ≠ env.slurm_uid) := by
    tauto
  refine ⟨?_, ?_, ?_⟩
  · intro hnone
    unfold job_step_complete
    rw [if_neg (by simp), if_neg huidb, hnone]
  · intro step hfind
    have hfind' := hfind
    unfold find_step_record at hfind'
    have hpred := List.find?_some hfind'
    have hmem := List.mem_of_find?_eq_some hfind'
    have hid : (step.step_id == step_id) = true := by
      simp only [hnvb, Bool.or_false] at hpred
      exact hpred
    have hskel := step_dealloc_lps_skeleton env.mem_resv
      {job with derived_ec := max job.derived_ec step.exit_code} step
    have hany : (List.any ((step_dealloc_lps env.mem_resv
        {job with derived_ec := max job.derived_ec step.exit_code} step).1.step_list)
        (fun s => s.step_id == step_id)) = true := by
      rw [hskel.1]
      exact List.any_eq_true.2 ⟨step, hmem, hid⟩
    constructor
    · unfold job_step_complete
      rw [if_neg (by simp), if_neg huidb, hfind]
      dsimp only
      unfold delete_step_record
      dsimp only
      rw [if_pos (by simpa using hany)]
    · unfold job_step_complete
      rw [if_neg (by simp), if_neg huidb, hfind]
      dsimp only
      unfold delete_step_record
      dsimp only
      split <;> simp [hskel.1]
  · intro h_uniq hfind
    cases hfind2 : find_step_record job step_id with
    | none => exact absurd hfind2 hfind
    | some step =>
      have hpart2 :
          (job_step_complete env job job.job_id step_id uid).1.step_list =
            remove_step job.step_list step_id := by
        have hfind2' := hfind2
        unfold find_step_record at hfind2'
        have hpred := List.find?_some hfind2'
        have hmem := List.mem_of_find?_eq_some hfind2'
        have hid : (step.step_id == step_id) = true := by
          simp only [hnvb, Bool.or_false] at hpred
          exact hpred
        have hskel := step_dealloc_lps_skeleton env.mem_resv
          {job with derived_ec := max job.derived_ec step.exit_code} step
        unfold job_step_complete
        rw [if_neg (by simp), if_neg huidb, hfind2]
        dsimp only
        unfold delete_step_record
        dsimp only
        split <;> simp [hskel.1]
      have hids := job_step_complete_ids env job job.job_id step_id uid
      have hfind_none :
          find_step_record (job_step_complete env job job.job_id step_id uid).1
            step_id = none := by
        unfold find_step_record
        rw [hpart2]
        exact find_none_after_remove job.step_list step_id hnvb h_uniq
      conv_lhs => rw [job_step_complete]
      rw [if_neg (by simp [hids.1]), if_neg (by rw [hids.2]; tauto)]
      rw [hfind_none]

/-- Counterexample for C5 as stated: a job with one live step; the second
of two back-to-back completions returns the invalid-job-id error, where
the claim requires already-done. -/
theorem C5_counterexample :
    (job_step_complete wEnv (job_step_complete wEnv wJob 1 0 100).1
       1 0 100).2 = Rc.ESLURM_INVALID_JOB_ID ∧
    Rc.ESLURM_INVALID_JOB_ID ≠ Rc.ESLURM_ALREADY_DONE := by
  constructor
  · decide
  · decide

/-- Witness for C5 at a concrete input. -/
theorem C5_witness :
    ((100 : Nat) = wJob.user_id ∨ (100 : Nat) = 0 ∨ (100 : Nat) = wEnv.slurm_uid) ∧
    (0 : Nat) ≠ NO_VAL ∧
    (job_step_complete wEnv (job_step_complete wEnv wJob wJob.job_id 0 100).1
       wJob.job_id 0 100).2 = Rc.ESLURM_INVALID_JOB_ID := by
  refine ⟨by decide, by decide, ?_⟩
  exact (C5_spec wEnv wJob 0 100 (by decide) (by decide)).2.2
    (by decide) (by decide)

/-! #### C6 -/

theorem bit_test_lt_length (b : Bitmap) (j : Nat) (h : bit_test b j = true) :
    j < b.length := by
  by_contra hc
  unfold bit_test at h
  rw [List.getD_eq_getElem?_getD,
      List.getElem?_eq_none (Nat.le_of_not_lt hc)] at h
  simp at h

theorem bit_test_bit_set_self (b : Bitmap) (i : Nat) (h : i < b.length) :
    bit_test (bit_set b i) i = true := by
  unfold bit_test bit_set
  exact getD_set_self b i true false h

theorem bit_test_bit_set_ne (b : Bitmap) (i j : Nat) (h : i ≠ j) :
    bit_test (bit_set b i) j = bit_test b j := by
  unfold bit_test bit_set
  exact getD_set_ne b i j true false h

theorem bit_test_mono_set (b : Bitmap) (i j : Nat)
    (h : bit_test b j = true) : bit_test (bit_set b i) j = true := by
  by_cases hij : i = j
  · subst hij
    exact bit_test_bit_set_self b i (bit_test_lt_length b i h)
  · rw [bit_test_bit_set_ne b i j hij]
    exact h

theorem bit_test_bit_set_cases (b : Bitmap) (i j : Nat)
    (h : bit_test (bit_set b i) j = true) :
    j = i ∨ bit_test b j = true := by
  by_cases hij : i = j
  · exact Or.inl hij.symm
  · rw [bit_test_bit_set_ne b i j hij] at h
    exact Or.inr h

theorem loop1_mono (jr : JobResources) (node : Nat) (ua : Bool) :
    ∀ (pairs : List (Nat × Nat)) (st : CoreSel) (off : Nat),
    (bit_test st.core_bitmap_used off = true →
      bit_test (pick_step_cores_loop1 jr node ua pairs st).core_bitmap_used
        off = true) ∧
    (bit_test st.core_bitmap_job off = true →
      bit_test (pick_step_cores_loop1 jr node ua pairs st).core_bitmap_job
        off = true) := by
  intro pairs
  induction pairs with
  | nil => intro st off; exact ⟨fun h => h, fun h => h⟩
  | cons q rest ih =>
    intro st off
    obtain ⟨s, c⟩ := q
    unfold pick_step_cores_loop1
    dsimp only
    split
    · exact ih st off
    · split
      · exact ih st off
      · split
        · constructor
          · intro h; exact bit_test_mono_set _ _ _ h
          · intro h; exact bit_test_mono_set _ _ _ h
        · constructor
          · intro h
            exact (ih _ off).1 (bit_test_mono_set _ _ _ h)
          · intro h
            exact (ih _ off).2 (bit_test_mono_set _ _ _ h)

theorem loop1_cover (jr : JobResources) (node : Nat) :
    ∀ (pairs : List (Nat × Nat)) (st : CoreSel),
    jr.core_bitmap.length ≤ st.core_bitmap_used.length →
    jr.core_bitmap.length ≤ st.core_bitmap_job.length →
    ((pairs.filter (fun p => bit_test jr.core_bitmap
        (get_job_resources_offset jr node p.1 p.2))).length : Int) ≤
      st.cpu_cnt →
    ∀ p ∈ pairs,
      bit_test jr.core_bitmap (get_job_resources_offset jr node p.1 p.2) =
        true →
      bit_test (pick_step_cores_loop1 jr node true pairs st).core_bitmap_used
          (get_job_resources_offset jr node p.1 p.2) = true ∧
        bit_test (pick_step_cores_loop1 jr node true pairs st).core_bitmap_job
          (get_job_resources_offset jr node p.1 p.2) = true := by
  intro pairs
  induction pairs with
  | nil => intro st _ _ _ p hp; simp at hp
  | cons q rest ih =>
    intro st hlu hlj hcpu p hp hpbit
    obtain ⟨s, c⟩ := q
    by_cases hq : bit_test jr.core_bitmap
        (get_job_resources_offset jr node s c) = true
    · have hfc : ((s, c) :: rest).filter (fun p => bit_test jr.core_bitmap
          (get_job_resources_offset jr node p.1 p.2)) =
          (s, c) :: rest.filter (fun p => bit_test jr.core_bitmap
            (get_job_resources_offset jr node p.1 p.2)) := by
        simp [List.filter_cons, hq]
      rw [hfc] at hcpu
      simp only [List.length_cons] at hcpu
      push_cast at hcpu
      have hoff_lt : get_job_resources_offset jr node s c <
          jr.core_bitmap.length := bit_test_lt_length _ _ hq
      show bit_test (pick_step_cores_loop1 jr node true ((s, c) :: rest) st).core_bitmap_used _ = true ∧ _
      unfold pick_step_cores_loop1
      rw [if_neg (by simp [hq])]
      rw [if_neg (by simp)]
      dsimp only
      set st' : CoreSel := ⟨st.cpu_cnt - 1,
        bit_set st.core_bitmap_used (get_job_resources_offset jr node s c),
        bit_set st.core_bitmap_job (get_job_resources_offset jr node s c)⟩
        with hst'
      have hlu' : jr.core_bitmap.length ≤ st'.core_bitmap_used.length := by
        simp only [hst', bit_set, List.length_set]
        exact hlu
      have hlj' : jr.core_bitmap.length ≤ st'.core_bitmap_job.length := by
        simp only [hst', bit_set, List.length_set]
        exact hlj
      have hcpu' : ((rest.filter (fun p => bit_test jr.core_bitmap
          (get_job_resources_offset jr node p.1 p.2))).length : Int) ≤
          st'.cpu_cnt := by
        simp only [hst']
        omega
      split
      · rename_i hzero
        rcases List.mem_cons.1 hp with hpq | hprest
        · cases hpq
          constructor
          · exact bit_test_bit_set_self _ _ (lt_of_lt_of_le hoff_lt hlu)
          · exact bit_test_bit_set_self _ _ (lt_of_lt_of_le hoff_lt hlj)
        · exfalso
          have hrest0 : (rest.filter (fun p => bit_test jr.core_bitmap
              (get_job_resources_offset jr node p.1 p.2))).length = 0 := by
            have : st'.cpu_cnt = 0 := hzero
            omega
          rw [List.length_eq_zero] at hrest0
          have : p ∈ rest.filter (fun p => bit_test jr.core_bitmap
              (get_job_resources_offset jr node p.1 p.2)) :=
            List.mem_filter.2 ⟨hprest, hpbit⟩
          rw [hrest0] at this
          simp at this
      · rcases List.mem_cons.1 hp with hpq | hprest
        · cases hpq
          constructor
          · exact (loop1_mono jr node true rest st' _).1
              (bit_test_bit_set_self _ _ (lt_of_lt_of_le hoff_lt hlu))
          · exact (loop1_mono jr node true rest st' _).2
              (bit_test_bit_set_self _ _ (lt_of_lt_of_le hoff_lt hlj))
        · exact ih st' hlu' hlj' hcpu' p hprest hpbit
    · rcases List.mem_cons.1 hp with hpq | hprest
      · cases hpq; exact absurd hpbit hq
      · have hfc : ((s, c) :: rest).filter (fun p => bit_test jr.core_bitmap
            (get_job_resources_offset jr node p.1 p.2)) =
            rest.filter (fun p => bit_test jr.core_bitmap
              (get_job_resources_offset jr node p.1 p.2)) := by
          simp [List.filter_cons, hq]
        rw [hfc] at hcpu
        show bit_test (pick_step_cores_loop1 jr node true ((s, c) :: rest) st).core_bitmap_used _ = true ∧ _
        unfold pick_step_cores_loop1
        rw [if_pos (by simp [hq])]
        exact ih st hlu hlj hcpu p hprest hpbit

theorem loop1_fresh (jr : JobResources) (node : Nat) :
    ∀ (pairs : List (Nat × Nat)) (st : CoreSel) (off : Nat),
    bit_test (pick_step_cores_loop1 jr node false pairs st).core_bitmap_job
      off = true →
    bit_test st.core_bitmap_job off = true ∨
      (bit_test jr.core_bitmap off = true ∧
       bit_test st.core_bitmap_used off = false) := by
  intro pairs
  induction pairs with
  | nil => intro st off h; exact Or.inl h
  | cons q rest ih =>
    intro st off h
    obtain ⟨s, c⟩ := q
    unfold pick_step_cores_loop1 at h
    dsimp only at h
    by_cases hjob : bit_test jr.core_bitmap
        (get_job_resources_offset jr node s c) = true
    · rw [if_neg (by simp [hjob])] at h
      by_cases hused : bit_test st.core_bitmap_used
          (get_job_resources_offset jr node s c) = true
      · rw [if_pos (by simp [hused])] at h
        exact ih st off h
      · rw [if_neg (by simp [hused])] at h
        have husedf : bit_test st.core_bitmap_used
            (get_job_resources_offset jr node s c) = false := by
          cases hx : bit_test st.core_bitmap_used
              (get_job_resources_offset jr node s c) with
          | true => exact absurd hx hused
          | false => rfl
        set off_q := get_job_resources_offset jr node s c with hoffq
        have hcase : bit_test (bit_set st.core_bitmap_job off_q) off = true →
            bit_test st.core_bitmap_job off = true ∨
              (bit_test jr.core_bitmap off = true ∧
               bit_test st.core_bitmap_used off = false) := by
          intro hb
          rcases bit_test_bit_set_cases _ _ _ hb with hoff | hold
          · subst hoff
            exact Or.inr ⟨hjob, husedf⟩
          · exact Or.inl hold
        split at h
        · exact hcase h
        · rcases ih _ off h with hjob' | ⟨hjr, hused'⟩
          · exact hcase hjob'
          · refine Or.inr ⟨hjr, ?_⟩
            by_contra hc
            have hTrue : bit_test st.core_bitmap_used off = true := by
              cases hx : bit_test st.core_bitmap_used off with
              | true => rfl
              | false => exact absurd hx hc
            have := bit_test_mono_set st.core_bitmap_used off_q off hTrue
            rw [this] at hused'
            simp at hused'
    · rw [if_pos (by simp [hjob])] at h
      exact ih st off h

/-- C6 (amended): the core picker computes its cpu demand as
`tasks x cpus_per_task` (treating `cpus_per_task = 0` as 1), but the
all-cores shortcut is decided by the task count alone: exactly when
`tasks = sockets x cores` (before the `cpus_per_task` multiplication) the
picker sets every in-job core bit of the node in both `core_bitmap_used`
and the step's `core_bitmap_job`; otherwise the first pass takes only
cores whose job bit is set and whose used bit is clear. -/
theorem C6_spec (jr : JobResources) (cbj : Option Bitmap)
    (cpt node task_cnt last : Nat) :
    (pick_step_cores_cpu_cnt task_cnt cpt =
      (task_cnt : Int) * ((max 1 cpt : Nat) : Int)) ∧
    (task_cnt = jr.cores_per_socket.getD node 0 *
        jr.sockets_per_node.getD node 0 →
     cbj = none →
     jr.core_bitmap.length ≤ jr.core_bitmap_used.length →
     ∀ s c, s < jr.sockets_per_node.getD node 0 →
       c < jr.cores_per_socket.getD node 0 →
       bit_test jr.core_bitmap (get_job_resources_offset jr node s c) = true →
       bit_test (pick_step_cores jr cbj cpt node task_cnt
           last).1.core_bitmap_used
           (get_job_resources_offset jr node s c) = true ∧
       bit_test (pick_step_cores jr cbj cpt node task_cnt
           last).1.core_bitmap_job
           (get_job_resources_offset jr node s c) = true) ∧
    (task_cnt ≠ jr.cores_per_socket.getD node 0 *
        jr.sockets_per_node.getD node 0 →
     cbj = none →
     ∀ off, bit_test (pick_step_cores_p1 jr cbj cpt node
         task_cnt).core_bitmap_job off = true →
       bit_test jr.core_bitmap off = true ∧
       bit_test jr.core_bitmap_used off = false) := by
  refine ⟨?_, ?_, ?_⟩
  · unfold pick_step_cores_cpu_cnt
    by_cases h : 0 < cpt
    · rw [if_pos h]
      have : max 1 cpt = cpt := by omega
      rw [this]
    · rw [if_neg h]
      have : max 1 cpt = 1 := by omega
      rw [this]
      simp
  · intro hall hfresh hlen s c hs hc hbit
    subst hfresh
    have hp1 : ∀ s' c', s' < jr.sockets_per_node.getD node 0 →
        c' < jr.cores_per_socket.getD node 0 →
        bit_test jr.core_bitmap
          (get_job_resources_offset jr node s' c') = true →
        bit_test (pick_step_cores_p1 jr none cpt node
            task_cnt).core_bitmap_used
            (get_job_resources_offset jr node s' c') = true ∧
        bit_test (pick_step_cores_p1 jr none cpt node
            task_cnt).core_bitmap_job
            (get_job_resources_offset jr node s' c') = true := by
      intro s' c' hs' hc' hbit'
      unfold pick_step_cores_p1
      dsimp only
      rw [show (decide (task_cnt = jr.cores_per_socket.getD node 0 *
          jr.sockets_per_node.getD node 0)) = true by simp [hall]]
      refine loop1_cover jr node (pass1_pairs (jr.sockets_per_node.getD node 0)
          (jr.cores_per_socket.getD node 0)) _ hlen (by simp) ?_
          (⟨s', c'⟩ : Nat × Nat) ?_ hbit'
      · have hle1 : ((pass1_pairs (jr.sockets_per_node.getD node 0)
            (jr.cores_per_socket.getD node 0)).filter
            (fun p => bit_test jr.core_bitmap
              (get_job_resources_offset jr node p.1 p.2))).length ≤
            (pass1_pairs (jr.sockets_per_node.getD node 0)
              (jr.cores_per_socket.getD node 0)).length :=
          List.length_filter_le _ _
        have hsum : ∀ n m : Nat, ((List.range n).map (fun _ => m)).sum =
            n * m := by
          intro n m
          induction n with
          | zero => simp
          | succ k ihk => simp [List.range_succ, ihk, Nat.succ_mul]
        have hle2 : (pass1_pairs (jr.sockets_per_node.getD node 0)
            (jr.cores_per_socket.getD node 0)).length =
            jr.cores_per_socket.getD node 0 *
              jr.sockets_per_node.getD node 0 := by
          unfold pass1_pairs
          rw [List.length_flatMap]
          simp [Function.comp_def, hsum]
        have hle3 : (task_cnt : Int) ≤ pick_step_cores_cpu_cnt task_cnt cpt := by
          unfold pick_step_cores_cpu_cnt
          by_cases h : 0 < cpt
          · rw [if_pos h]
            exact le_mul_of_one_le_right (by positivity) (by exact_mod_cast h)
          · rw [if_neg h]
        have hk : ((pass1_pairs (jr.sockets_per_node.getD node 0)
            (jr.cores_per_socket.getD node 0)).filter
            (fun p => bit_test jr.core_bitmap
              (get_job_resources_offset jr node p.1 p.2))).length ≤
            task_cnt := by
          rw [hall, ← hle2]
          exact hle1
        dsimp only
        calc ((((pass1_pairs (jr.sockets_per_node.getD node 0)
              (jr.cores_per_socket.getD node 0)).filter
              (fun p => bit_test jr.core_bitmap
                (get_job_resources_offset jr node p.1 p.2))).length : Nat) : Int)
              ≤ (task_cnt : Int) := by exact_mod_cast hk
          _ ≤ _ := hle3
      · exact List.mem_flatMap.2 ⟨c', List.mem_range.2 hc',
          List.mem_map.2 ⟨s', List.mem_range.2 hs', rfl⟩⟩
    have hmain := hp1 s c hs hc hbit
    unfold pick_step_cores
    dsimp only
    split
    · exact hmain
    · exact hmain
  · intro hne hfresh off hbit
    subst hfresh
    unfold pick_step_cores_p1 at hbit
    dsimp only at hbit
    rw [show (decide (task_cnt = jr.cores_per_socket.getD node 0 *
        jr.sockets_per_node.getD node 0)) = false by simpa using hne] at hbit
    rcases loop1_fresh jr node _ _ off hbit with hinit | hgood
    · exfalso
      have := bit_test_lt_length _ _ hinit
      unfold bit_test at hinit
      rw [List.getD_eq_getElem?_getD, List.getElem?_replicate] at hinit
      split at hinit <;> simp at hinit
    · exact hgood

/-- Counterexample for C6 as stated: one socket of two cores, core 1
already in use, 2 tasks at 2 cpus per task.  The computed
`cpu_cnt = 4` differs from `sockets * cores = 2`, so the claim requires
the first pass to take only used-clear cores; the code nevertheless takes
core 1 (whose used bit is set) in the first pass, because the all-cores
shortcut tests the task count, not `cpu_cnt`. -/
theorem C6_counterexample :
    pick_step_cores_cpu_cnt 2 2 ≠
      ((wJrCore.sockets_per_node.getD 0 0 *
        wJrCore.cores_per_socket.getD 0 0 : Nat) : Int) ∧
    bit_test (pick_step_cores_p1 wJrCore none 2 0 2).core_bitmap_job 1 =
      true ∧
    bit_test wJrCore.core_bitmap_used 1 = true := by
  refine ⟨by decide, by decide, by decide⟩

/-- Witness for C6 at a concrete input: 2 tasks on the 1x2-core node with
`cpus_per_task = 1` take both cores. -/
theorem C6_witness :
    ((2 : Nat) = wJrCore.cores_per_socket.getD 0 0 *
      wJrCore.sockets_per_node.getD 0 0) ∧
    (bit_test (pick_step_cores wJrCore none 1 0 2 0).1.core_bitmap_used 1 =
       true ∧
     bit_test (pick_step_cores wJrCore none 1 0 2 0).1.core_bitmap_job 1 =
       true) := by
  refine ⟨by decide, ?_⟩
  exact (C6_spec wJrCore none 1 0 2 0).2.1 (by decide) rfl (by decide) 0 1
    (by decide) (by decide) (by decide)

/-! #### C2 -/

theorem stepNodePairsGo_fst_sub (sbm : Bitmap) (node_cnt : Nat) :
    ∀ (l : List (Nat × Nat)) (sni : Nat),
    ∀ q ∈ stepNodePairsGo sbm node_cnt l sni, ∃ p ∈ l, q.1 = p.2 := by
  intro l
  induction l with
  | nil => intro sni q hq; simp [stepNodePairsGo] at hq
  | cons hd rest ih =>
    intro sni q hq
    obtain ⟨i, jni⟩ := hd
    unfold stepNodePairsGo at hq
    by_cases hbit : bit_test sbm i = true
    · rw [if_pos hbit] at hq
      rcases List.mem_cons.1 hq with hq1 | hq2
      · subst hq1; exact ⟨(i, jni), List.mem_cons_self _ _, rfl⟩
      · split at hq2
        · simp at hq2
        · obtain ⟨p, hp, hqp⟩ := ih (sni + 1) q hq2
          exact ⟨p, List.mem_cons_of_mem _ hp, hqp⟩
    · rw [if_neg hbit] at hq
      obtain ⟨p, hp, hqp⟩ := ih sni q hq
      exact ⟨p, List.mem_cons_of_mem _ hp, hqp⟩

theorem dealloc_node_step_cu (amt mpc : Nat) (mem_on : Bool) (jni : Nat)
    (cu : List Nat) (mu : Option (List Nat)) (logs : List UnderflowEvent)
    (hlt : jni < cu.length) :
    (dealloc_node_step amt mpc mem_on jni cu mu logs).1.getD jni 0 =
      clampSub (cu.getD jni 0) amt ∧
    (∀ j, j ≠ jni →
      (dealloc_node_step amt mpc mem_on jni cu mu logs).1.getD j 0 =
        cu.getD j 0) ∧
    (dealloc_node_step amt mpc mem_on jni cu mu logs).1.length = cu.length := by
  unfold dealloc_node_step clampSub
  dsimp only
  by_cases hle : amt ≤ cu.getD jni 0
  · rw [if_pos hle, if_pos hle]
    exact ⟨getD_set_self cu jni _ 0 hlt,
      fun j hj => getD_set_ne cu jni j _ 0 (fun h => hj h.symm),
      List.length_set cu jni _⟩
  · rw [if_neg hle, if_neg hle]
    exact ⟨getD_set_self cu jni _ 0 hlt,
      fun j hj => getD_set_ne cu jni j _ 0 (fun h => hj h.symm),
      List.length_set cu jni _⟩

theorem dealloc_node_step_logs (amt mpc : Nat) (mem_on : Bool) (jni : Nat)
    (cu : List Nat) (mu : Option (List Nat)) (logs : List UnderflowEvent) :
    (∃ tail, (dealloc_node_step amt mpc mem_on jni cu mu logs).2.2 =
       logs ++ tail) ∧
    (cu.getD jni 0 < amt →
      (⟨jni, false⟩ : UnderflowEvent) ∈
        (dealloc_node_step amt mpc mem_on jni cu mu logs).2.2) := by
  by_cases hle : amt ≤ cu.getD jni 0
  · cases mem_on with
    | false =>
      exact ⟨⟨[], by simp [dealloc_node_step, ← List.getD_eq_getElem?_getD, hle]⟩,
        fun h => absurd hle (by omega)⟩
    | true =>
      cases mu with
      | none =>
        exact ⟨⟨[], by simp [dealloc_node_step, ← List.getD_eq_getElem?_getD, hle]⟩,
          fun h => absurd hle (by omega)⟩
      | some m =>
        by_cases hm : mpc * amt % 4294967296 ≤ m.getD jni 0
        · exact ⟨⟨[], by simp [dealloc_node_step, ← List.getD_eq_getElem?_getD, hle, hm]⟩,
            fun h => absurd hle (by omega)⟩
        · exact ⟨⟨[⟨jni, true⟩], by simp [dealloc_node_step, ← List.getD_eq_getElem?_getD, hle, hm]⟩,
            fun h => absurd hle (by omega)⟩
  · cases mem_on with
    | false =>
      exact ⟨⟨[⟨jni, false⟩], by simp [dealloc_node_step, ← List.getD_eq_getElem?_getD, hle]⟩,
        fun _ => by simp [dealloc_node_step, ← List.getD_eq_getElem?_getD, hle]⟩
    | true =>
      cases mu with
      | none =>
        exact ⟨⟨[⟨jni, false⟩], by simp [dealloc_node_step, ← List.getD_eq_getElem?_getD, hle]⟩,
          fun _ => by simp [dealloc_node_step, ← List.getD_eq_getElem?_getD, hle]⟩
      | some m =>
        by_cases hm : mpc * amt % 4294967296 ≤ m.getD jni 0
        · exact ⟨⟨[⟨jni, false⟩], by simp [dealloc_node_step, ← List.getD_eq_getElem?_getD, hle, hm]⟩,
            fun _ => by simp [dealloc_node_step, ← List.getD_eq_getElem?_getD, hle, hm]⟩
        · exact ⟨⟨[⟨jni, false⟩, ⟨jni, true⟩],
              by simp [dealloc_node_step, ← List.getD_eq_getElem?_getD, hle, hm]⟩,
            fun _ => by simp [dealloc_node_step, ← List.getD_eq_getElem?_getD, hle, hm]⟩

theorem dealloc_node_step_mu (amt mpc : Nat) (jni : Nat)
    (cu : List Nat) (m : List Nat) (logs : List UnderflowEvent)
    (hlt : jni < m.length) :
    ∃ m', (dealloc_node_step amt mpc true jni cu (some m) logs).2.1 =
        some m' ∧
      m'.length = m.length ∧
      m'.getD jni 0 = clampSub (m.getD jni 0) (mpc * amt % 4294967296) ∧
      (∀ j, j ≠ jni → m'.getD j 0 = m.getD j 0) ∧
      (m.getD jni 0 < mpc * amt % 4294967296 →
        (⟨jni, true⟩ : UnderflowEvent) ∈
          (dealloc_node_step amt mpc true jni cu (some m) logs).2.2) := by
  by_cases hm : mpc * amt % 4294967296 ≤ m.getD jni 0
  · refine ⟨m.set jni (m.getD jni 0 - mpc * amt % 4294967296),
      by simp [dealloc_node_step, ← List.getD_eq_getElem?_getD, hm], List.length_set m jni _, ?_, ?_, ?_⟩
    · rw [getD_set_self m jni _ 0 hlt]
      unfold clampSub
      rw [if_pos hm]
    · exact fun j hj => getD_set_ne m jni j _ 0 (fun h => hj h.symm)
    · exact fun h => absurd hm (by omega)
  · refine ⟨m.set jni 0, by simp [dealloc_node_step, ← List.getD_eq_getElem?_getD, hm],
      List.length_set m jni _, ?_, ?_, ?_⟩
    · rw [getD_set_self m jni _ 0 hlt]
      unfold clampSub
      rw [if_neg hm]
    · exact fun j hj => getD_set_ne m jni j _ 0 (fun h => hj h.symm)
    · intro _
      simp [dealloc_node_step, ← List.getD_eq_getElem?_getD, hm]

theorem dealloc_node_step_mu_off (amt mpc : Nat) (mem_on : Bool) (jni : Nat)
    (cu : List Nat) (mu : Option (List Nat)) (logs : List UnderflowEvent) :
    (mem_on = false → (dealloc_node_step amt mpc mem_on jni cu mu logs).2.1 =
      mu) ∧
    (mu = none → (dealloc_node_step amt mpc mem_on jni cu mu logs).2.1 =
      none) := by
  unfold dealloc_node_step
  dsimp only
  constructor
  · intro h; subst h; rfl
  · intro h; subst h
    cases mem_on <;> rfl

theorem dealloc_nodes_spec (sbm : Bitmap) (tasks : List Nat)
    (node_cnt cpt mpc : Nat) (mem_on : Bool) :
    ∀ (l : List (Nat × Nat)) (sni : Nat) (cu : List Nat)
      (mu : Option (List Nat)) (logs : List UnderflowEvent),
    l.Pairwise (fun p q => p.2 < q.2) →
    (∀ p ∈ l, p.2 < cu.length) →
    (∀ q ∈ stepNodePairsGo sbm node_cnt l sni,
       (dealloc_nodes sbm tasks node_cnt cpt mpc mem_on l sni cu mu
           logs).1.getD q.1 0 =
         clampSub (cu.getD q.1 0) (tasks.getD q.2 0 * cpt)) ∧
    (∀ j, (∀ q ∈ stepNodePairsGo sbm node_cnt l sni, q.1 ≠ j) →
       (dealloc_nodes sbm tasks node_cnt cpt mpc mem_on l sni cu mu
           logs).1.getD j 0 = cu.getD j 0) ∧
    (∃ tail, (dealloc_nodes sbm tasks node_cnt cpt mpc mem_on l sni cu mu
       logs).2.2 = logs ++ tail) ∧
    (∀ q ∈ stepNodePairsGo sbm node_cnt l sni,
       cu.getD q.1 0 < tasks.getD q.2 0 * cpt →
       (⟨q.1, false⟩ : UnderflowEvent) ∈
         (dealloc_nodes sbm tasks node_cnt cpt mpc mem_on l sni cu mu
           logs).2.2) ∧
    (mem_on = true → ∀ m, mu = some m → (∀ p ∈ l, p.2 < m.length) →
       ∃ m', (dealloc_nodes sbm tasks node_cnt cpt mpc mem_on l sni cu mu
           logs).2.1 = some m' ∧ m'.length = m.length ∧
         (∀ q ∈ stepNodePairsGo sbm node_cnt l sni, m'.getD q.1 0 =
            clampSub (m.getD q.1 0) (mpc * (tasks.getD q.2 0 * cpt) % 4294967296)) ∧
         (∀ j, (∀ q ∈ stepNodePairsGo sbm node_cnt l sni, q.1 ≠ j) →
            m'.getD j 0 = m.getD j 0) ∧
         (∀ q ∈ stepNodePairsGo sbm node_cnt l sni,
            m.getD q.1 0 < mpc * (tasks.getD q.2 0 * cpt) % 4294967296 →
            (⟨q.1, true⟩ : UnderflowEvent) ∈
              (dealloc_nodes sbm tasks node_cnt cpt mpc mem_on l sni cu mu
                logs).2.2)) := by
  intro l
  induction l with
  | nil =>
    intro sni cu mu logs _ _
    refine ⟨?_, ?_, ⟨[], by simp [dealloc_nodes]⟩, ?_, ?_⟩
    · intro q hq; simp [stepNodePairsGo] at hq
    · intro j _; simp [dealloc_nodes]
    · intro q hq; simp [stepNodePairsGo] at hq
    · intro _ m hm _
      exact ⟨m, by simp [dealloc_nodes, hm], rfl,
        fun q hq => by simp [stepNodePairsGo] at hq,
        fun j _ => rfl,
        fun q hq => by simp [stepNodePairsGo] at hq⟩
  | cons hd rest ih =>
    rintro sni cu mu logs hpw hcu
    obtain ⟨i, jni⟩ := hd
    have hpw_head := (List.pairwise_cons.1 hpw).1
    have hpw_tail := (List.pairwise_cons.1 hpw).2
    by_cases hbit : bit_test sbm i = true
    · have hjni_lt : jni < cu.length := hcu (i, jni) (List.mem_cons_self _ _)
      obtain ⟨hcu_at, hcu_ne, hcu_len⟩ := dealloc_node_step_cu
        (tasks.getD sni 0 * cpt) mpc mem_on jni cu mu logs hjni_lt
      obtain ⟨⟨tail0, htail0⟩, hlog_cpu⟩ := dealloc_node_step_logs
        (tasks.getD sni 0 * cpt) mpc mem_on jni cu mu logs
      by_cases hbrk : sni = node_cnt - 1
      · -- break after the last step node
        have hgo : stepNodePairsGo sbm node_cnt ((i, jni) :: rest) sni =
            [(jni, sni)] := by
          unfold stepNodePairsGo
          rw [if_pos hbit, if_pos hbrk]
        have hdl : dealloc_nodes sbm tasks node_cnt cpt mpc mem_on
            ((i, jni) :: rest) sni cu mu logs =
            dealloc_node_step (tasks.getD sni 0 * cpt) mpc mem_on jni cu mu
              logs := by
          unfold dealloc_nodes
          rw [if_pos hbit]
          dsimp only
          rw [if_pos hbrk]
        rw [hgo, hdl]
        refine ⟨?_, ?_, ⟨tail0, htail0⟩, ?_, ?_⟩
        · intro q hq
          have hq' : q = (jni, sni) := by simpa using hq
          subst hq'
          exact hcu_at
        · intro j hj
          have hjne : jni ≠ j := hj (jni, sni) (by simp)
          exact hcu_ne j (fun h => hjne h.symm)
        · intro q hq
          have hq' : q = (jni, sni) := by simpa using hq
          subst hq'
          exact hlog_cpu
        · intro hmem m hm hmlen
          subst hmem
          subst hm
          obtain ⟨m', hm'eq, hm'len, hm'at, hm'ne, hm'log⟩ :=
            dealloc_node_step_mu (tasks.getD sni 0 * cpt) mpc jni cu m logs
              (hmlen (i, jni) (List.mem_cons_self _ _))
          refine ⟨m', hm'eq, hm'len, ?_, ?_, ?_⟩
          · intro q hq
            have hq' : q = (jni, sni) := by simpa using hq
            subst hq'
            exact hm'at
          · intro j hj
            have hjne : jni ≠ j := hj (jni, sni) (by simp)
            exact hm'ne j (fun h => hjne h.symm)
          · intro q hq
            have hq' : q = (jni, sni) := by simpa using hq
            subst hq'
            exact hm'log
      · -- continue with the next node
        have hgo : stepNodePairsGo sbm node_cnt ((i, jni) :: rest) sni =
            (jni, sni) :: stepNodePairsGo sbm node_cnt rest (sni + 1) := by
          conv_lhs => unfold stepNodePairsGo
          rw [if_pos hbit, if_neg hbrk]
        have hdl : dealloc_nodes sbm tasks node_cnt cpt mpc mem_on
            ((i, jni) :: rest) sni cu mu logs =
            dealloc_nodes sbm tasks node_cnt cpt mpc mem_on rest (sni + 1)
              (dealloc_node_step (tasks.getD sni 0 * cpt) mpc mem_on jni cu
                mu logs).1
              (dealloc_node_step (tasks.getD sni 0 * cpt) mpc mem_on jni cu
                mu logs).2.1
              (dealloc_node_step (tasks.getD sni 0 * cpt) mpc mem_on jni cu
                mu logs).2.2 := by
          conv_lhs => unfold dealloc_nodes
          rw [if_pos hbit]
          dsimp only
          rw [if_neg hbrk]
        have hcu_rest : ∀ p ∈ rest, p.2 <
            (dealloc_node_step (tasks.getD sni 0 * cpt) mpc mem_on jni cu mu
              logs).1.length := by
          rw [hcu_len]
          exact fun p hp => hcu p (List.mem_cons_of_mem _ hp)
        obtain ⟨ih1, ih2, ih3, ih4, ih5⟩ := ih (sni + 1)
          (dealloc_node_step (tasks.getD sni 0 * cpt) mpc mem_on jni cu mu
            logs).1
          (dealloc_node_step (tasks.getD sni 0 * cpt) mpc mem_on jni cu mu
            logs).2.1
          (dealloc_node_step (tasks.getD sni 0 * cpt) mpc mem_on jni cu mu
            logs).2.2
          hpw_tail hcu_rest
        have hfst : ∀ q ∈ stepNodePairsGo sbm node_cnt rest (sni + 1),
            q.1 ≠ jni := by
          intro q hq
          obtain ⟨p, hp, hqp⟩ := stepNodePairsGo_fst_sub sbm node_cnt rest
            (sni + 1) q hq
          have := hpw_head p hp
          omega
        obtain ⟨tail1, htail1⟩ := ih3
        rw [hgo, hdl]
        refine ⟨?_, ?_, ?_, ?_, ?_⟩
        · intro q hq
          rcases List.mem_cons.1 hq with hq1 | hq2
          · subst hq1
            rw [ih2 jni hfst]
            exact hcu_at
          · rw [ih1 q hq2, hcu_ne q.1 (hfst q hq2)]
        · intro j hj
          have hjne : jni ≠ j := hj (jni, sni) (List.mem_cons_self _ _)
          rw [ih2 j (fun q hq => hj q (List.mem_cons_of_mem _ hq))]
          exact hcu_ne j (fun h => hjne h.symm)
        · exact ⟨tail0 ++ tail1, by rw [htail1, htail0, List.append_assoc]⟩
        · intro q hq hlt
          rcases List.mem_cons.1 hq with hq1 | hq2
          · subst hq1
            rw [htail1]
            exact List.mem_append_left _ (hlog_cpu hlt)
          · refine ih4 q hq2 ?_
            rw [hcu_ne q.1 (hfst q hq2)]
            exact hlt
        · intro hmem m hm hmlen
          subst hmem
          subst hm
          obtain ⟨m', hm'eq, hm'len, hm'at, hm'ne, hm'log⟩ :=
            dealloc_node_step_mu (tasks.getD sni 0 * cpt) mpc jni cu m logs
              (hmlen (i, jni) (List.mem_cons_self _ _))
          have hmlen_rest : ∀ p ∈ rest, p.2 < m'.length := by
            rw [hm'len]
            exact fun p hp => hmlen p (List.mem_cons_of_mem _ hp)
          obtain ⟨m'', hm''eq, hm''len, hm''at, hm''ne, hm''log⟩ :=
            ih5 rfl m' hm'eq hmlen_rest
          refine ⟨m'', hm''eq, by rw [hm''len, hm'len], ?_, ?_, ?_⟩
          · intro q hq
            rcases List.mem_cons.1 hq with hq1 | hq2
            · subst hq1
              rw [hm''ne jni hfst]
              exact hm'at
            · rw [hm''at q hq2, hm'ne q.1 (hfst q hq2)]
          · intro j hj
            have hjne : jni ≠ j := hj (jni, sni) (by simp)
            rw [hm''ne j (fun q hq => hj q (List.mem_cons_of_mem _ hq))]
            exact hm'ne j (fun h => hjne h.symm)
          · intro q hq hlt
            rcases List.mem_cons.1 hq with hq1 | hq2
            · subst hq1
              rw [htail1]
              exact List.mem_append_left _ (hm'log hlt)
            · refine hm''log q hq2 ?_
              rw [hm'ne q.1 (hfst q hq2)]
              exact hlt
    · -- not a node of the step: skip
      have hgo : stepNodePairsGo sbm node_cnt ((i, jni) :: rest) sni =
          stepNodePairsGo sbm node_cnt rest sni := by
        conv_lhs => unfold stepNodePairsGo
        rw [if_neg hbit]
      have hdl : dealloc_nodes sbm tasks node_cnt cpt mpc mem_on
          ((i, jni) :: rest) sni cu mu logs =
          dealloc_nodes sbm tasks node_cnt cpt mpc mem_on rest sni cu mu
            logs := by
        conv_lhs => unfold dealloc_nodes
        rw [if_neg hbit]
      rw [hgo, hdl]
      obtain ⟨ih1, ih2, ih3, ih4, ih5⟩ := ih sni cu mu logs hpw_tail
        (fun p hp => hcu p (List.mem_cons_of_mem _ hp))
      refine ⟨ih1, ih2, ih3, ih4, ?_⟩
      intro hmem m hm hmlen
      exact ih5 hmem m hm (fun p hp => hmlen p (List.mem_cons_of_mem _ hp))

/-- Under active memory reservation with both memory arrays present, the
deallocation's three outputs are those of the node walk itself. -/
theorem step_dealloc_lps_proj (job : JobRecord) (step : StepRecord)
    (lay : StepLayout) (m : List Nat)
    (h_lay : step.step_layout = some lay)
    (h_ne : bit_set_count job.job_resrcs.node_bitmap ≠ 0)
    (h_mpc : step.mem_per_cpu ≠ 0)
    (h_ma : job.job_resrcs.memory_allocated ≠ none)
    (h_mu : job.job_resrcs.memory_used = some m) :
    (step_dealloc_lps true job step).1.job_resrcs.cpus_used =
      (dealloc_nodes step.step_node_bitmap lay.tasks lay.node_cnt
        step.cpus_per_task step.mem_per_cpu true
        (bitRanks job.job_resrcs.node_bitmap) 0 job.job_resrcs.cpus_used
        (some m) []).1 ∧
    (step_dealloc_lps true job step).1.job_resrcs.memory_used =
      (dealloc_nodes step.step_node_bitmap lay.tasks lay.node_cnt
        step.cpus_per_task step.mem_per_cpu true
        (bitRanks job.job_resrcs.node_bitmap) 0 job.job_resrcs.cpus_used
        (some m) []).2.1 ∧
    (step_dealloc_lps true job step).2 =
      (dealloc_nodes step.step_node_bitmap lay.tasks lay.node_cnt
        step.cpus_per_task step.mem_per_cpu true
        (bitRanks job.job_resrcs.node_bitmap) 0 job.job_resrcs.cpus_used
        (some m) []).2.2 := by
  have hc : ¬(step.mem_per_cpu ≠ 0 ∧ True ∧
      (job.job_resrcs.memory_allocated = none ∨
       job.job_resrcs.memory_used = none)) := by
    rintro ⟨-, -, h | h⟩
    · exact h_ma h
    · rw [h_mu] at h; exact Option.noConfusion h
  simp only [step_dealloc_lps, h_lay]
  rw [if_neg h_ne, if_neg hc]
  have hon : decide (step.mem_per_cpu ≠ 0 ∧ True) = true := by
    simp [h_mpc]
  rw [hon, h_mu]
  exact ⟨rfl, rfl, rfl⟩

/-- C2: with memory reservation active and per-node memory tracked, releasing
a live step's allocation credits each walked node `(jni, sni)` by exactly
`tasks[sni] * cpus_per_task` cpus and by the `uint32_t` product
`mem_per_cpu * (tasks[sni] * cpus_per_task) mod 2^32` memory units, clamping
at zero: a counter at least the (wrapped) credit is decremented by exactly
it, a smaller one is set to `0` and an underflow event for that node (cpu or
memory) is logged.  Counters therefore never go below zero, but once the
memory product reaches `2^32` the credited amount wraps rather than clamps
(see the counterexample). -/
theorem C2_spec (job : JobRecord) (step : StepRecord)
    (lay : StepLayout) (m : List Nat)
    (h_lay : step.step_layout = some lay)
    (h_ne : bit_set_count job.job_resrcs.node_bitmap ≠ 0)
    (h_cu : bit_set_count job.job_resrcs.node_bitmap ≤
      job.job_resrcs.cpus_used.length)
    (h_mpc : step.mem_per_cpu ≠ 0)
    (h_ma : job.job_resrcs.memory_allocated ≠ none)
    (h_mu : job.job_resrcs.memory_used = some m)
    (h_ml : bit_set_count job.job_resrcs.node_bitmap ≤ m.length) :
    ∃ m', (step_dealloc_lps true job step).1.job_resrcs.memory_used =
        some m' ∧
      ∀ q ∈ stepNodePairs job.job_resrcs.node_bitmap step.step_node_bitmap
          lay.node_cnt,
        (step_dealloc_lps true job step).1.job_resrcs.cpus_used.getD q.1 0 =
            clampSub (job.job_resrcs.cpus_used.getD q.1 0)
              (lay.tasks.getD q.2 0 * step.cpus_per_task) ∧
        (job.job_resrcs.cpus_used.getD q.1 0 <
            lay.tasks.getD q.2 0 * step.cpus_per_task →
          (⟨q.1, false⟩ : UnderflowEvent) ∈
            (step_dealloc_lps true job step).2) ∧
        m'.getD q.1 0 = clampSub (m.getD q.1 0)
            (step.mem_per_cpu * (lay.tasks.getD q.2 0 * step.cpus_per_task) %
              4294967296) ∧
        (m.getD q.1 0 <
            step.mem_per_cpu * (lay.tasks.getD q.2 0 * step.cpus_per_task) %
              4294967296 →
          (⟨q.1, true⟩ : UnderflowEvent) ∈
            (step_dealloc_lps true job step).2) := by
  obtain ⟨hp1, hp2, hp3⟩ :=
    step_dealloc_lps_proj job step lay m h_lay h_ne h_mpc h_ma h_mu
  have hpw : (bitRanks job.job_resrcs.node_bitmap).Pairwise
      (fun p q => p.2 < q.2) :=
    bitRanksAux_pairwise_snd job.job_resrcs.node_bitmap 0 0
  have hbnd : ∀ p ∈ bitRanks job.job_resrcs.node_bitmap,
      p.2 < job.job_resrcs.cpus_used.length := by
    intro p hp
    have := bitRanksAux_snd_ub job.job_resrcs.node_bitmap 0 0 p hp
    omega
  have hbndm : ∀ p ∈ bitRanks job.job_resrcs.node_bitmap, p.2 < m.length := by
    intro p hp
    have := bitRanksAux_snd_ub job.job_resrcs.node_bitmap 0 0 p hp
    omega
  obtain ⟨k1, k2, k3, k4, k5⟩ := dealloc_nodes_spec step.step_node_bitmap
    lay.tasks lay.node_cnt step.cpus_per_task step.mem_per_cpu true
    (bitRanks job.job_resrcs.node_bitmap) 0 job.job_resrcs.cpus_used
    (some m) [] hpw hbnd
  obtain ⟨m', hm'eq, hm'len, hm'at, hm'ne, hm'log⟩ := k5 rfl m rfl hbndm
  refine ⟨m', by rw [hp2]; exact hm'eq, ?_⟩
  intro q hq
  have hq' : q ∈ stepNodePairsGo step.step_node_bitmap lay.node_cnt
      (bitRanks job.job_resrcs.node_bitmap) 0 := hq
  refine ⟨?_, ?_, hm'at q hq', ?_⟩
  · rw [hp1]
    exact k1 q hq'
  · intro hlt
    rw [hp3]
    exact k4 q hq' hlt
  · intro hlt
    rw [hp3]
    exact hm'log q hq' hlt

theorem C2_witness :
    ∃ m', (step_dealloc_lps true wJobD wStepD).1.job_resrcs.memory_used =
        some m' ∧
      ∀ q ∈ stepNodePairs wJobD.job_resrcs.node_bitmap
          wStepD.step_node_bitmap (1 : Nat),
        (step_dealloc_lps true wJobD wStepD).1.job_resrcs.cpus_used.getD
            q.1 0 = clampSub (wJobD.job_resrcs.cpus_used.getD q.1 0)
              (([2] : List Nat).getD q.2 0 * wStepD.cpus_per_task) ∧
        (wJobD.job_resrcs.cpus_used.getD q.1 0 <
            ([2] : List Nat).getD q.2 0 * wStepD.cpus_per_task →
          (⟨q.1, false⟩ : UnderflowEvent) ∈
            (step_dealloc_lps true wJobD wStepD).2) ∧
        m'.getD q.1 0 = clampSub (([5] : List Nat).getD q.1 0)
            (wStepD.mem_per_cpu *
              (([2] : List Nat).getD q.2 0 * wStepD.cpus_per_task) %
              4294967296) ∧
        (([5] : List Nat).getD q.1 0 <
            wStepD.mem_per_cpu *
              (([2] : List Nat).getD q.2 0 * wStepD.cpus_per_task) %
              4294967296 →
          (⟨q.1, true⟩ : UnderflowEvent) ∈
            (step_dealloc_lps true wJobD wStepD).2) :=
  C2_spec wJobD wStepD ⟨[2], 1⟩ [5] rfl (by decide) (by decide) (by decide)
    (by decide) rfl (by decide)

theorem bit_test_bit_clear_ne (b : Bitmap) (i j : Nat) (h : i ≠ j) :
    bit_test (bit_clear b i) j = bit_test b j := by
  unfold bit_test bit_clear
  exact getD_set_ne b i j false false h

theorem intOfU32_lt (n : Nat) : intOfU32 n < 4294967296 := by
  unfold intOfU32
  split
  · omega
  · omega

theorem u32ofInt_toNat (x : Int) (h0 : 0 ≤ x) (h1 : x < 4294967296) :
    u32ofInt x = x.toNat := by
  unfold u32ofInt
  rw [Int.emod_eq_of_lt h0 h1]

theorem excl_avail_tasks_lt (env : PluginEnv) (jr : JobResources)
    (spec : StepSpec) (cpt i : Nat) :
    excl_avail_tasks env jr spec cpt i < 4294967296 := by
  unfold excl_avail_tasks
  exact intOfU32_lt _

theorem sumBy_cons {α : Type} (p : α) (l : List α) (f : α → Nat) :
    sumBy (p :: l) f = f p + sumBy l f := by
  simp [sumBy]

theorem excl_avail_sum_cons (env : PluginEnv) (jr : JobResources)
    (spec : StepSpec) (cpt : Nat) (nodes_avail0 : Bitmap) (i j : Nat)
    (l : List (Nat × Nat)) :
    excl_avail_sum env jr spec cpt nodes_avail0 ((i, j) :: l) =
      (if bit_test nodes_avail0 i then
        (excl_avail_tasks env jr spec cpt j).toNat else 0) +
      excl_avail_sum env jr spec cpt nodes_avail0 l := by
  simp [excl_avail_sum, sumBy]

theorem excl_total_sum_cons (env : PluginEnv) (jr : JobResources)
    (spec : StepSpec) (cpt : Nat) (nodes_avail0 : Bitmap) (i j : Nat)
    (l : List (Nat × Nat)) :
    excl_total_sum env jr spec cpt nodes_avail0 ((i, j) :: l) =
      (if bit_test nodes_avail0 i then
        u32ofInt (excl_total_tasks env jr spec cpt j) else 0) +
      excl_total_sum env jr spec cpt nodes_avail0 l := by
  simp [excl_total_sum, sumBy]

theorem excl_fold_spec (env : PluginEnv) (jr : JobResources) (spec : StepSpec)
    (cpt : Nat) (b : Bool) (nodes_avail0 : Bitmap)
    (h_max : spec.max_nodes = 0) :
    ∀ (l : List (Nat × Nat)) (st : ExclState),
    l.Pairwise (fun p q => p.1 ≠ q.1) →
    (∀ p ∈ l, bit_test st.nodes_avail p.1 = bit_test nodes_avail0 p.1) →
    st.tasks_picked_cnt + excl_avail_sum env jr spec cpt nodes_avail0 l <
      4294967296 →
    st.total_task_cnt + excl_total_sum env jr spec cpt nodes_avail0 l <
      4294967296 →
    (l.foldl (excl_visit env jr spec cpt b) st).total_task_cnt =
        st.total_task_cnt + excl_total_sum env jr spec cpt nodes_avail0 l ∧
    (l.foldl (excl_visit env jr spec cpt b) st).tasks_picked_cnt ≤
        st.tasks_picked_cnt + excl_avail_sum env jr spec cpt nodes_avail0 l ∧
    min spec.num_tasks
        (st.tasks_picked_cnt + excl_avail_sum env jr spec cpt nodes_avail0 l) ≤
      (l.foldl (excl_visit env jr spec cpt b) st).tasks_picked_cnt := by
  intro l
  induction l with
  | nil =>
    intro st _ _ _ _
    simp [excl_total_sum, excl_avail_sum, sumBy]
  | cons p rest ih =>
    rintro st hpw hagree hav htot
    obtain ⟨i, jni⟩ := p
    have hpw_head := (List.pairwise_cons.1 hpw).1
    have hpw_tail := (List.pairwise_cons.1 hpw).2
    have hag_head := hagree (i, jni) (List.mem_cons_self _ _)
    rw [List.foldl_cons]
    by_cases hbit : bit_test st.nodes_avail (i, jni).1 = true
    · -- the node is still available
      have hbit0 : bit_test nodes_avail0 i = true := by
        rw [← hag_head]; exact hbit
      rw [excl_avail_sum_cons, if_pos hbit0] at hav
      rw [excl_total_sum_cons, if_pos hbit0] at htot
      have hmaxne : ¬(spec.max_nodes ≠ 0 ∧
          spec.max_nodes ≤ st.nodes_picked_cnt) := by
        simp [h_max]
      have hmt : (st.total_task_cnt +
          u32ofInt (excl_total_tasks env jr spec cpt jni)) % 4294967296 =
          st.total_task_cnt +
            u32ofInt (excl_total_tasks env jr spec cpt jni) := by
        apply Nat.mod_eq_of_lt
        omega
      by_cases hdrop : excl_avail_tasks env jr spec cpt jni ≤ 0 ∨
          (¬ (b = true) ∧ spec.min_nodes ≤ st.nodes_picked_cnt ∧
           0 < st.tasks_picked_cnt ∧ spec.num_tasks ≤ st.tasks_picked_cnt)
      · -- dropped: count only the total tasks
        have hv : excl_visit env jr spec cpt b st (i, jni) =
            (⟨bit_clear st.nodes_avail i, st.nodes_picked_cnt,
              st.tasks_picked_cnt, st.total_task_cnt +
                u32ofInt (excl_total_tasks env jr spec cpt jni)⟩ :
              ExclState) := by
          unfold excl_visit
          rw [if_neg (by simp [hbit])]
          dsimp only
          rw [if_neg hmaxne, if_pos hdrop, hmt]
        rw [hv]
        have hagree' : ∀ q ∈ rest,
            bit_test (bit_clear st.nodes_avail i) q.1 =
              bit_test nodes_avail0 q.1 := by
          intro q hq
          rw [bit_test_bit_clear_ne _ _ _ (hpw_head q hq)]
          exact hagree q (List.mem_cons_of_mem _ hq)
        have hav' : st.tasks_picked_cnt +
            excl_avail_sum env jr spec cpt nodes_avail0 rest <
            4294967296 := by omega
        have htot' : st.total_task_cnt +
            u32ofInt (excl_total_tasks env jr spec cpt jni) +
            excl_total_sum env jr spec cpt nodes_avail0 rest <
            4294967296 := by omega
        obtain ⟨ih1, ih2, ih3⟩ := ih
          ⟨bit_clear st.nodes_avail i, st.nodes_picked_cnt,
           st.tasks_picked_cnt, st.total_task_cnt +
             u32ofInt (excl_total_tasks env jr spec cpt jni)⟩
          hpw_tail hagree' hav' htot'
        dsimp only at ih1 ih2 ih3
        rw [excl_total_sum_cons, excl_avail_sum_cons, if_pos hbit0,
          if_pos hbit0]
        refine ⟨by rw [ih1]; omega, le_trans ih2 (by omega), ?_⟩
        rcases hdrop with hneg | hsurplus
        · have hz : (excl_avail_tasks env jr spec cpt jni).toNat = 0 := by
            omega
          refine le_trans ?_ ih3
          rw [hz]
          omega
        · have hnt : spec.num_tasks ≤ st.tasks_picked_cnt := hsurplus.2.2.2
          refine le_trans ?_ ih3
          omega
      · -- kept: count both available and total tasks
        have hpos : 0 < excl_avail_tasks env jr spec cpt jni := by
          push_neg at hdrop
          exact hdrop.1
        have hu : u32ofInt (excl_avail_tasks env jr spec cpt jni) =
            (excl_avail_tasks env jr spec cpt jni).toNat :=
          u32ofInt_toNat _ (le_of_lt hpos)
            (excl_avail_tasks_lt env jr spec cpt jni)
        have hmp : (st.tasks_picked_cnt +
            u32ofInt (excl_avail_tasks env jr spec cpt jni)) % 4294967296 =
            st.tasks_picked_cnt +
              u32ofInt (excl_avail_tasks env jr spec cpt jni) := by
          apply Nat.mod_eq_of_lt
          rw [hu]
          omega
        have hv : excl_visit env jr spec cpt b st (i, jni) =
            (⟨st.nodes_avail, (st.nodes_picked_cnt + 1) % 4294967296,
              st.tasks_picked_cnt +
                u32ofInt (excl_avail_tasks env jr spec cpt jni),
              st.total_task_cnt +
                u32ofInt (excl_total_tasks env jr spec cpt jni)⟩ :
              ExclState) := by
          unfold excl_visit
          rw [if_neg (by simp [hbit])]
          dsimp only
          rw [if_neg hmaxne, if_neg hdrop, hmt, hmp]
        rw [hv]
        have hagree' : ∀ q ∈ rest, bit_test st.nodes_avail q.1 =
            bit_test nodes_avail0 q.1 :=
          fun q hq => hagree q (List.mem_cons_of_mem _ hq)
        have hav' : st.tasks_picked_cnt +
            u32ofInt (excl_avail_tasks env jr spec cpt jni) +
            excl_avail_sum env jr spec cpt nodes_avail0 rest <
            4294967296 := by
          rw [hu]
          omega
        have htot' : st.total_task_cnt +
            u32ofInt (excl_total_tasks env jr spec cpt jni) +
            excl_total_sum env jr spec cpt nodes_avail0 rest <
            4294967296 := by omega
        obtain ⟨ih1, ih2, ih3⟩ := ih
          ⟨st.nodes_avail, (st.nodes_picked_cnt + 1) % 4294967296,
           st.tasks_picked_cnt +
             u32ofInt (excl_avail_tasks env jr spec cpt jni),
           st.total_task_cnt +
             u32ofInt (excl_total_tasks env jr spec cpt jni)⟩
          hpw_tail hagree' hav' htot'
        dsimp only at ih1 ih2 ih3
        rw [hu] at ih1 ih2 ih3
        rw [excl_total_sum_cons, excl_avail_sum_cons, if_pos hbit0,
          if_pos hbit0, hu]
        exact ⟨by rw [ih1]; omega, le_trans ih2 (by omega),
          by refine le_trans ?_ ih3; omega⟩
    · -- node no longer in the available set: skipped
      have hbit0 : bit_test nodes_avail0 i = false := by
        rw [← hag_head]
        exact eq_false_of_ne_true hbit
      rw [excl_avail_sum_cons, if_neg (by simp [hbit0])] at hav
      rw [excl_total_sum_cons, if_neg (by simp [hbit0])] at htot
      have hv : excl_visit env jr spec cpt b st (i, jni) = st := by
        unfold excl_visit
        rw [if_pos (by simp [hbit])]
      rw [hv]
      obtain ⟨ih1, ih2, ih3⟩ := ih st hpw_tail
        (fun q hq => hagree q (List.mem_cons_of_mem _ hq))
        (by omega) (by omega)
      rw [excl_total_sum_cons, excl_avail_sum_cons,
        if_neg (by simp [hbit0]), if_neg (by simp [hbit0])]
      exact ⟨by rw [ih1]; omega, le_trans ih2 (by omega),
        by refine le_trans ?_ ih3; omega⟩

/-- C4: in exclusive mode with no `max_nodes` cap, and with the per-node
task sums below `2^32` so the `uint32_t` accumulators of
step_mgr.c:574-576 do not wrap, with no named list the picker succeeds,
returning the surviving available-node set, exactly when the sum of
per-node available task counts over the initially available nodes reaches
`num_tasks`; a failure is nodes-busy when the total-task sum reaches
`num_tasks` and config-unavailable otherwise.  A named list that does not
match the surviving set exactly zeroes the picked count, so the request
fails, but the failure is still classified by the same total-task test, not
forced to nodes-busy. -/
theorem C4_spec (env : PluginEnv) (jr : JobResources) (spec : StepSpec)
    (cpt : Nat) (nodes_avail0 jb : Bitmap)
    (h_max : spec.max_nodes = 0)
    (h_avb : excl_avail_sum env jr spec cpt nodes_avail0
      (bitRanks jr.node_bitmap) < 4294967296)
    (h_totb : excl_total_sum env jr spec cpt nodes_avail0
      (bitRanks jr.node_bitmap) < 4294967296) :
    (spec.node_list = none →
      ((pick_step_nodes_excl env jr spec cpt nodes_avail0 jb).2 =
          .SLURM_SUCCESS ↔
        spec.num_tasks ≤ excl_avail_sum env jr spec cpt nodes_avail0
          (bitRanks jr.node_bitmap)) ∧
      (spec.num_tasks ≤ excl_avail_sum env jr spec cpt nodes_avail0
          (bitRanks jr.node_bitmap) →
        pick_step_nodes_excl env jr spec cpt nodes_avail0 jb =
          (some (excl_run env jr spec cpt nodes_avail0).nodes_avail,
           .SLURM_SUCCESS)) ∧
      (excl_avail_sum env jr spec cpt nodes_avail0
          (bitRanks jr.node_bitmap) < spec.num_tasks →
        pick_step_nodes_excl env jr spec cpt nodes_avail0 jb = (none,
          if spec.num_tasks ≤ excl_total_sum env jr spec cpt nodes_avail0
              (bitRanks jr.node_bitmap)
          then .ESLURM_NODES_BUSY
          else .ESLURM_REQUESTED_NODE_CONFIG_UNAVAILABLE))) ∧
    (∀ sel, spec.node_list = some sel →
      (bit_super_set sel jb && bit_super_set sel env.up_node_bitmap) = true →
      bit_equal sel (excl_run env jr spec cpt nodes_avail0).nodes_avail =
        false →
      0 < spec.num_tasks →
      pick_step_nodes_excl env jr spec cpt nodes_avail0 jb = (none,
        if spec.num_tasks ≤ excl_total_sum env jr spec cpt nodes_avail0
            (bitRanks jr.node_bitmap)
        then .ESLURM_NODES_BUSY
        else .ESLURM_REQUESTED_NODE_CONFIG_UNAVAILABLE)) := by
  have hb1 : (0 : Nat) + excl_avail_sum env jr spec cpt nodes_avail0
      (bitRanks jr.node_bitmap) < 4294967296 := by omega
  have hb2 : (0 : Nat) + excl_total_sum env jr spec cpt nodes_avail0
      (bitRanks jr.node_bitmap) < 4294967296 := by omega
  obtain ⟨hTot, hUb, hLb⟩ := excl_fold_spec env jr spec cpt
    spec.node_list.isSome nodes_avail0 h_max (bitRanks jr.node_bitmap)
    ⟨nodes_avail0, 0, 0, 0⟩
    ((bitRanksAux_pairwise_fst jr.node_bitmap 0 0).imp
      (fun h => Nat.ne_of_lt h))
    (fun p _ => rfl) hb1 hb2
  have hrun : excl_run env jr spec cpt nodes_avail0 =
      (bitRanks jr.node_bitmap).foldl
        (excl_visit env jr spec cpt spec.node_list.isSome)
        ⟨nodes_avail0, 0, 0, 0⟩ := rfl
  rw [← hrun] at hTot hUb hLb
  dsimp only at hTot hUb hLb
  rw [Nat.zero_add] at hTot hUb hLb
  constructor
  · intro hnone
    have hsel : excl_tasks_after_sel spec
        (excl_run env jr spec cpt nodes_avail0) =
        (excl_run env jr spec cpt nodes_avail0).tasks_picked_cnt := by
      unfold excl_tasks_after_sel
      rw [hnone]
    have hpick : pick_step_nodes_excl env jr spec cpt nodes_avail0 jb =
        (if spec.num_tasks ≤
            (excl_run env jr spec cpt nodes_avail0).tasks_picked_cnt
         then (some (excl_run env jr spec cpt nodes_avail0).nodes_avail,
               .SLURM_SUCCESS)
         else if spec.num_tasks ≤
             (excl_run env jr spec cpt nodes_avail0).total_task_cnt
         then (none, .ESLURM_NODES_BUSY)
         else (none, .ESLURM_REQUESTED_NODE_CONFIG_UNAVAILABLE)) := by
      unfold pick_step_nodes_excl
      rw [hnone]
      dsimp only
      rw [if_neg (by simp), hsel]
    by_cases hsucc : spec.num_tasks ≤
        (excl_run env jr spec cpt nodes_avail0).tasks_picked_cnt
    · rw [if_pos hsucc] at hpick
      refine ⟨⟨fun _ => by omega, fun _ => by rw [hpick]⟩,
        fun _ => by rw [hpick], fun hlt => by omega⟩
    · rw [if_neg hsucc] at hpick
      refine ⟨⟨fun hrc => ?_, fun hge => absurd hge (by omega)⟩,
        fun hge => absurd hge (by omega), fun hlt => ?_⟩
      · rw [hpick] at hrc
        by_cases h : spec.num_tasks ≤
            (excl_run env jr spec cpt nodes_avail0).total_task_cnt
        · rw [if_pos h] at hrc
          exact absurd hrc (by simp)
        · rw [if_neg h] at hrc
          exact absurd hrc (by simp)
      · rw [hpick, hTot]
        by_cases h : spec.num_tasks ≤ excl_total_sum env jr spec cpt
            nodes_avail0 (bitRanks jr.node_bitmap)
        · rw [if_pos h, if_pos h]
        · rw [if_neg h, if_neg h]
  · intro sel hsel hok hneq hpos
    have hts : excl_tasks_after_sel spec
        (excl_run env jr spec cpt nodes_avail0) = 0 := by
      unfold excl_tasks_after_sel
      rw [hsel]
      dsimp only
      rw [if_neg (by simp [hneq])]
    have hpick : pick_step_nodes_excl env jr spec cpt nodes_avail0 jb =
        (if spec.num_tasks ≤ (0 : Nat)
         then (some (excl_run env jr spec cpt nodes_avail0).nodes_avail,
               .SLURM_SUCCESS)
         else if spec.num_tasks ≤
             (excl_run env jr spec cpt nodes_avail0).total_task_cnt
         then (none, .ESLURM_NODES_BUSY)
         else (none, .ESLURM_REQUESTED_NODE_CONFIG_UNAVAILABLE)) := by
      unfold pick_step_nodes_excl
      rw [hsel]
      dsimp only
      rw [if_neg (by simp [hok]), hts]
    rw [hpick, if_neg (by omega), hTot]
    by_cases h : spec.num_tasks ≤ excl_total_sum env jr spec cpt
        nodes_avail0 (bitRanks jr.node_bitmap)
    · rw [if_pos h, if_pos h]
    · rw [if_neg h, if_neg h]

/-- C4 counterexample to the frozen text: the named node 0 of `wSpecExcl`
is dropped (it has no free cpus), yet the picker reports
config-unavailable, not the nodes-busy deferral the spec promises. -/
theorem C4_counterexample :
    wSpecExcl.node_list = some [true] ∧
    bit_equal [true] (excl_run wEnv wJrBusy wSpecExcl 2 [true]).nodes_avail =
      false ∧
    pick_step_nodes_excl wEnv wJrBusy wSpecExcl 2 [true] [true] =
      (none, .ESLURM_REQUESTED_NODE_CONFIG_UNAVAILABLE) := by
  refine ⟨rfl, by decide, by decide⟩

/-- C4 witness: the success equivalence evaluated on a free one-node job. -/
theorem C4_witness :
    wSpec.max_nodes = 0 ∧ wSpec.node_list = none ∧
    ((pick_step_nodes_excl wEnv wJrFree wSpec 1 [true] [true]).2 =
        .SLURM_SUCCESS ↔
      wSpec.num_tasks ≤ excl_avail_sum wEnv wJrFree wSpec 1 [true]
        (bitRanks wJrFree.node_bitmap)) :=
  ⟨rfl, rfl, ((C4_spec wEnv wJrFree wSpec 1 [true] [true] rfl (by decide)
    (by decide)).1 rfl).1⟩

theorem pick_body_job (env : PluginEnv) (job : JobRecord) (spec : StepSpec)
    (cpt : Nat) (jb na : Bitmap) :
    (pick_step_nodes_body env job spec cpt jb na).job = job := by
  unfold pick_step_nodes_body
  dsimp only
  repeat' split
  all_goals rfl

theorem pick_job_fields (env : PluginEnv) (now : Nat) (job : JobRecord)
    (spec : StepSpec) (cpt : Nat) (b : Bool) :
    (pick_step_nodes env now job spec cpt b).job.step_list = job.step_list ∧
    (pick_step_nodes env now job spec cpt b).job.next_step_id =
      job.next_step_id ∧
    (pick_step_nodes env now job spec cpt b).job.job_resrcs =
      job.job_resrcs ∧
    (pick_step_nodes env now job spec cpt b).job.gres_debits =
      job.gres_debits := by
  unfold pick_step_nodes
  cases job.node_bitmap with
  | none => exact ⟨rfl, rfl, rfl, rfl⟩
  | some jb =>
    dsimp only
    repeat' split
    all_goals first
      | exact ⟨rfl, rfl, rfl, rfl⟩
      | (rw [pick_body_job]; exact ⟨rfl, rfl, rfl, rfl⟩)

theorem map_set_fresh (l : List StepRecord) (r : StepRecord) (sid : Nat)
    (f : StepRecord → StepRecord)
    (hfresh : ∀ t ∈ l, t.step_id ≠ sid) (hr : r.step_id = sid) :
    (l ++ [r]).map (fun s => if s.step_id = sid then f s else s) =
      l ++ [f r] := by
  induction l with
  | nil => simp [hr]
  | cons t rest ih =>
    have ht : t.step_id ≠ sid := hfresh t (List.mem_cons_self _ _)
    simp only [List.cons_append, List.map_cons, if_neg ht]
    rw [ih (fun q hq => hfresh q (List.mem_cons_of_mem _ hq))]

theorem remove_step_append_fresh (l : List StepRecord) (r : StepRecord)
    (sid : Nat) (hfresh : ∀ t ∈ l, t.step_id ≠ sid) (hr : r.step_id = sid) :
    remove_step (l ++ [r]) sid = l := by
  induction l with
  | nil => simp [remove_step, hr]
  | cons t rest ih =>
    have ht : t.step_id ≠ sid := hfresh t (List.mem_cons_self _ _)
    simp only [List.cons_append, remove_step, beq_iff_eq, if_neg ht,
      List.append_eq]
    rw [ih (fun q hq => hfresh q (List.mem_cons_of_mem _ hq))]

theorem find_append_fresh (l : List StepRecord) (r : StepRecord) (sid : Nat)
    (hfresh : ∀ t ∈ l, t.step_id ≠ sid) (hr : r.step_id = sid)
    (hnv : sid ≠ NO_VAL) :
    (l ++ [r]).find? (fun s => s.step_id == sid || sid == NO_VAL) =
      some r := by
  induction l with
  | nil => simp [List.find?, hr]
  | cons t rest ih =>
    have ht : t.step_id ≠ sid := hfresh t (List.mem_cons_self _ _)
    simp only [List.cons_append, List.find?]
    rw [show (t.step_id == sid || sid == NO_VAL) = false by
      simp [ht, hnv]]
    exact ih (fun q hq => hfresh q (List.mem_cons_of_mem _ hq))

theorem set_step_fields (J : JobRecord) (sid : Nat) (f : StepRecord → StepRecord) :
    (set_step J sid f).step_list =
      J.step_list.map (fun s => if s.step_id = sid then f s else s) ∧
    (set_step J sid f).job_resrcs = J.job_resrcs ∧
    (set_step J sid f).gres_debits = J.gres_debits := ⟨rfl, rfl, rfl⟩

theorem delete_fields (J : JobRecord) (sid : Nat) :
    (delete_step_record J sid).1.step_list = remove_step J.step_list sid ∧
    (delete_step_record J sid).1.job_resrcs = J.job_resrcs ∧
    (delete_step_record J sid).1.gres_debits = J.gres_debits := ⟨rfl, rfl, rfl⟩

theorem set_step_append (J : JobRecord) (l : List StepRecord)
    (r : StepRecord) (sid : Nat) (f : StepRecord → StepRecord)
    (hJ : J.step_list = l ++ [r])
    (hfresh : ∀ t ∈ l, t.step_id ≠ sid) (hr : r.step_id = sid) :
    (set_step J sid f).step_list = l ++ [f r] := by
  unfold set_step
  dsimp only
  rw [hJ, map_set_fresh l r sid f hfresh hr]

theorem remove_set1 (J : JobRecord) (l : List StepRecord) (r : StepRecord)
    (sid : Nat) (f1 : StepRecord → StepRecord)
    (hJ : J.step_list = l ++ [r])
    (hfresh : ∀ t ∈ l, t.step_id ≠ sid) (hr : r.step_id = sid)
    (hf1 : ∀ s, (f1 s).step_id = s.step_id) :
    remove_step (set_step J sid f1).step_list sid = l := by
  rw [set_step_append J l r sid f1 hJ hfresh hr]
  exact remove_step_append_fresh l (f1 r) sid hfresh ((hf1 r).trans hr)

theorem remove_set2 (J : JobRecord) (l : List StepRecord) (r : StepRecord)
    (sid : Nat) (f1 f2 : StepRecord → StepRecord)
    (hJ : J.step_list = l ++ [r])
    (hfresh : ∀ t ∈ l, t.step_id ≠ sid) (hr : r.step_id = sid)
    (hf1 : ∀ s, (f1 s).step_id = s.step_id)
    (hf2 : ∀ s, (f2 s).step_id = s.step_id) :
    remove_step (set_step (set_step J sid f1) sid f2).step_list sid = l := by
  rw [set_step_append (set_step J sid f1) l (f1 r) sid f2
    (set_step_append J l r sid f1 hJ hfresh hr) hfresh ((hf1 r).trans hr)]
  exact remove_step_append_fresh l (f2 (f1 r)) sid hfresh
    ((hf2 (f1 r)).trans ((hf1 r).trans hr))

theorem remove_set3 (J : JobRecord) (l : List StepRecord) (r : StepRecord)
    (sid : Nat) (f1 f2 f3 : StepRecord → StepRecord)
    (hJ : J.step_list = l ++ [r])
    (hfresh : ∀ t ∈ l, t.step_id ≠ sid) (hr : r.step_id = sid)
    (hf1 : ∀ s, (f1 s).step_id = s.step_id)
    (hf2 : ∀ s, (f2 s).step_id = s.step_id)
    (hf3 : ∀ s, (f3 s).step_id = s.step_id) :
    remove_step
      (set_step (set_step (set_step J sid f1) sid f2) sid f3).step_list
        sid = l := by
  rw [set_step_append (set_step (set_step J sid f1) sid f2) l (f2 (f1 r))
    sid f3
    (set_step_append (set_step J sid f1) l (f1 r) sid f2
      (set_step_append J l r sid f1 hJ hfresh hr) hfresh
      ((hf1 r).trans hr))
    hfresh ((hf2 (f1 r)).trans ((hf1 r).trans hr))]
  exact remove_step_append_fresh l (f3 (f2 (f1 r))) sid hfresh
    ((hf3 (f2 (f1 r))).trans ((hf2 (f1 r)).trans ((hf1 r).trans hr)))

theorem find_set2 (J : JobRecord) (l : List StepRecord) (r : StepRecord)
    (sid : Nat) (f1 f2 : StepRecord → StepRecord)
    (hJ : J.step_list = l ++ [r])
    (hfresh : ∀ t ∈ l, t.step_id ≠ sid) (hr : r.step_id = sid)
    (hnv : sid ≠ NO_VAL)
    (hf1 : ∀ s, (f1 s).step_id = s.step_id)
    (hf2 : ∀ s, (f2 s).step_id = s.step_id) :
    find_step_record (set_step (set_step J sid f1) sid f2) sid = none →
      False := by
  intro heq
  unfold find_step_record at heq
  rw [set_step_append (set_step J sid f1) l (f1 r) sid f2
    (set_step_append J l r sid f1 hJ hfresh hr) hfresh
    ((hf1 r).trans hr)] at heq
  rw [find_append_fresh l (f2 (f1 r)) sid hfresh
    ((hf2 (f1 r)).trans ((hf1 r).trans hr)) hnv] at heq
  exact Option.noConfusion heq

theorem find_set3 (J : JobRecord) (l : List StepRecord) (r : StepRecord)
    (sid : Nat) (f1 f2 f3 : StepRecord → StepRecord)
    (hJ : J.step_list = l ++ [r])
    (hfresh : ∀ t ∈ l, t.step_id ≠ sid) (hr : r.step_id = sid)
    (hnv : sid ≠ NO_VAL)
    (hf1 : ∀ s, (f1 s).step_id = s.step_id)
    (hf2 : ∀ s, (f2 s).step_id = s.step_id)
    (hf3 : ∀ s, (f3 s).step_id = s.step_id) :
    find_step_record (set_step (set_step (set_step J sid f1) sid f2) sid f3)
      sid = none → False := by
  intro heq
  unfold find_step_record at heq
  rw [set_step_append (set_step (set_step J sid f1) sid f2) l (f2 (f1 r))
    sid f3
    (set_step_append (set_step J sid f1) l (f1 r) sid f2
      (set_step_append J l r sid f1 hJ hfresh hr) hfresh
      ((hf1 r).trans hr))
    hfresh ((hf2 (f1 r)).trans ((hf1 r).trans hr))] at heq
  rw [find_append_fresh l (f3 (f2 (f1 r))) sid hfresh
    ((hf3 (f2 (f1 r))).trans ((hf2 (f1 r)).trans ((hf1 r).trans hr)))
    hnv] at heq
  exact Option.noConfusion heq

theorem step_create_finish_preserved (env : PluginEnv) (now : Nat)
    (J : JobRecord) (set_inf : Bool) (spec4 : StepSpec) (cpt : Nat)
    (batch_step : Bool) (nodeset : Bitmap) (sid lci : Nat)
    (l : List StepRecord) (r : StepRecord)
    (hJ : J.step_list = l ++ [r])
    (hfresh : ∀ t ∈ l, t.step_id ≠ sid) (hr : r.step_id = sid)
    (hnv : sid ≠ NO_VAL) :
    (step_create_finish env now J set_inf spec4 cpt batch_step
        nodeset sid lci).rc ≠ .SLURM_SUCCESS →
    (step_create_finish env now J set_inf spec4 cpt batch_step
        nodeset sid lci).job.step_list = l ∧
    (step_create_finish env now J set_inf spec4 cpt batch_step
        nodeset sid lci).job.job_resrcs = J.job_resrcs ∧
    (step_create_finish env now J set_inf spec4 cpt batch_step
        nodeset sid lci).job.gres_debits = J.gres_debits := by
  obtain ⟨r2, hJ2, hr2⟩ : ∃ r2,
      (if set_inf then
        set_step J sid (fun s => {s with time_limit := INFINITE})
       else J).step_list = l ++ [r2] ∧ r2.step_id = sid := by
    cases set_inf with
    | false => exact ⟨r, hJ, hr⟩
    | true =>
      exact ⟨{r with time_limit := INFINITE},
        set_step_append J l r sid _ hJ hfresh hr, hr⟩
  have hres2 : (if set_inf then
      set_step J sid (fun s => {s with time_limit := INFINITE})
      else J).job_resrcs = J.job_resrcs := by
    cases set_inf with
    | false => rfl
    | true => rfl
  have hgd2 : (if set_inf then
      set_step J sid (fun s => {s with time_limit := INFINITE})
      else J).gres_debits = J.gres_debits := by
    cases set_inf with
    | false => rfl
    | true => rfl
  unfold step_create_finish
  dsimp only
  rw [← hres2, ← hgd2]
  set J2 := (if set_inf then
    set_step J sid (fun s => {s with time_limit := INFINITE})
    else J) with hJ2def
  clear_value J2
  clear hJ2def hJ hr
  split
  · -- batch step: success
    intro hrc
    exact (hrc rfl).elim
  · split
    · -- layout failed: record deleted
      intro hrc
      refine ⟨?_, rfl, rfl⟩
      show remove_step J2.step_list sid = l
      rw [hJ2, remove_step_append_fresh l r2 sid hfresh hr2]
    · -- layout built: split on the default port count, then the branches
      split
      all_goals
        split
        · -- port reservation failed: record deleted
          intro hrc
          refine ⟨?_, rfl, rfl⟩
          show remove_step
            (set_step (set_step J2 sid _) sid _).step_list sid = l
          refine remove_set2 J2 l r2 sid _ _ hJ2 hfresh hr2 ?_ ?_ <;>
            (intro s; rfl)
        · -- ports ok (or none requested)
          split
          · -- switch window build failed: record deleted
            intro hrc
            split
            · refine ⟨?_, rfl, rfl⟩
              show remove_step
                (set_step (set_step J2 sid _) sid _).step_list sid = l
              refine remove_set2 J2 l r2 sid _ _ hJ2 hfresh hr2 ?_ ?_ <;>
                (intro s; rfl)
            · refine ⟨?_, rfl, rfl⟩
              show remove_step (set_step J2 sid _).step_list sid = l
              refine remove_set1 J2 l r2 sid _ hJ2 hfresh hr2 ?_
              intro s
              rfl
          · -- switch ok: the record is necessarily found
            split
            · next heq =>
              exfalso
              revert heq
              split
              · refine find_set3 J2 l r2 sid _ _ _ hJ2 hfresh hr2 hnv
                  ?_ ?_ ?_ <;> (intro s; rfl)
              · refine find_set2 J2 l r2 sid _ _ hJ2 hfresh hr2 hnv
                  ?_ ?_ <;> (intro s; rfl)
            · -- allocation path: success
              intro hrc
              exact (hrc rfl).elim

theorem step_create_with_nodes_preserved (env : PluginEnv) (now : Nat)
    (J : JobRecord) (spec : StepSpec) (cpt occ : Nat) (batch_step : Bool)
    (nodeset : Bitmap) (lci : Nat)
    (hfresh : ∀ s ∈ J.step_list, s.step_id ≠ J.next_step_id) :
    (step_create_with_nodes env now J spec cpt occ batch_step nodeset
        lci).rc ≠ .SLURM_SUCCESS →
    (step_create_with_nodes env now J spec cpt occ batch_step nodeset
        lci).job.step_list = J.step_list ∧
    (step_create_with_nodes env now J spec cpt occ batch_step nodeset
        lci).job.job_resrcs = J.job_resrcs ∧
    (step_create_with_nodes env now J spec cpt occ batch_step nodeset
        lci).job.gres_debits = J.gres_debits := by
  unfold step_create_with_nodes
  dsimp only
  generalize (if spec.num_tasks = NO_VAL then
    ({spec with num_tasks := if spec.cpu_count ≠ NO_VAL then spec.cpu_count
                             else bit_set_count nodeset} : StepSpec)
    else spec) = spec3
  split
  · -- task cap exceeded before any record exists
    intro hrc
    exact ⟨rfl, rfl, rfl⟩
  · -- record creation attempted
    split
    · -- id space exhausted: nothing created
      intro hrc
      exact ⟨rfl, rfl, rfl⟩
    · next created heq =>
      have hlt : ¬ STEP_ID_LIMIT ≤ J.next_step_id := by
        unfold create_step_record at heq
        by_cases h : STEP_ID_LIMIT ≤ J.next_step_id
        · rw [if_pos h] at heq
          exact Option.noConfusion heq
        · exact h
      have hcr : ({J with step_list := J.step_list ++
            [{ step_id := J.next_step_id, step_node_bitmap := [],
               core_bitmap_job := none, cpus_per_task := 0,
               mem_per_cpu := 0, cpu_count := 0, exclusive := false,
               batch_step := false, cyclic_alloc := false, no_kill := 0,
               step_layout := none, exit_node_bitmap := none,
               exit_code := 0, time_limit := INFINITE, start_time := now,
               pre_sus_time := 0, tot_sus_time := 0, gres_handle := 0,
               switch_job := false, resv_port_cnt := 0 }]},
           J.next_step_id) = created := by
        unfold create_step_record at heq
        rw [if_neg hlt] at heq
        exact Option.some.inj heq
      subst hcr
      have hnv : J.next_step_id ≠ NO_VAL := by
        unfold STEP_ID_LIMIT at hlt
        unfold NO_VAL
        omega
      split
      · -- unset/zero/INFINITE time limit: the finish path
        intro hrc
        have h := step_create_finish_preserved env now _ true _ cpt
          batch_step nodeset J.next_step_id lci J.step_list _
          (set_step_append _ J.step_list _ J.next_step_id _ rfl hfresh
            rfl) hfresh rfl hnv hrc
        exact ⟨h.1, h.2.1, h.2.2⟩
      · split
        · -- time limit over the partition cap: record deleted
          intro hrc
          refine ⟨?_, rfl, rfl⟩
          show remove_step (set_step _ J.next_step_id _).step_list
            J.next_step_id = J.step_list
          refine remove_set1 _ J.step_list _ J.next_step_id _ rfl
            hfresh rfl ?_
          intro s
          rfl
        · -- explicit time limit: the finish path
          intro hrc
          have h := step_create_finish_preserved env now _ false _ cpt
            batch_step nodeset J.next_step_id lci J.step_list _
            (set_step_append _ J.step_list _ J.next_step_id _
              (set_step_append _ J.step_list _ J.next_step_id _ rfl
                hfresh rfl) hfresh rfl) hfresh rfl hnv hrc
          exact ⟨h.1, h.2.1, h.2.2⟩

set_option maxHeartbeats 4000000 in
/-- C1: when `step_create` returns an error and the registry holds no stale
record carrying the next step id, the job's step registry and resource
accounting (`step_list`, `cpus_used`, `memory_used`, `core_bitmap_used`,
`gres_debits`) are exactly as they were before the call; every failure past
record creation deletes the record again. -/
theorem C1_spec (env : PluginEnv) (now : Nat) (job : JobRecord)
    (spec0 : StepSpec) (batch_step : Bool) (lci : Nat)
    (hfresh : ∀ s ∈ job.step_list, s.step_id ≠ job.next_step_id) :
    (step_create env now job spec0 batch_step lci).rc ≠ .SLURM_SUCCESS →
    (step_create env now job spec0 batch_step lci).job.step_list =
      job.step_list ∧
    (step_create env now job spec0 batch_step lci).job.job_resrcs.cpus_used =
      job.job_resrcs.cpus_used ∧
    (step_create env now job spec0 batch_step
      lci).job.job_resrcs.memory_used = job.job_resrcs.memory_used ∧
    (step_create env now job spec0 batch_step
      lci).job.job_resrcs.core_bitmap_used =
      job.job_resrcs.core_bitmap_used ∧
    (step_create env now job spec0 batch_step lci).job.gres_debits =
      job.gres_debits := by
  suffices h : ∀ out : CreateResult,
      step_create env now job spec0 batch_step lci = out →
      out.rc ≠ .SLURM_SUCCESS →
      out.job.step_list = job.step_list ∧
      out.job.job_resrcs.cpus_used = job.job_resrcs.cpus_used ∧
      out.job.job_resrcs.memory_used = job.job_resrcs.memory_used ∧
      out.job.job_resrcs.core_bitmap_used =
        job.job_resrcs.core_bitmap_used ∧
      out.job.gres_debits = job.gres_debits by
    exact h _ rfl
  intro out hout
  obtain ⟨hsl, hni, hjr, hgd⟩ := pick_job_fields env now job
    (step_create_normalized spec0)
    (step_create_cpus_per_task (step_create_normalized spec0).cpu_count
      (step_create_normalized spec0).num_tasks) batch_step
  unfold step_create at hout
  revert hout
  repeat' split
  all_goals intro hout
  all_goals rw [← hout]
  all_goals try dsimp only
  all_goals try exact fun _ => ⟨rfl, rfl, rfl, rfl, rfl⟩
  all_goals try (split <;> exact fun _ => ⟨rfl, rfl, rfl, rfl, rfl⟩)
  all_goals try exact fun _ =>
    ⟨hsl, by rw [hjr], by rw [hjr], by rw [hjr], hgd⟩
  all_goals try (split <;>
    first
      | exact fun _ => ⟨rfl, rfl, rfl, rfl, rfl⟩
      | (split <;>
          first
            | exact fun _ =>
                ⟨hsl, by rw [hjr], by rw [hjr], by rw [hjr], hgd⟩
            | skip)
      | skip)
  all_goals intro hrc
  all_goals have hfresh' : ∀ s ∈ (pick_step_nodes env now job
      (step_create_normalized spec0)
      (step_create_cpus_per_task (step_create_normalized spec0).cpu_count
        (step_create_normalized spec0).num_tasks)
      batch_step).job.step_list,
      s.step_id ≠ (pick_step_nodes env now job
        (step_create_normalized spec0)
        (step_create_cpus_per_task (step_create_normalized spec0).cpu_count
          (step_create_normalized spec0).num_tasks)
        batch_step).job.next_step_id := by rw [hsl, hni]; exact hfresh
  all_goals have h := (step_create_with_nodes_preserved env now _ _ _ spec0.cpu_count batch_step _ lci hfresh' hrc)
  all_goals exact ⟨h.1.trans hsl, by rw [h.2.1, hjr], by rw [h.2.1, hjr],
    by rw [h.2.1, hjr], h.2.2.trans hgd⟩

/-- C1 witness: a job-id mismatch fails and preserves the registry and the
accounting of `wJob`. -/
theorem C1_witness :
    (step_create wEnv 0 wJob {wSpec with job_id := 2} false 0).job.step_list
      = wJob.step_list ∧
    (step_create wEnv 0 wJob {wSpec with job_id := 2} false
      0).job.job_resrcs.cpus_used = wJob.job_resrcs.cpus_used ∧
    (step_create wEnv 0 wJob {wSpec with job_id := 2} false
      0).job.job_resrcs.memory_used = wJob.job_resrcs.memory_used ∧
    (step_create wEnv 0 wJob {wSpec with job_id := 2} false
      0).job.job_resrcs.core_bitmap_used =
      wJob.job_resrcs.core_bitmap_used ∧
    (step_create wEnv 0 wJob {wSpec with job_id := 2} false
      0).job.gres_debits = wJob.gres_debits :=
  C1_spec wEnv 0 wJob {wSpec with job_id := 2} false 0 (by decide)
    (by decide)

/-- C8: a job whose step-id counter has reached the sentinel bound
`0xFFFFFFF0` cannot create another step: the record constructor refuses, and
the post-pick path (under a satisfiable task cap) returns the too-many-steps
error with the job, hence the registry, unchanged.  Below the bound the
constructor hands out exactly `next_step_id` as the new record's id,
appending one record to the registry. -/
theorem C8_spec (env : PluginEnv) (now : Nat) (J : JobRecord)
    (spec : StepSpec) (cpt occ : Nat) (batch_step : Bool) (nodeset : Bitmap)
    (lci : Nat) (h_nt : spec.num_tasks ≠ NO_VAL)
    (hcap : ¬ bit_set_count nodeset * env.max_tasks_per_node <
      spec.num_tasks) :
    (STEP_ID_LIMIT ≤ J.next_step_id →
      create_step_record J now = none ∧
      (step_create_with_nodes env now J spec cpt occ batch_step nodeset
        lci).job = J ∧
      (step_create_with_nodes env now J spec cpt occ batch_step nodeset
        lci).rc = .ESLURMD_TOOMANYSTEPS ∧
      (step_create_with_nodes env now J spec cpt occ batch_step nodeset
        lci).created = none) ∧
    (J.next_step_id < STEP_ID_LIMIT →
      create_step_record J now ≠ none ∧
      ∀ cr, create_step_record J now = some cr →
        cr.2 = J.next_step_id ∧
        cr.1.step_list.map (fun s => s.step_id) =
          J.step_list.map (fun s => s.step_id) ++ [J.next_step_id] ∧
        cr.1.next_step_id = J.next_step_id) := by
  constructor
  · intro hlim
    have hnone : create_step_record J now = none := by
      unfold create_step_record
      rw [if_pos hlim]
    have hout : step_create_with_nodes env now J spec cpt occ batch_step
        nodeset lci =
        ⟨J, spec, .ESLURMD_TOOMANYSTEPS, none, lci⟩ := by
      unfold step_create_with_nodes
      dsimp only
      rw [if_neg h_nt, if_neg hcap, hnone]
    exact ⟨hnone, by rw [hout], by rw [hout], by rw [hout]⟩
  · intro hlt
    have hsome : create_step_record J now =
        some ({J with step_list := J.step_list ++
          [{ step_id := J.next_step_id, step_node_bitmap := [],
             core_bitmap_job := none, cpus_per_task := 0, mem_per_cpu := 0,
             cpu_count := 0, exclusive := false, batch_step := false,
             cyclic_alloc := false, no_kill := 0, step_layout := none,
             exit_node_bitmap := none, exit_code := 0,
             time_limit := INFINITE, start_time := now, pre_sus_time := 0,
             tot_sus_time := 0, gres_handle := 0, switch_job := false,
             resv_port_cnt := 0 }]}, J.next_step_id) := by
      unfold create_step_record
      rw [if_neg (Nat.not_le.mpr hlt)]
    refine ⟨by rw [hsome]; exact fun h => Option.noConfusion h, ?_⟩
    intro cr hcr
    rw [hsome] at hcr
    obtain rfl := (Option.some.inj hcr).symm
    exact ⟨rfl, by simp, rfl⟩

/-- C8 witness: the exhausted counter refuses with an unchanged job; the
fresh counter of `wJob` hands out id 1. -/
theorem C8_witness :
    (create_step_record {wJobEmpty with next_step_id := STEP_ID_LIMIT} 0 =
        none ∧
      (step_create_with_nodes wEnv 0
        {wJobEmpty with next_step_id := STEP_ID_LIMIT} wSpec 1 2 false
        [true] 0).job = {wJobEmpty with next_step_id := STEP_ID_LIMIT} ∧
      (step_create_with_nodes wEnv 0
        {wJobEmpty with next_step_id := STEP_ID_LIMIT} wSpec 1 2 false
        [true] 0).rc = .ESLURMD_TOOMANYSTEPS ∧
      (step_create_with_nodes wEnv 0
        {wJobEmpty with next_step_id := STEP_ID_LIMIT} wSpec 1 2 false
        [true] 0).created = none) ∧
    (create_step_record wJob 0 ≠ none ∧
      ∀ cr, create_step_record wJob 0 = some cr →
        cr.2 = wJob.next_step_id ∧
        cr.1.step_list.map (fun s => s.step_id) =
          wJob.step_list.map (fun s => s.step_id) ++ [wJob.next_step_id] ∧
        cr.1.next_step_id = wJob.next_step_id) :=
  ⟨(C8_spec wEnv 0 {wJobEmpty with next_step_id := STEP_ID_LIMIT} wSpec 1 2
      false [true] 0 (by decide) (by decide)).1 (by decide),
   (C8_spec wEnv 0 wJob wSpec 1 2 false [true] 0 (by decide)
      (by decide)).2 (by decide)⟩

/-- The tail of step creation never alters the request task count. -/
theorem step_create_finish_spec_num_tasks (env : PluginEnv) (now : Nat)
    (J2 : JobRecord) (si : Bool) (spec4 : StepSpec) (cpt : Nat) (b : Bool)
    (ns : Bitmap) (sid lci : Nat) :
    (step_create_finish env now J2 si spec4 cpt b ns sid lci).spec.num_tasks
      = spec4.num_tasks := by
  unfold step_create_finish
  dsimp only
  repeat' split
  all_goals rfl

/-- C10: a request with `num_tasks` unset (`NO_VAL`) gets it defaulted right
after node picking to `cpu_count` when that is set and to the picked node
count otherwise; the per-node task cap is then checked against the
defaulted value, rejecting with the bad-task-count error before any record
is created (the job is returned unchanged). -/
theorem C10_spec (env : PluginEnv) (now : Nat) (J : JobRecord)
    (spec : StepSpec) (cpt occ : Nat) (batch_step : Bool) (nodeset : Bitmap)
    (lci : Nat) (h_nv : spec.num_tasks = NO_VAL) :
    (step_create_with_nodes env now J spec cpt occ batch_step nodeset
        lci).spec.num_tasks =
      (if spec.cpu_count ≠ NO_VAL then spec.cpu_count
       else bit_set_count nodeset) ∧
    (bit_set_count nodeset * env.max_tasks_per_node <
        (if spec.cpu_count ≠ NO_VAL then spec.cpu_count
         else bit_set_count nodeset) →
      (step_create_with_nodes env now J spec cpt occ batch_step nodeset
        lci).rc = .ESLURM_BAD_TASK_COUNT ∧
      (step_create_with_nodes env now J spec cpt occ batch_step nodeset
        lci).job = J ∧
      (step_create_with_nodes env now J spec cpt occ batch_step nodeset
        lci).created = none) := by
  constructor
  · unfold step_create_with_nodes
    dsimp only
    rw [if_pos h_nv]
    repeat' split
    all_goals first
      | rfl
      | rw [step_create_finish_spec_num_tasks]
  · intro hcap
    have hout : step_create_with_nodes env now J spec cpt occ batch_step
        nodeset lci =
        ⟨J, {spec with num_tasks :=
          if spec.cpu_count ≠ NO_VAL then spec.cpu_count
          else bit_set_count nodeset},
         .ESLURM_BAD_TASK_COUNT, none, lci⟩ := by
      unfold step_create_with_nodes
      dsimp only
      rw [if_pos h_nv, if_pos hcap]
    exact ⟨by rw [hout], by rw [hout], by rw [hout]⟩

/-- C10 witness: 200 requested cpus default `num_tasks` to 200, tripping
the one-node cap of 128 tasks. -/
theorem C10_witness :
    (step_create_with_nodes wEnv 0 wJobEmpty wSpecNV 1 200 false
        [true] 0).spec.num_tasks =
      (if wSpecNV.cpu_count ≠ NO_VAL then wSpecNV.cpu_count
       else bit_set_count [true]) ∧
    (bit_set_count [true] * wEnv.max_tasks_per_node <
        (if wSpecNV.cpu_count ≠ NO_VAL then wSpecNV.cpu_count
         else bit_set_count [true]) →
      (step_create_with_nodes wEnv 0 wJobEmpty wSpecNV 1 200 false
        [true] 0).rc = .ESLURM_BAD_TASK_COUNT ∧
      (step_create_with_nodes wEnv 0 wJobEmpty wSpecNV 1 200 false
        [true] 0).job = wJobEmpty ∧
      (step_create_with_nodes wEnv 0 wJobEmpty wSpecNV 1 200 false
        [true] 0).created = none) :=
  C10_spec wEnv 0 wJobEmpty wSpecNV 1 200 false [true] 0 (by decide)

/-- C2 counterexample to the frozen text: node 0 has 5 memory units in use,
far less than the mathematical credit `mem_per_cpu * cpus_alloc = 2^32`, yet
the deallocation neither zeroes the counter nor logs a memory underflow: the
`uint32_t` product wraps to `0` (step_mgr.c:1371) and `0` is subtracted. -/
theorem C2_counterexample :
    ([5] : List Nat).getD 0 0 <
      wStepW.mem_per_cpu * (1024 * wStepW.cpus_per_task) ∧
    (step_dealloc_lps true wJobD wStepW).1.job_resrcs.memory_used =
      some [5] ∧
    (⟨0, true⟩ : UnderflowEvent) ∉ (step_dealloc_lps true wJobD wStepW).2 :=
  ⟨by decide, by decide, by decide⟩
